import Mathlib

/-!
# Kubernetes provider spec parsing and validation (juju `caas/kubernetes/provider`)

A shallow embedding of

* `caas/kubernetes/provider/specs/v2.go`: `K8sServiceAccountSpec.Validate`,
  `KubernetesResources.Validate`, `K8sPodSpecV2.Validate`, `podSpecV2`,
  `parsePodSpecV2`;
* `caas/kubernetes/provider/k8stypes.go`: `boolValues`, `parseK8sPodSpec`;
* `juju/tools.go`: `isExecutable`;
* `cmd/juju/caas/gke.go`: `getKubeConfig`, `listProjects`, `queryProject`,
  `listClusters`, `queryCluster`;
* `state/spacesdiscovery.go`: `getModelSubnets`, `SaveSubnetsFromProvider`;
* `caas/kubernetes/provider/k8s.go`, the broker: the file itself is absent, so
  the cloud/region inference, the translator `MakeUnitSpec`, the ensure and
  delete protocols, the storage class resolution and the builders of resource
  objects are modelled from the specification and from `k8s_test.go`.

Conventions of the embedding.

* A Go `error` result is an `Option Error` (`none` is `nil`); a Go `(T, error)`
  result is an `Except Error T`.
* A Go map is the list of its entries in the order in which `range` visits
  them (`GoMap`).  Go leaves that order unspecified, so a statement proved for
  every list holds for every order the runtime may pick.  A `nil` map and an
  empty map are both the empty list: `range` visits nothing and a lookup
  misses in both.
* A Go pointer or interface that may be `nil` is an `Option`.
* Library routines that are not part of this repository (the YAML/JSON
  decoders, the `%q` verb of `fmt`) and methods declared outside the embedded
  files (`RBACSpec.Validate`) are parameters.
-/

set_option linter.dupNamespace false

namespace Juju

/-! ## Errors (`github.com/juju/errors`) -/

/-- The error classes of `juju/errors` the embedded code produces. -/
inductive ErrKind where
  | plain
  | notSupported
  | notValid
  deriving DecidableEq, Repr

/-- An error value: its class and the text `Error()` returns. -/
structure Error where
  kind : ErrKind
  msg : String
  deriving DecidableEq, Repr

namespace errors

/-- Go `errors.New(msg)`. -/
def New (msg : String) : Error := ⟨.plain, msg⟩

/-- Go `errors.NewNotSupported(nil, msg)`. -/
def NewNotSupported (msg : String) : Error := ⟨.notSupported, msg⟩

/-- Go `errors.NewNotValid(nil, msg)`. -/
def NewNotValid (msg : String) : Error := ⟨.notValid, msg⟩

/-- Go `errors.NotValidf(format, args...)` on the already formatted text: the
library appends `" not valid"`. -/
def NotValidf (formatted : String) : Error := ⟨.notValid, formatted ++ " not valid"⟩

/-- Go `errors.Trace(err)`: records the call site and keeps class and message;
`Trace(nil)` is `nil`. -/
def Trace (err : Option Error) : Option Error := err

end errors

/-! ## Go maps -/

/-- A Go map as the list of its entries in `range` order. -/
abbrev GoMap (κ ν : Type) := List (κ × ν)

namespace GoMap

variable {κ ν : Type} [DecidableEq κ]

/-- The comma-ok lookup `v, ok := m[k]`. -/
def get? (m : GoMap κ ν) (k : κ) : Option ν :=
  match m with
  | [] => none
  | (k', v) :: rest => if k' = k then some v else get? rest k

/-- The keys of the map, in `range` order. -/
def keys (m : GoMap κ ν) : List κ := m.map Prod.fst

/-- The assignment `m[k] = v`: overwrite the entry of `k` in place, or add one. -/
def set (m : GoMap κ ν) (k : κ) (v : ν) : GoMap κ ν :=
  match m with
  | [] => [(k, v)]
  | (k', v') :: rest => if k' = k then (k', v) :: rest else (k', v') :: set rest k v

/-- Well-formedness of a map value: no key occurs twice. -/
def WF (m : GoMap κ ν) : Prop := (keys m).Nodup

instance decidableWF (m : GoMap κ ν) : Decidable (WF m) :=
  inferInstanceAs (Decidable (keys m).Nodup)

end GoMap

/-! ## Dynamically typed values (`interface{}` after decoding) -/

/-- A decoded `interface{}` value: a string, a boolean, or anything else
(number, null, sequence, mapping), the latter kept by its rendering. -/
inductive Value where
  | str (s : String)
  | bool (b : Bool)
  | other (rendering : String)
  deriving DecidableEq, Repr

/-! ## `specs/v2.go` -/

namespace specs

/-- The constant `apiextensionsv1beta1.NamespaceScoped`. -/
def NamespaceScoped : String := "Namespaced"

/-- The constant `apiextensionsv1beta1.ClusterScoped`. -/
def ClusterScoped : String := "Cluster"

/-- The type `apiextensionsv1beta1.CustomResourceDefinitionSpec`, the fields charms set. -/
structure CustomResourceDefinitionSpec where
  Group : String := ""
  Version : String := ""
  Kind : String := ""
  Scope : String := ""
  deriving DecidableEq, Repr

/-- The type `unstructured.Unstructured`: a free-form object. -/
structure Unstructured where
  Object : GoMap String Value := []
  deriving DecidableEq, Repr

/-- The type `Secret` of the `specs` package (declared in another file; `Validate`
does not read it). -/
structure Secret where
  Name : String := ""
  StringData : GoMap String String := []
  deriving DecidableEq, Repr

/-- The type `PodSpec` of the `specs` package, the Kubernetes pod attributes (declared
in another file; `Validate` does not read it). -/
structure PodSpec where
  RestartPolicy : String := ""
  Hostname : String := ""
  deriving DecidableEq, Repr

/-- The type `K8sServiceAccountSpec`: a name and the inlined `specs.RBACSpec`, whose
type `R` is declared in `caas/specs`. -/
structure K8sServiceAccountSpec (R : Type) where
  Name : String
  RBACSpec : R

/-- Method `K8sServiceAccountSpec.GetName`. -/
def K8sServiceAccountSpec.GetName {R : Type} (sa : K8sServiceAccountSpec R) : String :=
  sa.Name

/-- Method `K8sServiceAccountSpec.GetSpec`. -/
def K8sServiceAccountSpec.GetSpec {R : Type} (sa : K8sServiceAccountSpec R) : R :=
  sa.RBACSpec

/-- Method `K8sServiceAccountSpec.Validate`; `rbacValidate` is `RBACSpec.Validate`. -/
def K8sServiceAccountSpec.Validate {R : Type} (rbacValidate : R → Option Error)
    (sa : K8sServiceAccountSpec R) : Option Error :=
  if sa.Name = "" then
    some (errors.New "service account name is missing")
  else
    errors.Trace (rbacValidate sa.RBACSpec)

/-- The type `KubernetesResources`. -/
structure KubernetesResources (R : Type) where
  Pod : Option PodSpec := none
  Secrets : List Secret := []
  CustomResourceDefinitions : GoMap String CustomResourceDefinitionSpec := []
  CustomResources : GoMap String (List Unstructured) := []
  ServiceAccounts : List (K8sServiceAccountSpec R) := []

/-- First loop of `KubernetesResources.Validate`, over the entries of
`CustomResourceDefinitions`; `q` is the `%q` verb. -/
def validateCRDs (q : String → String) :
    GoMap String CustomResourceDefinitionSpec → Option Error
  | [] => none
  | (k, crd) :: rest =>
    if crd.Scope ≠ NamespaceScoped then
      some (errors.NewNotSupported
        ("custom resource definition " ++ q k ++ " scope " ++ q crd.Scope ++
          " is not supported, please use " ++ q NamespaceScoped ++ " scope"))
    else
      validateCRDs q rest

/-- Second loop of `KubernetesResources.Validate`, over the entries of
`CustomResources`, looking each key up in `crds`. -/
def validateCRs (q : String → String) (crds : GoMap String CustomResourceDefinitionSpec) :
    GoMap String (List Unstructured) → Option Error
  | [] => none
  | (k, crs) :: rest =>
    if (GoMap.get? crds k).isNone then
      some (errors.NewNotValid
        ("no custom resource definition found for custom resource " ++ q k))
    else if crs.length = 0 then
      some (errors.NotValidf ("empty custom resources " ++ q k))
    else
      validateCRs q crds rest

/-- Third loop of `KubernetesResources.Validate`, over `ServiceAccounts`. -/
def validateServiceAccounts {R : Type} (rbacValidate : R → Option Error) :
    List (K8sServiceAccountSpec R) → Option Error
  | [] => none
  | sa :: rest =>
    match sa.Validate rbacValidate with
    | some err => errors.Trace (some err)
    | none => validateServiceAccounts rbacValidate rest

/-- Method `KubernetesResources.Validate`. -/
def KubernetesResources.Validate {R : Type} (q : String → String)
    (rbacValidate : R → Option Error) (krs : KubernetesResources R) : Option Error :=
  match validateCRDs q krs.CustomResourceDefinitions with
  | some err => some err
  | none =>
    match validateCRs q krs.CustomResourceDefinitions krs.CustomResources with
    | some err => some err
    | none => validateServiceAccounts rbacValidate krs.ServiceAccounts

end specs

/-! ## Package `caas`: the provider-neutral pod model used by `k8stypes.go` -/

namespace caas

/-- The type `caas.ImageDetails`: a private-registry image reference. -/
structure ImageDetails where
  ImagePath : String := ""
  Username : String := ""
  Password : String := ""
  deriving DecidableEq, Repr

/-- The type `caas.ContainerPort`. -/
structure ContainerPort where
  ContainerPort : Int := 0
  Protocol : String := ""
  Name : String := ""
  deriving DecidableEq, Repr

/-- The type `caas.FileSet`: files to mount in a container. -/
structure FileSet where
  Name : String := ""
  MountPath : String := ""
  Files : GoMap String String := []
  deriving DecidableEq, Repr

/-- The type `caas.CustomResourceDefinition`, by the fields the tests set. -/
structure CustomResourceDefinition where
  Kind : String := ""
  Group : String := ""
  Version : String := ""
  Scope : String := ""
  deriving DecidableEq, Repr

end caas

namespace provider

/-- The type `core.Probe` of the Kubernetes API, by the fields the tests set. -/
structure Probe where
  InitialDelaySeconds : Int := 0
  SuccessThreshold : Int := 0
  HTTPGetPath : Option String := none
  deriving DecidableEq, Repr

/-- The type `K8sContainerSpec`: the subset of `v1.Container` charms may set. -/
structure K8sContainerSpec where
  LivenessProbe : Option Probe := none
  ReadinessProbe : Option Probe := none
  ImagePullPolicy : String := ""
  deriving DecidableEq, Repr

/-- Method `(*K8sContainerSpec).Validate`: the receiver is a pointer that is
never dereferenced, so the method also answers on `nil`. -/
def K8sContainerSpec.Validate (_ : Option K8sContainerSpec) : Option Error := none

/-- The type `core.PodSecurityContext`, by the field the tests set. -/
structure PodSecurityContext where
  RunAsNonRoot : Option Bool := none
  deriving DecidableEq, Repr

/-- The type `core.PodDNSConfig`, by the field the tests set. -/
structure PodDNSConfig where
  Nameservers : List String := []
  deriving DecidableEq, Repr

/-- The type `K8sPodSpec`: the subset of `v1.PodSpec` charms may set. -/
structure K8sPodSpec where
  ServiceAccountName : String := ""
  RestartPolicy : String := ""
  TerminationGracePeriodSeconds : Option Int := none
  ActiveDeadlineSeconds : Option Int := none
  DNSPolicy : String := ""
  AutomountServiceAccountToken : Option Bool := none
  SecurityContext : Option PodSecurityContext := none
  Hostname : String := ""
  Subdomain : String := ""
  PriorityClassName : String := ""
  Priority : Option Int := none
  DNSConfig : Option PodDNSConfig := none
  ReadinessGates : List String := []
  deriving DecidableEq, Repr

/-- Method `(*K8sPodSpec).Validate`. -/
def K8sPodSpec.Validate (_ : Option K8sPodSpec) : Option Error := none

end provider

namespace caas

/-- The type `caas.ContainerSpec`.  `ProviderContainer` is the embedded
interface `caas.ProviderContainer`; the only implementation in the program is
`*K8sContainerSpec`. -/
structure ContainerSpec where
  Name : String := ""
  Image : String := ""
  ImageDetails : ImageDetails := {}
  Ports : List ContainerPort := []
  Command : List String := []
  Args : List String := []
  WorkingDir : String := ""
  Config : GoMap String Value := []
  Files : List FileSet := []
  ProviderContainer : Option provider.K8sContainerSpec := none
  deriving DecidableEq, Repr

/-- The type `caas.PodSpec`.  `ProviderPod` is the embedded interface
`caas.ProviderPod`; the only implementation in the program is `*K8sPodSpec`. -/
structure PodSpec where
  Containers : List ContainerSpec := []
  CustomResourceDefinitions : List CustomResourceDefinition := []
  ProviderPod : Option provider.K8sPodSpec := none
  deriving DecidableEq, Repr

end caas

/-! ## `k8stypes.go` -/

namespace provider

/-- The type `caasContainerSpec`, declared as `caas.ContainerSpec`. -/
abbrev caasContainerSpec := caas.ContainerSpec

/-- The type `k8sContainer`: the common container fields and the optional
Kubernetes container attributes, both inlined. -/
structure k8sContainer where
  caasContainerSpec : caasContainerSpec := {}
  K8sContainerSpec : Option K8sContainerSpec := none
  deriving DecidableEq, Repr

/-- Method `Validate` of `k8sContainer`: promoted from the embedded
`*K8sContainerSpec`, the shallowest field that has it. -/
def k8sContainer.Validate (c : k8sContainer) : Option Error :=
  K8sContainerSpec.Validate c.K8sContainerSpec

/-- The type `k8sContainers`. -/
structure k8sContainers where
  Containers : List k8sContainer := []
  deriving DecidableEq, Repr

/-- The type `caasPodSpec`, declared as `caas.PodSpec`. -/
abbrev caasPodSpec := caas.PodSpec

/-- The type `k8sPod`. -/
structure k8sPod where
  caasPodSpec : caasPodSpec := {}
  K8sPodSpec : Option K8sPodSpec := none
  deriving DecidableEq, Repr

/-- Go `strings.Split` on the characters of the text, for a one-character
separator. -/
def splitChars (sep : Char) : List Char → List (List Char)
  | [] => [[]]
  | c :: cs =>
    match splitChars sep cs with
    | [] => [[c]]
    | w :: ws => if c = sep then [] :: w :: ws else (c :: w) :: ws

/-- Go `strings.Split(s, sep)` for a one-character separator. -/
def stringsSplit (s : String) (sep : Char) : List String :=
  (splitChars sep s.data).map String.mk

/-- The variable `boolValues`: the set of the strings YAML reads as booleans. -/
def boolValues : List String :=
  stringsSplit
    "y|Y|yes|Yes|YES|n|N|no|No|NO|true|True|TRUE|false|False|FALSE|on|On|ON|off|Off|OFF" '|'

/-- Go `fmt.Sprintf("'%s'", s)`. -/
def sprintfQuoted (s : String) : String := "'" ++ s ++ "'"

/-- One step of the inner loop of the quoting pass: the body run for the entry
`(k, v)` on the map `m`. -/
def quoteStep (m : GoMap String Value) (kv : String × Value) : GoMap String Value :=
  match kv.2 with
  | .str strValue =>
    if strValue ∈ boolValues then GoMap.set m kv.1 (.str (sprintfQuoted strValue)) else m
  | _ => m

/-- The inner loop of the quoting pass, `for k, v := range container.Config`,
which assigns into the map it ranges over. -/
def quoteConfig (cfg : GoMap String Value) : GoMap String Value :=
  cfg.foldl quoteStep cfg

/-- The outer loop body of the quoting pass for one container: the map is
shared with the ranged-over copy, so the update shows in the container. -/
def quoteContainer (c : k8sContainer) : k8sContainer :=
  { c with caasContainerSpec := { c.caasContainerSpec with Config := quoteConfig c.caasContainerSpec.Config } }

/-- The body of the composing loop after the validation check: the
`caas.ContainerSpec` literal and the conditional `ProviderContainer`. -/
def composeContainer (c : k8sContainer) : caas.ContainerSpec :=
  let out : caas.ContainerSpec :=
    { ImageDetails := c.caasContainerSpec.ImageDetails
      Name := c.caasContainerSpec.Name
      Image := c.caasContainerSpec.Image
      Ports := c.caasContainerSpec.Ports
      Command := c.caasContainerSpec.Command
      Args := c.caasContainerSpec.Args
      WorkingDir := c.caasContainerSpec.WorkingDir
      Config := c.caasContainerSpec.Config
      Files := c.caasContainerSpec.Files }
  match c.K8sContainerSpec with
  | some k => { out with ProviderContainer := some k }
  | none => out

/-- The composing loop, `for i, c := range containers.Containers`: stops at the
first container that fails validation. -/
def composeContainers : List k8sContainer → Except Error (List caas.ContainerSpec)
  | [] => .ok []
  | c :: rest =>
    match c.Validate with
    | some err => .error err
    | none =>
      match composeContainers rest with
      | .error err => .error err
      | .ok out => .ok (composeContainer c :: out)

/-- The three decoding passes `parseK8sPodSpec` runs over its input: they are
library code (`yaml.Unmarshal`, `k8syaml.NewYAMLOrJSONDecoder(...).Decode`). -/
structure Decoders where
  unmarshalSpec : String → Except Error caas.PodSpec
  decodePod : String → Except Error k8sPod
  decodeContainers : String → Except Error k8sContainers

/-- Function `parseK8sPodSpec`.  A failing pass hands its error on
(`errors.Trace` keeps the error). -/
def parseK8sPodSpec (dec : Decoders) (input : String) : Except Error caas.PodSpec :=
  match dec.unmarshalSpec input with
  | .error err => .error err
  | .ok spec0 =>
    match dec.decodePod input with
    | .error err => .error err
    | .ok pod =>
      let spec : caas.PodSpec :=
        match pod.K8sPodSpec with
        | some p => { spec0 with ProviderPod := some p }
        | none => spec0
      match dec.decodeContainers input with
      | .error err => .error err
      | .ok containers =>
        if containers.Containers.length = 0 then
          .error (errors.New "require at least one container spec")
        else
          match composeContainers (containers.Containers.map quoteContainer) with
          | .error err => .error err
          | .ok out => .ok { spec with Containers := out }

end provider

/-! ## Reading aids for the statements

The effect of the quoting pass on one value, the case-insensitive reading of
"boolean-like", and the projections used to compare results. -/

namespace provider

/-- What the quoting pass leaves in place of the value `v`: a string found in
`boolValues` gets single quotes, anything else stays. -/
def quoteValue (v : Value) : Value :=
  match v with
  | .str strValue => if strValue ∈ boolValues then .str (sprintfQuoted strValue) else v
  | _ => v

/-- The entry the quoting pass leaves in place of `kv`. -/
def quoteEntry (kv : String × Value) : String × Value := (kv.1, quoteValue kv.2)

/-- The eight boolean-like words, in lower case. -/
def boolTokens : List String := ["y", "n", "yes", "no", "true", "false", "on", "off"]

/-- The characters of `s` in lower case. -/
def lowerChars (s : String) : List Char := s.data.map Char.toLower

/-- Whether `s` equals one of the eight boolean-like words once letter case
is ignored. -/
def boolLikeIgnoringCase (s : String) : Bool :=
  boolTokens.any (fun t => decide (lowerChars s = lowerChars t))

/-- The common fields of a container: the provider extension is cleared. -/
def commonContainer (c : caas.ContainerSpec) : caas.ContainerSpec :=
  { c with ProviderContainer := none }

/-- The common fields of a pod specification: the provider extensions of the
pod and of every container are cleared. -/
def commonFields (spec : caas.PodSpec) : caas.PodSpec :=
  { spec with ProviderPod := none, Containers := spec.Containers.map commonContainer }

/-- The decoders that read the same text as `dec` but find no provider
extension in it, neither on the pod nor on a container. -/
def withoutExtensions (dec : Decoders) : Decoders :=
  { unmarshalSpec := dec.unmarshalSpec
    decodePod := fun s =>
      match dec.decodePod s with
      | .error err => .error err
      | .ok pod => .ok { pod with K8sPodSpec := none }
    decodeContainers := fun s =>
      match dec.decodeContainers s with
      | .error err => .error err
      | .ok cs =>
        .ok { Containers := cs.Containers.map (fun c => { c with K8sContainerSpec := none }) } }

end provider

/-! ## Sample values -/

namespace samples

open specs provider

/-- A stand-in for the `%q` verb on texts that need no escaping. -/
def quoteVerb (s : String) : String := "\"" ++ s ++ "\""

/-- An RBAC validation that accepts everything. -/
def rbacAccept (_ : Unit) : Option Error := none

/-- A cluster-scoped definition `tfjobs.kubeflow.org`. -/
def clusterCrd : CustomResourceDefinitionSpec :=
  { Group := "kubeflow.org", Version := "v1alpha2", Kind := "TFJob", Scope := "Cluster" }

/-- A namespace-scoped definition `tfjobs.kubeflow.org`. -/
def namespacedCrd : CustomResourceDefinitionSpec :=
  { Group := "kubeflow.org", Version := "v1alpha2", Kind := "TFJob", Scope := "Namespaced" }

/-- Resources declaring one cluster-scoped definition. -/
def krsClusterScoped : KubernetesResources Unit :=
  { CustomResourceDefinitions := [("tfjobs.kubeflow.org", clusterCrd)] }

/-- Resources with an instance list under a key that no definition declares
(the definitions map is absent). -/
def krsDangling : KubernetesResources Unit :=
  { CustomResources := [("tfjobs.kubeflow.org", [{ Object := [("kind", .str "TFJob")] }])] }

/-- Resources with an empty instance list under a declared key. -/
def krsEmptyList : KubernetesResources Unit :=
  { CustomResourceDefinitions := [("tfjobs.kubeflow.org", namespacedCrd)]
    CustomResources := [("tfjobs.kubeflow.org", [])] }

/-- A service account entry without a name. -/
def namelessAccount : K8sServiceAccountSpec Unit := { Name := "", RBACSpec := () }

/-- Resources with a nameless service account after a named one. -/
def krsNameless : KubernetesResources Unit :=
  { ServiceAccounts := [{ Name := "build-robot", RBACSpec := () }, namelessAccount] }

/-- Decoders that answer every text with the given decoded values. -/
def constDecoders (spec : caas.PodSpec) (pod : k8sPod) (cs : List k8sContainer) : Decoders :=
  { unmarshalSpec := fun _ => .ok spec
    decodePod := fun _ => .ok pod
    decodeContainers := fun _ => .ok { Containers := cs } }

/-- A text with an empty `containers` list. -/
def noContainersText : String := "containers: []\n"

/-- The decoded form of `noContainersText`. -/
def noContainers : Decoders := constDecoders {} {} []

/-- A text whose container has the configuration entry `flag: "yES"`. -/
def mixedCaseText : String :=
  "containers:\n- name: test\n  image: juju/image\n  config:\n    flag: \"yES\"\n"

/-- A text whose container has the configuration entry `restricted: "'yes'"`. -/
def quotedText : String :=
  "containers:\n- name: test\n  image: juju/image\n  config:\n    restricted: \"'yes'\"\n"

/-- A text with two containers, the first with string and boolean
configuration values and a pull policy, and a pod service account name. -/
def testText : String :=
  "serviceAccountName: serviceAccount\ncontainers:\n- name: test\n  image: juju/image\n" ++
  "  workingDir: /path/to/here\n  imagePullPolicy: Always\n  config:\n    foo: bar\n" ++
  "    restricted: \"yes\"\n    bar: true\n    switch: \"on\"\n" ++
  "- name: test2\n  image: juju/image2\n"

/-- A container whose configuration holds the mixed-case word `yES`. -/
def mixedCaseContainer : k8sContainer :=
  { caasContainerSpec := { Name := "test", Image := "juju/image", Config := [("flag", .str "yES")] } }

/-- A container whose configuration holds the already quoted word `'yes'`. -/
def quotedContainer : k8sContainer :=
  { caasContainerSpec :=
      { Name := "test", Image := "juju/image", Config := [("restricted", .str "'yes'")] } }

/-- The first container of `testText`. -/
def testContainer : k8sContainer :=
  { caasContainerSpec :=
      { Name := "test"
        Image := "juju/image"
        WorkingDir := "/path/to/here"
        Config := [("foo", .str "bar"), ("restricted", .str "yes"), ("bar", .bool true),
          ("switch", .str "on")] }
    K8sContainerSpec := some { ImagePullPolicy := "Always" } }

/-- The second container of `testText`: no extension. -/
def testContainer2 : k8sContainer :=
  { caasContainerSpec := { Name := "test2", Image := "juju/image2" } }

/-- The decoded form of `testText`. -/
def testDecoders : Decoders :=
  constDecoders {} { K8sPodSpec := some { ServiceAccountName := "serviceAccount" } }
    [testContainer, testContainer2]

/-- The specification `parseK8sPodSpec` returns for `testText`. -/
def testResult : caas.PodSpec :=
  { Containers :=
      [{ Name := "test"
         Image := "juju/image"
         WorkingDir := "/path/to/here"
         Config := [("foo", .str "bar"), ("restricted", .str "'yes'"), ("bar", .bool true),
           ("switch", .str "'on'")]
         ProviderContainer := some { ImagePullPolicy := "Always" } },
       { Name := "test2", Image := "juju/image2" }]
    ProviderPod := some { ServiceAccountName := "serviceAccount" } }

end samples

/-! ## The broker of `k8s.go`

The file `caas/kubernetes/provider/k8s.go` is not among the embedded sources;
only its tests (`k8s_test.go`) are.  What the claims need of it is modelled
from the specification, with the label names, resource names and call
sequences taken from the tests.  The cluster API client is a parameter, or,
where a claim speaks of the state of the cluster, a store of objects. -/

namespace core

/-- The type `core.Node` of the Kubernetes API: a name and labels. -/
structure Node where
  Name : String := ""
  Labels : GoMap String String := []
  deriving DecidableEq, Repr

end core

/-- The errors the cluster API answers with: the two status errors the broker
tells apart, and every other failure. -/
inductive APIError where
  | notFound
  | alreadyExists
  | failure (msg : String)
  deriving DecidableEq, Repr

namespace broker

/-- Modelled from the spec: the node-pool label of `k8s.go`,
`cloud.google.com/gke-nodepool` (from the tests). -/
def labelGKENodePool : String := "cloud.google.com/gke-nodepool"

/-- Modelled from the spec: the OS-distribution label of `k8s.go`,
`cloud.google.com/gke-os-distribution` (from the tests). -/
def labelGKEOSDistribution : String := "cloud.google.com/gke-os-distribution"

/-- Modelled from the spec: the Azure cluster-identity label of `k8s.go`,
`kubernetes.azure.com/cluster` (from the tests). -/
def labelAzureCluster : String := "kubernetes.azure.com/cluster"

/-- Modelled from the spec: the manufacturer label of `k8s.go`, `manufacturer`
(from the tests). -/
def labelManufacturer : String := "manufacturer"

/-- Modelled from the spec: the region label of `k8s.go`,
`failure-domain.beta.kubernetes.io/region` (from the tests). -/
def regionLabelName : String := "failure-domain.beta.kubernetes.io/region"

/-- Modelled from the spec: the test "carries a label" of the cloud/region
inference of `k8s.go`: the key is among the node's labels, whatever its
value. -/
def hasLabel (n : core.Node) (k : String) : Bool := (GoMap.get? n.Labels k).isSome

/-- Modelled from the spec: the Google rule of the cloud/region inference of
`k8s.go`, "a node qualifies as Google-managed only if it carries both a
node-pool label and an OS-distribution label". -/
def isGoogleNode (n : core.Node) : Bool :=
  hasLabel n labelGKENodePool && hasLabel n labelGKEOSDistribution

/-- Modelled from the spec: the Azure rule of the cloud/region inference of
`k8s.go`, "as Azure-managed only if it carries an Azure cluster-identity
label". -/
def isAzureNode (n : core.Node) : Bool := hasLabel n labelAzureCluster

/-- Modelled from the spec: the Amazon rule of the cloud/region inference of
`k8s.go`, "as Amazon-managed only if its manufacturer label equals
amazon_ec2". -/
def isAmazonNode (n : core.Node) : Bool :=
  decide (GoMap.get? n.Labels labelManufacturer = some "amazon_ec2")

/-- Modelled from the spec: the clouds a node qualifies for in the
cloud/region inference of `k8s.go`, under the names the tests expect. -/
def nodeClouds (n : core.Node) : List String :=
  (if isGoogleNode n then ["gce"] else []) ++
    (if isAzureNode n then ["azure"] else []) ++
    (if isAmazonNode n then ["ec2"] else [])

/-- Modelled from the spec: what one node contributes to the cloud/region
inference of `k8s.go`, "a qualifying node additionally contributes a region
only if a region label is present; nodes lacking any of these marker
combinations contribute nothing". -/
def nodeCloudRegions (n : core.Node) : List String :=
  match GoMap.get? n.Labels regionLabelName with
  | none => []
  | some region => (nodeClouds n).map (fun cloud => cloud ++ "/" ++ region)

/-- Modelled from the spec: `ListHostCloudRegions` of `k8s.go`.  It asks the
cluster for a page of five nodes (`listNodes`, the client call of the tests),
hands a failure of that call on, and otherwise returns the union of what the
sampled nodes contribute. -/
def ListHostCloudRegions (listNodes : Nat → Except APIError (List core.Node)) :
    Except APIError (Finset String) :=
  match listNodes 5 with
  | .error err => .error err
  | .ok nodes => .ok (nodes.flatMap nodeCloudRegions).toFinset

end broker

namespace samples

/-- The helper `newNodeList` of the tests: a one-node sample with the given
labels, answered to every page request. -/
def newNodeList (labels : GoMap String String) : Nat → Except APIError (List core.Node) :=
  fun _ => .ok [{ Name := "node", Labels := labels }]

end samples

/-! ### The translator `MakeUnitSpec` -/

namespace core

/-- The type `core.EnvVar` of the Kubernetes API. -/
structure EnvVar where
  Name : String := ""
  Value : String := ""
  deriving DecidableEq, Repr

/-- The type `core.ContainerPort` of the Kubernetes API. -/
structure ContainerPort where
  ContainerPort : Int := 0
  Protocol : String := ""
  Name : String := ""
  deriving DecidableEq, Repr

/-- The type `core.LocalObjectReference` of the Kubernetes API. -/
structure LocalObjectReference where
  Name : String := ""
  deriving DecidableEq, Repr

/-- The type `core.Container` of the Kubernetes API, by the fields the
translator fills. -/
structure Container where
  Name : String := ""
  Image : String := ""
  Ports : List ContainerPort := []
  Command : List String := []
  Args : List String := []
  WorkingDir : String := ""
  Env : List EnvVar := []
  ImagePullPolicy : String := ""
  LivenessProbe : Option provider.Probe := none
  ReadinessProbe : Option provider.Probe := none
  deriving DecidableEq, Repr

/-- The type `core.PodSpec` of the Kubernetes API, by the fields the
translator fills. -/
structure PodSpec where
  ServiceAccountName : String := ""
  RestartPolicy : String := ""
  TerminationGracePeriodSeconds : Option Int := none
  ActiveDeadlineSeconds : Option Int := none
  DNSPolicy : String := ""
  AutomountServiceAccountToken : Option Bool := none
  SecurityContext : Option provider.PodSecurityContext := none
  Hostname : String := ""
  Subdomain : String := ""
  PriorityClassName : String := ""
  Priority : Option Int := none
  DNSConfig : Option provider.PodDNSConfig := none
  ReadinessGates : List String := []
  ImagePullSecrets : List LocalObjectReference := []
  Containers : List Container := []
  deriving DecidableEq, Repr

end core

namespace broker

/-- Modelled from the spec: the boolean-like strings the translator of
`k8s.go` reads as `true`, the members of `boolValues` for the words y, yes,
true and on. -/
def trueWords : List String :=
  ["y", "Y", "yes", "Yes", "YES", "true", "True", "TRUE", "on", "On", "ON"]

/-- Modelled from the spec: the boolean-like strings the translator of
`k8s.go` reads as `false`, the members of `boolValues` for the words n, no,
false and off. -/
def falseWords : List String :=
  ["n", "N", "no", "No", "NO", "false", "False", "FALSE", "off", "Off", "OFF"]

/-- Go `strconv.FormatBool`. -/
def formatBool (b : Bool) : String := if b then "true" else "false"

/-- Modelled from the spec: the normalization of the translator of `k8s.go`,
"a value wrapped in single quotes has the quotes stripped": the text between
the quotes when `s` starts and ends with a single quote. -/
def unquote (s : String) : Option String :=
  match s.data with
  | '\'' :: rest =>
    if rest.getLast? = some '\'' then some (String.mk rest.dropLast) else none
  | _ => none

/-- Modelled from the spec: how the translator of `k8s.go` renders one
configuration value, "booleans render as the literal tokens true/false;
strings pass through, with one normalization: a value wrapped in single
quotes has the quotes stripped", and "a string entry matching a boolean-like
token (on) yields true".  An unquoted boolean-like string is coerced to the
boolean it spells (the coercion the quoting pass of `parseK8sPodSpec` guards
against) and rendered as that boolean. -/
def renderValue (v : Value) : String :=
  match v with
  | .bool b => formatBool b
  | .str s =>
    match unquote s with
    | some inner => inner
    | none =>
      if s ∈ trueWords then formatBool true
      else if s ∈ falseWords then formatBool false
      else s
  | .other rendering => rendering

/-- Modelled from the spec: the order of the environment entries of the
translator of `k8s.go`, "sorted by key name": by name, characters compared in
turn (the order of Go's `<` on strings). -/
def envLE (a b : core.EnvVar) : Prop := a.Name.data ≤ b.Name.data

instance decidableEnvLE : DecidableRel envLE :=
  fun a b => inferInstanceAs (Decidable (a.Name.data ≤ b.Name.data))

/-- Modelled from the spec: the environment the translator of `k8s.go` emits
for a container's configuration, "iterate the container's configuration
mapping; for each entry, stringify the value; emit one environment entry per
key, sorted by key name for deterministic output". -/
def containerEnv (cfg : GoMap String Value) : List core.EnvVar :=
  List.insertionSort envLE (cfg.map (fun kv => { Name := kv.1, Value := renderValue kv.2 }))

/-- Modelled from the spec: the port mapping of the translator of `k8s.go`,
"numeric port + protocol, defaulting protocol to TCP when unspecified". -/
def makePort (p : caas.ContainerPort) : core.ContainerPort :=
  { ContainerPort := p.ContainerPort
    Protocol := if p.Protocol = "" then "TCP" else p.Protocol
    Name := p.Name }

/-- Modelled from the spec: the image of a container in the translator of
`k8s.go`, "either a bare string or a path, username, password triple": the
path of the image details when given, otherwise the bare image string (both
forms occur in the tests). -/
def containerImage (c : caas.ContainerSpec) : String :=
  if c.ImageDetails.ImagePath = "" then c.Image else c.ImageDetails.ImagePath

/-- Modelled from the spec: steps 2, 3 and 5 of the translator of `k8s.go`
for one container: name, image, ports, command, args and working directory
mapped one to one, the environment, and the provider container extension
laid over the native entry when present. -/
def makeContainer (c : caas.ContainerSpec) : core.Container :=
  let native : core.Container :=
    { Name := c.Name
      Image := containerImage c
      Ports := c.Ports.map makePort
      Command := c.Command
      Args := c.Args
      WorkingDir := c.WorkingDir
      Env := containerEnv c.Config }
  match c.ProviderContainer with
  | some k =>
    { native with
      ImagePullPolicy := k.ImagePullPolicy
      LivenessProbe := k.LivenessProbe
      ReadinessProbe := k.ReadinessProbe }
  | none => native

/-- Modelled from the spec: the name of the image-pull secret of a container
in `k8s.go`, the pattern `<app>-<container>-secret`. -/
def appSecretName (appName containerName : String) : String :=
  appName ++ "-" ++ containerName ++ "-secret"

/-- Modelled from the spec: the test of step 4 of the translator of
`k8s.go`, "the image reference is a private-registry triple (non-empty
username)". -/
def isPrivateImage (c : caas.ContainerSpec) : Bool := decide (c.ImageDetails.Username ≠ "")

/-- An image-pull secret the translator registers: its name and its
docker-config-json payload. -/
structure ImageSecret where
  Name : String
  Data : String
  deriving DecidableEq, Repr

/-- The result of the translator: the native pod specification and the
image-pull secrets to create for it. -/
structure unitSpec where
  Pod : core.PodSpec := {}
  Secrets : List ImageSecret := []
  deriving DecidableEq, Repr

/-- The conversion `PodSpec(spec)` the tests apply to a translator result. -/
def PodSpec (u : unitSpec) : core.PodSpec := u.Pod

/-- Modelled from the spec: step 4 of the translator of `k8s.go`, the
image-pull secrets of the containers in order.  `createDockerConfigJSON`
builds the payload and fails when it "cannot parse the image path into a
registry host"; the first failure stops the translation. -/
def imageSecrets (createDockerConfigJSON : caas.ImageDetails → Except Error String)
    (appName : String) : List caas.ContainerSpec → Except Error (List ImageSecret)
  | [] => .ok []
  | c :: rest =>
    if isPrivateImage c then
      match createDockerConfigJSON c.ImageDetails with
      | .error err => .error err
      | .ok payload =>
        match imageSecrets createDockerConfigJSON appName rest with
        | .error err => .error err
        | .ok out => .ok ({ Name := appSecretName appName c.Name, Data := payload } :: out)
    else
      imageSecrets createDockerConfigJSON appName rest

/-- Modelled from the spec: step 1 of the translator of `k8s.go`, "copy
provider pod extension fields (if present) onto the native pod spec verbatim". -/
def podFromExtension (ext : Option provider.K8sPodSpec) : core.PodSpec :=
  match ext with
  | none => {}
  | some p =>
    { ServiceAccountName := p.ServiceAccountName
      RestartPolicy := p.RestartPolicy
      TerminationGracePeriodSeconds := p.TerminationGracePeriodSeconds
      ActiveDeadlineSeconds := p.ActiveDeadlineSeconds
      DNSPolicy := p.DNSPolicy
      AutomountServiceAccountToken := p.AutomountServiceAccountToken
      SecurityContext := p.SecurityContext
      Hostname := p.Hostname
      Subdomain := p.Subdomain
      PriorityClassName := p.PriorityClassName
      Priority := p.Priority
      DNSConfig := p.DNSConfig
      ReadinessGates := p.ReadinessGates }

/-- Modelled from the spec: `MakeUnitSpec` of `k8s.go`, the translator of
section 4.2: given an application name, a unit-naming prefix and an abstract
pod specification, the native pod specification with its containers, and one
image-pull secret, referenced from the pod's pull-secret list, for every
container with a private-registry image. -/
def MakeUnitSpec (createDockerConfigJSON : caas.ImageDetails → Except Error String)
    (appName _deploymentName : String) (podSpec : caas.PodSpec) : Except Error unitSpec :=
  match imageSecrets createDockerConfigJSON appName podSpec.Containers with
  | .error err => .error err
  | .ok secrets =>
    .ok
      { Pod :=
          { podFromExtension podSpec.ProviderPod with
            ImagePullSecrets := secrets.map (fun s => { Name := s.Name })
            Containers := podSpec.Containers.map makeContainer }
        Secrets := secrets }

end broker

namespace samples

/-- The variable `basicPodspec` of the tests. -/
def basicPodspec : caas.PodSpec :=
  { Containers :=
      [{ Name := "test"
         Ports := [{ ContainerPort := 80, Protocol := "TCP" }]
         ImageDetails := { ImagePath := "juju/image", Username := "fred", Password := "secret" }
         Command := ["sh", "-c"]
         Args := ["doIt", "--debug"]
         WorkingDir := "/path/to/here"
         Config := [("foo", .str "bar"), ("restricted", .str "'yes'"), ("bar", .bool true),
           ("switch", .str "on")] },
       { Name := "test2"
         Ports := [{ ContainerPort := 8080, Protocol := "TCP", Name := "fred" }]
         Image := "juju/image2" }] }

/-- A payload builder that succeeds on every image: the payload is kept
symbolic as user and path. -/
def dockerConfigOK (d : caas.ImageDetails) : Except Error String :=
  .ok (d.Username ++ "@" ++ d.ImagePath)

/-- The pod specification `TestMakeUnitSpecConfigPairs` expects. -/
def basicUnitPod : core.PodSpec :=
  { ImagePullSecrets := [{ Name := "app-name-test-secret" }]
    Containers :=
      [{ Name := "test"
         Image := "juju/image"
         Ports := [{ ContainerPort := 80, Protocol := "TCP" }]
         Command := ["sh", "-c"]
         Args := ["doIt", "--debug"]
         WorkingDir := "/path/to/here"
         Env := [{ Name := "bar", Value := "true" }, { Name := "foo", Value := "bar" },
           { Name := "restricted", Value := "yes" }, { Name := "switch", Value := "true" }] },
       { Name := "test2"
         Image := "juju/image2"
         Ports := [{ ContainerPort := 8080, Protocol := "TCP", Name := "fred" }] }] }

end samples

/-! ### The cluster API and the ensure and delete protocols -/

namespace core

/-- The type `core.Namespace` of the Kubernetes API. -/
structure Namespace where
  Name : String := ""
  Labels : GoMap String String := []
  deriving DecidableEq, Repr

/-- The type `core.Volume` of the Kubernetes API: its name and, when it is
backed by a persistent volume claim, the name of the claim. -/
structure Volume where
  Name : String := ""
  ClaimName : Option String := none
  deriving DecidableEq, Repr

/-- The type `core.Pod` of the Kubernetes API, by what teardown reads of it. -/
structure Pod where
  Name : String := ""
  Containers : List Container := []
  Volumes : List Volume := []
  deriving DecidableEq, Repr

end core

namespace broker

/-- The resource kinds of the cluster API the broker calls (one client, and
one mock in the tests, for each). -/
inductive Kind where
  | Namespaces
  | Services
  | StatefulSets
  | Deployments
  | ConfigMaps
  | Secrets
  | PersistentVolumeClaims
  | PersistentVolumes
  | StorageClasses
  | Pods
  deriving DecidableEq, Repr

/-- The methods of a cluster API client. -/
inductive Verb where
  | Get
  | Create
  | Update
  | Delete
  | List
  deriving DecidableEq, Repr

/-- One call to the cluster API: the kind, the method, and the name of the
object (for `List`, the label selector). -/
structure APICall where
  kind : Kind
  verb : Verb
  name : String
  deriving DecidableEq, Repr

/-- The namespaces a cluster holds. -/
structure Cluster where
  Namespaces : List core.Namespace := []
  deriving DecidableEq, Repr

/-- Whether the cluster holds a namespace of that name. -/
def Cluster.hasNamespace (cl : Cluster) (name : String) : Bool :=
  cl.Namespaces.any (fun o => decide (o.Name = name))

/-- The cluster API call `Namespaces().Update(ns)`: replaces the namespace of
that name, and answers not-found when there is none. -/
def Cluster.UpdateNamespace (cl : Cluster) (ns : core.Namespace) : Cluster × Option APIError :=
  if cl.hasNamespace ns.Name then
    ({ Namespaces := cl.Namespaces.map (fun o => if o.Name = ns.Name then ns else o) }, none)
  else
    (cl, some .notFound)

/-- The cluster API call `Namespaces().Create(ns)`: adds the namespace, and
answers already-exists when one of that name is there. -/
def Cluster.CreateNamespace (cl : Cluster) (ns : core.Namespace) : Cluster × Option APIError :=
  if cl.hasNamespace ns.Name then
    (cl, some .alreadyExists)
  else
    ({ Namespaces := cl.Namespaces ++ [ns] }, none)

/-- What an operation of the broker on a cluster leaves: the cluster, the
calls it made with their answers, in order, and its own error result. -/
structure Outcome where
  cluster : Cluster
  calls : List (APICall × Option APIError)
  err : Option APIError
  deriving DecidableEq, Repr

/-- The broker: the namespace (model) it manages. -/
structure kubernetesClient where
  Namespace : String
  deriving DecidableEq, Repr

/-- Modelled from the spec: `EnsureNamespace` of `k8s.go`, the ensure protocol
of section 4.4 for the broker's namespace: "attempt an update using the
freshly built desired object; if the update fails because the object does not
exist, attempt a create with the same desired object; any other failure is
surfaced unchanged". -/
def EnsureNamespace (k : kubernetesClient) (cl : Cluster) : Outcome :=
  let ns : core.Namespace := { Name := k.Namespace }
  let updated := cl.UpdateNamespace ns
  match updated.2 with
  | some .notFound =>
    let created := updated.1.CreateNamespace ns
    { cluster := created.1
      calls := [(⟨.Namespaces, .Update, ns.Name⟩, updated.2),
        (⟨.Namespaces, .Create, ns.Name⟩, created.2)]
      err := created.2 }
  | other =>
    { cluster := updated.1
      calls := [(⟨.Namespaces, .Update, ns.Name⟩, other)]
      err := other }

/-- A cluster API client as the broker's teardown and storage steps see it:
the answer to each call.  The client library is outside the repository. -/
structure Client where
  Delete : Kind → String → Option APIError
  Update : Kind → String → Option APIError
  Create : Kind → String → Option APIError
  ListPods : String → Except APIError (List core.Pod)
  ListSecrets : String → Except APIError (List String)
  GetStorageClass : String → Except APIError String

/-- Modelled from the spec: the delete protocol of `k8s.go` over a list of
resources, "deletion of every subordinate resource is attempted; a does not
exist response is treated as success"; any other failure stops the walk and
is surfaced.  The result is the calls made and the error. -/
def deleteAll (c : Client) : List (Kind × String) → List APICall × Option APIError
  | [] => ([], none)
  | (kind, name) :: rest =>
    match c.Delete kind name with
    | none =>
      let out := deleteAll c rest
      (⟨kind, .Delete, name⟩ :: out.1, out.2)
    | some .notFound =>
      let out := deleteAll c rest
      (⟨kind, .Delete, name⟩ :: out.1, out.2)
    | some err => ([⟨kind, .Delete, name⟩], some err)

/-- Modelled from the spec: the ownership label key of an application in
`k8s.go`, `juju-application` (from the tests). -/
def labelApplication : String := "juju-application"

/-- Modelled from the spec: the ownership label key of an operator in
`k8s.go`, `juju-operator` (from the tests). -/
def labelOperator : String := "juju-operator"

/-- Modelled from the spec: the label key of the agent version in `k8s.go`,
`juju-version` (from the tests). -/
def labelVersion : String := "juju-version"

/-- Modelled from the spec: the label selector of the resources an owner
holds in `k8s.go`, as the tests pass it to `List`: `<key>==<owner>`. -/
def ownerSelector (key owner : String) : String := key ++ "==" ++ owner

/-- Modelled from the spec: the storage a pod holds, for the teardown of
`k8s.go`, "discovered by inspecting the volumes actually mounted by
still-listed pods": for each volume backed by a claim, the claim and the
persistent volume. -/
def podVolumeDeletes (p : core.Pod) : List (Kind × String) :=
  p.Volumes.flatMap (fun v =>
    match v.ClaimName with
    | some claim => [(Kind.PersistentVolumeClaims, claim), (Kind.PersistentVolumes, v.Name)]
    | none => [])

/-- Modelled from the spec: the secrets the operator teardown of `k8s.go`
deletes for a listed pod, the image-pull secret of each of its containers
(`TestDeleteOperator` expects `test-jujud-secret` for container `jujud`). -/
def podSecretDeletes (appName : String) (p : core.Pod) : List (Kind × String) :=
  p.Containers.map (fun c => (Kind.Secrets, appSecretName appName c.Name))

/-- Modelled from the spec: `DeleteService` of `k8s.go`, the teardown of an
application of section 4.4, with the resources, names and order of
`TestDeleteService`: the service, the stateful set and the deployment of the
application's name, the claims and volumes of its listed pods, then the
secrets listed under its ownership label. -/
def DeleteService (c : Client) (appName : String) : List APICall × Option APIError :=
  let sel := ownerSelector labelApplication appName
  match deleteAll c
      [(.Services, appName), (.StatefulSets, appName), (.Deployments, appName)] with
  | (t1, some err) => (t1, some err)
  | (t1, none) =>
    match c.ListPods sel with
    | .error err => (t1 ++ [⟨.Pods, .List, sel⟩], some err)
    | .ok pods =>
      match deleteAll c (pods.flatMap podVolumeDeletes) with
      | (t2, some err) => (t1 ++ [⟨.Pods, .List, sel⟩] ++ t2, some err)
      | (t2, none) =>
        match c.ListSecrets sel with
        | .error err => (t1 ++ [⟨.Pods, .List, sel⟩] ++ t2 ++ [⟨.Secrets, .List, sel⟩], some err)
        | .ok secrets =>
          let out := deleteAll c (secrets.map (fun s => (Kind.Secrets, s)))
          (t1 ++ [⟨.Pods, .List, sel⟩] ++ t2 ++ [⟨.Secrets, .List, sel⟩] ++ out.1, out.2)

/-- Modelled from the spec: `DeleteOperator` of `k8s.go`, the teardown of an
operator, with the resources, names and order of `TestDeleteOperator`: the
two config maps and the stateful set of the operator, for each listed
operator pod the secrets of its containers and its claims and volumes, then
the deployment of the operator. -/
def DeleteOperator (c : Client) (appName : String) : List APICall × Option APIError :=
  let sel := ownerSelector labelOperator appName
  match deleteAll c
      [(.ConfigMaps, appName ++ "-operator-config"),
        (.ConfigMaps, appName ++ "-configurations-config"),
        (.StatefulSets, appName ++ "-operator")] with
  | (t1, some err) => (t1, some err)
  | (t1, none) =>
    match c.ListPods sel with
    | .error err => (t1 ++ [⟨.Pods, .List, sel⟩], some err)
    | .ok pods =>
      match deleteAll c
          (pods.flatMap (fun p => podSecretDeletes appName p ++ podVolumeDeletes p)) with
      | (t2, some err) => (t1 ++ [⟨.Pods, .List, sel⟩] ++ t2, some err)
      | (t2, none) =>
        let out := deleteAll c [(.Deployments, appName ++ "-operator")]
        (t1 ++ [⟨.Pods, .List, sel⟩] ++ t2 ++ out.1, out.2)

end broker

namespace samples

open broker

/-- The cluster of `TestDeleteService`: every delete answers not-found, no
pod is listed, one secret named `secret` is listed. -/
def deleteServiceClient : Client :=
  { Delete := fun _ _ => some .notFound
    Update := fun _ _ => none
    Create := fun _ _ => none
    ListPods := fun _ => .ok []
    ListSecrets := fun _ => .ok ["secret"]
    GetStorageClass := fun _ => .error .notFound }

/-- The cluster of `TestDeleteOperator`: every delete answers not-found, one
operator pod is listed, with a container `jujud` and a claimed volume. -/
def deleteOperatorClient : Client :=
  { Delete := fun _ _ => some .notFound
    Update := fun _ _ => none
    Create := fun _ _ => none
    ListPods := fun _ =>
      .ok [{ Containers := [{ Name := "jujud" }]
             Volumes := [{ Name := "test-operator-volume",
                           ClaimName := some "test-operator-volume" }] }]
    ListSecrets := fun _ => .ok []
    GetStorageClass := fun _ => .error .notFound }

end samples

/-! ### Storage classes, custom resource definitions, workload objects -/

namespace broker

/-- Modelled from the spec: the namespace-qualified name of a storage class
in `k8s.go`, `<namespace>-<storage-name>`. -/
def qualifiedStorageClassName (ns storageName : String) : String :=
  ns ++ "-" ++ storageName

/-- Modelled from the spec: the storage class resolution of `k8s.go`,
"storage class is resolved by first probing for a namespace-qualified storage
class name, falling back to the bare storage-name if the qualified one is
absent, and failing if neither exists".  The result is the probes made and
the name of the class to use; a probe that fails otherwise than with
not-found is surfaced. -/
def resolveStorageClass (c : Client) (ns storageName : String) :
    List APICall × Except APIError String :=
  let qualified := qualifiedStorageClassName ns storageName
  match c.GetStorageClass qualified with
  | .ok _ => ([⟨.StorageClasses, .Get, qualified⟩], .ok qualified)
  | .error .notFound =>
    match c.GetStorageClass storageName with
    | .ok _ =>
      ([⟨.StorageClasses, .Get, qualified⟩, ⟨.StorageClasses, .Get, storageName⟩],
        .ok storageName)
    | .error err =>
      ([⟨.StorageClasses, .Get, qualified⟩, ⟨.StorageClasses, .Get, storageName⟩],
        .error err)
  | .error err => ([⟨.StorageClasses, .Get, qualified⟩], .error err)

/-- Modelled from the spec: the ensure protocol of `k8s.go` for a workload
object named `name` of kind `kind`, against a client: update, and create when
the update answers not-found. -/
def ensureWorkload (c : Client) (kind : Kind) (name : String) : List APICall × Option APIError :=
  match c.Update kind name with
  | some .notFound => ([⟨kind, .Update, name⟩, ⟨kind, .Create, name⟩], c.Create kind name)
  | other => ([⟨kind, .Update, name⟩], other)

/-- Modelled from the spec: the storage step of `EnsureService` and
`EnsureOperator` of `k8s.go` for a workload with persistent storage: the
storage class is resolved, and only then the stateful set is submitted;
"when neither exists, an error is returned before any workload object is
submitted".  The result is the calls made, and the class used or the error. -/
def ensureStatefulSetWithStorage (c : Client) (ns storageName workloadName : String) :
    List APICall × Except APIError String :=
  match resolveStorageClass c ns storageName with
  | (probes, .error err) => (probes, .error err)
  | (probes, .ok className) =>
    match ensureWorkload c .StatefulSets workloadName with
    | (calls, some err) => (probes ++ calls, .error err)
    | (calls, none) => (probes ++ calls, .ok className)

/-- Whether a call submits a workload object to the cluster: a create or an
update of a stateful set or a deployment. -/
def submitsWorkload (call : APICall) : Bool :=
  (decide (call.kind = .StatefulSets) || decide (call.kind = .Deployments)) &&
    (decide (call.verb = .Create) || decide (call.verb = .Update))

/-- Modelled from the spec: the "simple lowercasing" of a kind in `k8s.go`,
Go `strings.ToLower` on the letters A to Z. -/
def toLower (s : String) : String := String.mk (s.data.map Char.toLower)

/-- The type `apiextensionsv1beta1.CustomResourceDefinitionNames`, by the
fields the tests expect. -/
structure CustomResourceDefinitionNames where
  Plural : String := ""
  Kind : String := ""
  Singular : String := ""
  deriving DecidableEq, Repr

/-- The type `apiextensionsv1beta1.CustomResourceDefinition`, by the fields
the tests expect. -/
structure CustomResourceDefinitionObject where
  Name : String := ""
  Namespace : String := ""
  Group : String := ""
  Version : String := ""
  Scope : String := ""
  Names : CustomResourceDefinitionNames := {}
  deriving DecidableEq, Repr

/-- Modelled from the spec: the custom resource definition object
`EnsureCustomResourceDefinition` of `k8s.go` builds, "naming follows the
orchestration convention `<plural-kind>.<group>`; plural form is derived from
the declared kind by simple lowercasing and pluralization". -/
def buildCustomResourceDefinition (ns : String) (crd : caas.CustomResourceDefinition) :
    CustomResourceDefinitionObject :=
  let singular := toLower crd.Kind
  let plural := singular ++ "s"
  { Name := plural ++ "." ++ crd.Group
    Namespace := ns
    Group := crd.Group
    Version := crd.Version
    Scope := crd.Scope
    Names := { Plural := plural, Kind := crd.Kind, Singular := singular } }

/-- The kinds of workload object. -/
inductive WorkloadKind where
  | Deployment
  | StatefulSet
  deriving DecidableEq, Repr

/-- A workload object (`apps.Deployment` or `apps.StatefulSet`), by its name,
labels, selector and pod template labels. -/
structure Workload where
  kind : WorkloadKind
  Name : String
  Labels : GoMap String String
  MatchLabels : GoMap String String
  TemplateLabels : GoMap String String
  deriving DecidableEq, Repr

/-- Modelled from the spec: the label set of an owned resource in `k8s.go`,
"includes the ownership key for the logical owner plus any caller-supplied
resource tags, merged without conflict (tags never override the ownership
key)": the tags, then the ownership key assigned. -/
def ownedLabels (tags : GoMap String String) (key owner : String) : GoMap String String :=
  GoMap.set tags key owner

/-- Modelled from the spec: the workload object `k8s.go` builds for an
application, a deployment without persistent storage and a stateful set with
it; "workload selector always pins on the ownership label alone (not on
arbitrary tags)", and the pod template carries the labels of the object. -/
def applicationWorkload (kind : WorkloadKind) (appName : String)
    (tags : GoMap String String) : Workload :=
  { kind := kind
    Name := appName
    Labels := ownedLabels tags labelApplication appName
    MatchLabels := [(labelApplication, appName)]
    TemplateLabels := ownedLabels tags labelApplication appName }

/-- Modelled from the spec: the stateful set `k8s.go` builds for the operator
of an application: named `<app>-operator`, labelled with the tags, the agent
version and the operator ownership pair, selected by the ownership pair. -/
def operatorWorkload (appName version : String) (tags : GoMap String String) : Workload :=
  { kind := .StatefulSet
    Name := appName ++ "-operator"
    Labels := ownedLabels (GoMap.set tags labelVersion version) labelOperator appName
    MatchLabels := [(labelOperator, appName)]
    TemplateLabels := ownedLabels (GoMap.set tags labelVersion version) labelOperator appName }

end broker

namespace samples

open broker

/-- The cluster of `TestEnsureServiceWithStorage`: only the bare storage
class `juju-unit-storage` exists, and the stateful set is not there yet. -/
def bareClassClient : Client :=
  { Delete := fun _ _ => some .notFound
    Update := fun _ _ => some .notFound
    Create := fun _ _ => none
    ListPods := fun _ => .ok []
    ListSecrets := fun _ => .ok []
    GetStorageClass := fun name =>
      if name = "juju-unit-storage" then .ok name else .error .notFound }

/-- The cluster of `TestEnsureOperator`: the qualified storage class
`test-juju-operator-storage` exists. -/
def qualifiedClassClient : Client :=
  { Delete := fun _ _ => some .notFound
    Update := fun _ _ => some .notFound
    Create := fun _ _ => none
    ListPods := fun _ => .ok []
    ListSecrets := fun _ => .ok []
    GetStorageClass := fun name =>
      if name = "test-juju-operator-storage" then .ok name else .error .notFound }

/-- A cluster without any storage class. -/
def noClassClient : Client :=
  { Delete := fun _ _ => some .notFound
    Update := fun _ _ => some .notFound
    Create := fun _ _ => none
    ListPods := fun _ => .ok []
    ListSecrets := fun _ => .ok []
    GetStorageClass := fun _ => .error .notFound }

/-- The custom resource definition of the tests. -/
def tfJob : caas.CustomResourceDefinition :=
  { Kind := "TFJob", Group := "kubeflow.org", Version := "v1alpha2", Scope := "Namespaced" }

end samples

/-! ## `juju/tools.go` -/

namespace tools

/-- The constant `os.ModeDir`. -/
def ModeDir : Nat := 1 <<< 31

/-- The constant `os.ModeSymlink`. -/
def ModeSymlink : Nat := 1 <<< 27

/-- The constant `os.ModeDevice`. -/
def ModeDevice : Nat := 1 <<< 26

/-- The constant `os.ModeNamedPipe`. -/
def ModeNamedPipe : Nat := 1 <<< 25

/-- The constant `os.ModeSocket`. -/
def ModeSocket : Nat := 1 <<< 24

/-- The constant `os.ModeType`: the mask of the file-type bits. -/
def ModeType : Nat := ModeDir ||| ModeSymlink ||| ModeNamedPipe ||| ModeSocket ||| ModeDevice

/-- The owner-execute permission bit, octal 0100. -/
def ownerExec : Nat := 0o100

/-- Function `isExecutable`, on the mode `i.Mode()` of the file info (an
`os.FileMode`, 32 bits).  The mask `os.ModeType` of the standard library is
the parameter `modeType`. -/
def isExecutable (modeType : Nat) (mode : Nat) : Bool :=
  decide (mode &&& (0o100 ||| modeType) = 0o100)

end tools

namespace samples

/-- The mode of a regular file with permissions 0755. -/
def regularExecutable : Nat := 0o755

/-- The mode of a directory with permissions 0755. -/
def directoryMode : Nat := tools.ModeDir ||| 0o755

/-- The mode of a regular file with permissions 0644. -/
def regularPlain : Nat := 0o644

end samples

/-! ## `specs/v2.go`: the v2 pod specification -/

/-- How a Go function can fail: by returning an error, or by a run-time
panic (an index out of range). -/
inductive Failure where
  | err (e : Error)
  | crashed (msg : String)
  deriving DecidableEq, Repr

namespace caasspecs

/-- The type `specs.PodSpecV2` of package `caas/specs`, by the fields
`v2.go` reads; the types of its fields are declared in that package. -/
structure PodSpecV2 (C S M A : Type) where
  Containers : List C
  Service : S
  ConfigMaps : M
  ServiceAccount : A

/-- The type `specs.PodSpec` of package `caas/specs`, by the fields `v2.go`
sets; `P` is the provider pod extension it holds. -/
structure PodSpec (C S M A P : Type) where
  Version : Nat
  OmitServiceFrontend : Bool
  Containers : List C
  Service : S
  ConfigMaps : M
  ServiceAccount : A
  ProviderPod : Option P

end caasspecs

namespace specs

/-- The type `K8sPodSpecV2`. -/
structure K8sPodSpecV2 (R : Type) where
  KubernetesResources : Option (KubernetesResources R) := none

/-- Method `K8sPodSpecV2.Validate`. -/
def K8sPodSpecV2.Validate {R : Type} (q : String → String) (rbacValidate : R → Option Error)
    (p : K8sPodSpecV2 R) : Option Error :=
  match p.KubernetesResources with
  | some krs =>
    match krs.Validate q rbacValidate with
    | some err => errors.Trace (some err)
    | none => none
  | none => none

/-- The type `podSpecV2`. -/
structure podSpecV2 (C S M A R : Type) where
  caaSSpec : caasspecs.PodSpecV2 C S M A
  k8sSpec : K8sPodSpecV2 R

/-- Method `podSpecV2.Validate`; `caasValidate` is `specs.PodSpecV2.Validate`
of package `caas/specs`. -/
def podSpecV2.Validate {C S M A R : Type}
    (caasValidate : caasspecs.PodSpecV2 C S M A → Option Error) (q : String → String)
    (rbacValidate : R → Option Error) (p : podSpecV2 C S M A R) : Option Error :=
  match caasValidate p.caaSSpec with
  | some err => errors.Trace (some err)
  | none =>
    match p.k8sSpec.Validate q rbacValidate with
    | some err => errors.Trace (some err)
    | none => none

/-- Method `podSpecV2.ToLatest`; `currentVersion` is `specs.CurrentVersion`. -/
def podSpecV2.ToLatest {C S M A R : Type} (currentVersion : Nat) (p : podSpecV2 C S M A R) :
    caasspecs.PodSpec C S M A (K8sPodSpecV2 R) :=
  { Version := currentVersion
    OmitServiceFrontend := false
    Containers := p.caaSSpec.Containers
    Service := p.caaSSpec.Service
    ConfigMaps := p.caaSSpec.ConfigMaps
    ServiceAccount := p.caaSSpec.ServiceAccount
    ProviderPod := some p.k8sSpec }

/-- What `parsePodSpecV2` takes from outside `v2.go`: the two decoding passes
of the library, `parseContainers` of the package (with `K` its decoded
container type), and the methods `Validate` and `ToContainerSpec` of a
decoded container. -/
structure V2Parsing (C S M A R K : Type) where
  decodeCaaS : String → Except Error (caasspecs.PodSpecV2 C S M A)
  decodeK8s : String → Except Error (K8sPodSpecV2 R)
  parseContainers : String → Except Error (List K)
  Validate : K → Option Error
  ToContainerSpec : K → C

/-- The composing loop of `parsePodSpecV2`, from index `i` on: each decoded
container is validated and its conversion written at its index into the
container list of the common spec; a write past the end of that list is an
index out of range. -/
def composeV2 {C K : Type} (validate : K → Option Error) (toContainerSpec : K → C) :
    List K → Nat → List C → Except Failure (List C)
  | [], _, containers => .ok containers
  | c :: rest, i, containers =>
    match validate c with
    | some err => .error (.err err)
    | none =>
      if i < containers.length then
        composeV2 validate toContainerSpec rest (i + 1) (containers.set i (toContainerSpec c))
      else
        .error (.crashed "index out of range")

/-- Function `parsePodSpecV2`. -/
def parsePodSpecV2 {C S M A R K : Type} (lib : V2Parsing C S M A R K) (input : String) :
    Except Failure (podSpecV2 C S M A R) :=
  match lib.decodeCaaS input with
  | .error err => .error (.err err)
  | .ok caaSSpec =>
    match lib.decodeK8s input with
    | .error err => .error (.err err)
    | .ok k8sSpec =>
      match lib.parseContainers input with
      | .error err => .error (.err err)
      | .ok containers =>
        match composeV2 lib.Validate lib.ToContainerSpec containers 0 caaSSpec.Containers with
        | .error f => .error f
        | .ok out => .ok { caaSSpec := { caaSSpec with Containers := out }, k8sSpec := k8sSpec }

end specs

namespace samples

open specs

/-- A v2 parsing whose passes answer every text with two containers `web`
and `db`; a decoded container is its name and whether it is valid, and its
conversion is its name in upper case. -/
def v2Parsing : V2Parsing String Unit Unit Unit Unit (String × Bool) :=
  { decodeCaaS := fun _ =>
      .ok { Containers := ["web", "db"], Service := (), ConfigMaps := (), ServiceAccount := () }
    decodeK8s := fun _ => .ok {}
    parseContainers := fun _ => .ok [("web", true), ("db", true)]
    Validate := fun c => if c.2 then none else some (errors.NewNotValid ("container " ++ c.1))
    ToContainerSpec := fun c => c.1.toUpper }

/-- The same parsing with a second container that fails its validation. -/
def v2ParsingInvalid : V2Parsing String Unit Unit Unit Unit (String × Bool) :=
  { v2Parsing with parseContainers := fun _ => .ok [("web", true), ("db", false)] }

/-- A v2 pod specification with a cluster-scoped definition in its
Kubernetes resources. -/
def v2Spec : podSpecV2 String Unit Unit Unit Unit :=
  { caaSSpec := { Containers := ["web", "db"], Service := (), ConfigMaps := (),
                  ServiceAccount := () }
    k8sSpec := { KubernetesResources := some krsClusterScoped } }

end samples

/-! ## `cmd/juju/caas/gke.go` -/

namespace gke

/-- The type `clusterParams` of the package, by the fields `gke.go` reads. -/
structure clusterParams where
  name : String := ""
  region : String := ""
  project : String := ""
  credential : String := ""
  deriving DecidableEq, Repr

/-- The type `cluster` of the package. -/
structure cluster where
  name : String := ""
  region : String := ""
  deriving DecidableEq, Repr

/-- The result of running a command: exit code and output (`exec.ExecResponse`). -/
structure ExecResponse where
  Code : Int := 0
  Stdout : String := ""
  Stderr : String := ""
  deriving DecidableEq, Repr

/-- The type `interact.List`: a choice put to the user. -/
structure InteractList where
  Singular : String
  Plural : String
  Options : List String
  Default : String
  deriving DecidableEq, Repr

/-- What `gke.go` takes from outside: `runCommand` of the package (the
command and the kubeconfig path to a response), the path
`clientconfig.GetKubeConfigPath()`, `os.Open` on a reader type `ρ`, and the
pollster's `Select`. -/
structure Env (ρ : Type) where
  runCommand : List String → String → Except Error ExecResponse
  kubeConfigPath : String
  osOpen : String → Except Error ρ
  Select : InteractList → Except Error String

/-- The three results of `getKubeConfig`: reader, qualified cluster name,
error. -/
structure KubeConfig (ρ : Type) where
  rdr : Option ρ
  qualifiedClusterName : String
  err : Option Error

/-- The command `getKubeConfig` builds. -/
def getKubeConfigCommand (p : clusterParams) : List String :=
  let cmd := ["gcloud", "container", "clusters", "get-credentials", p.name]
  let cmd := if p.credential ≠ "" then cmd ++ ["--account", p.credential] else cmd
  let cmd := if p.project ≠ "" then cmd ++ ["--project", p.project] else cmd
  if p.region ≠ "" then cmd ++ ["--region", p.region] else cmd

/-- The qualified cluster name `getKubeConfig` builds alongside the command. -/
def qualifiedClusterName (p : clusterParams) : String :=
  let name := "gke_"
  let name := if p.project ≠ "" then name ++ (p.project ++ "_") else name
  let name := if p.region ≠ "" then name ++ (p.region ++ "_") else name
  name ++ p.name

/-- Method `gke.getKubeConfig`. -/
def getKubeConfig {ρ : Type} (env : Env ρ) (p : clusterParams) : KubeConfig ρ :=
  match env.runCommand (getKubeConfigCommand p) env.kubeConfigPath with
  | .error err => { rdr := none, qualifiedClusterName := "", err := some err }
  | .ok result =>
    if result.Code ≠ 0 then
      { rdr := none, qualifiedClusterName := "", err := some (errors.New result.Stderr) }
    else
      match env.osOpen env.kubeConfigPath with
      | .ok rdr => { rdr := some rdr, qualifiedClusterName := qualifiedClusterName p, err := none }
      | .error err =>
        { rdr := none, qualifiedClusterName := qualifiedClusterName p, err := some err }

/-- The command `listProjects` runs. -/
def listProjectsCommand (account : String) : List String :=
  ["gcloud", "projects", "list", "--account", account, "--filter", "lifecycleState:ACTIVE",
    "--format", "value\\(projectId\\)"]

/-- Method `gke.listProjects`. -/
def listProjects {ρ : Type} (env : Env ρ) (account : String) : Except Error (List String) :=
  match env.runCommand (listProjectsCommand account) "" with
  | .error err => .error err
  | .ok result =>
    if result.Code ≠ 0 then .error (errors.New result.Stderr)
    else .ok (provider.stringsSplit result.Stdout '\n')

/-- What an interactive query leaves: the choices it put to the user, in
order, and its result. -/
structure Query (α : Type) where
  prompts : List InteractList
  result : Except Error α

/-- Method `gke.queryProject`. -/
def queryProject {ρ : Type} (env : Env ρ) (account : String) : Query String :=
  match listProjects env account with
  | .error err => { prompts := [], result := .error err }
  | .ok allProjects =>
    if allProjects.length = 0 then
      { prompts := []
        result := .error (errors.New ("no projects have been set up.\n" ++
          "You can create a project using 'gcloud projects create'")) }
    else
      let choice : InteractList :=
        { Singular := "project"
          Plural := "Available projects"
          Options := allProjects
          Default := allProjects.headD "" }
      { prompts := [choice], result := env.Select choice }

/-- Go `unicode.IsSpace`. -/
def isSpace (c : Char) : Bool :=
  let n := c.toNat
  (9 ≤ n && n ≤ 13) || n = 32 || n = 0x85 || n = 0xA0 || n = 0x1680 ||
    (0x2000 ≤ n && n ≤ 0x200A) || n = 0x2028 || n = 0x2029 || n = 0x202F || n = 0x205F ||
    n = 0x3000

/-- Go `strings.Fields` on the characters of the text: `word` is the field
being read, in reverse. -/
def fieldsChars : List Char → List Char → List (List Char)
  | [], word => if word = [] then [] else [word.reverse]
  | c :: cs, word =>
    if isSpace c then
      if word = [] then fieldsChars cs [] else word.reverse :: fieldsChars cs []
    else
      fieldsChars cs (c :: word)

/-- Go `strings.Fields`. -/
def stringsFields (s : String) : List String := (fieldsChars s.data []).map String.mk

/-- The command `listClusters` runs. -/
def listClustersCommand (account project region : String) : List String :=
  let cmd := ["gcloud", "container", "clusters", "list", "--filter", "status:RUNNING",
    "--account", account, "--project", project, "--format", "value\\(name,zone\\)"]
  if region ≠ "" then cmd ++ ["--region", region] else cmd

/-- The loop of `listClusters` over the lines of the output. -/
def collectClusters : List String → GoMap String cluster → GoMap String cluster
  | [], clusters => clusters
  | line :: rest, clusters =>
    match stringsFields line with
    | [] => collectClusters rest clusters
    | name :: more =>
      let c : cluster := { name := name }
      let c := match more with
        | [] => c
        | region :: _ => { c with region := region }
      collectClusters rest (GoMap.set clusters c.name c)

/-- Method `gke.listClusters`. -/
def listClusters {ρ : Type} (env : Env ρ) (account project region : String) :
    Except Error (GoMap String cluster) :=
  match env.runCommand (listClustersCommand account project region) "" with
  | .error err => .error err
  | .ok result =>
    if result.Code ≠ 0 then .error (errors.New result.Stderr)
    else .ok (collectClusters (provider.stringsSplit result.Stdout '\n') [])

/-- The variable `regionMsg` of `queryCluster` after its `if`: it is
formatted from itself, `fmt.Sprintf(" in region %v", regionMsg)`. -/
def regionMsg (region : String) : String :=
  let regionMsg := ""
  if region ≠ "" then " in region " ++ regionMsg else regionMsg

/-- The loop of `queryCluster` over the clusters: the option texts and the
clusters by option text. -/
def clusterOptions : GoMap String cluster → List String → GoMap String cluster →
    List String × GoMap String cluster
  | [], names, byNameRegion => (names, byNameRegion)
  | (n, c) :: rest, names, byNameRegion =>
    let nr := if c.region ≠ "" then n ++ (" in " ++ c.region) else n
    clusterOptions rest (names ++ [nr]) (GoMap.set byNameRegion nr c)

/-- Method `gke.queryCluster`.  In the empty case `regionMsg` is computed
and not used: the text handed to `errors.New` is a literal. -/
def queryCluster {ρ : Type} (env : Env ρ) (account project region : String) :
    Query (String × String) :=
  match listClusters env account project region with
  | .error err => { prompts := [], result := .error err }
  | .ok allClustersByName =>
    if allClustersByName.length = 0 then
      let _regionMsg := regionMsg region
      { prompts := []
        result := .error (errors.New ("no clusters have been set up%s.\n" ++
          "You can create a k8s cluster using 'gcloud container cluster create'")) }
    else
      let options := clusterOptions allClustersByName [] []
      let choice : InteractList :=
        { Singular := "cluster"
          Plural := "Available clusters"
          Options := options.1
          Default := options.1.headD "" }
      match env.Select choice with
      | .error err => { prompts := [choice], result := .error err }
      | .ok chosen =>
        let selected := (GoMap.get? options.2 chosen).getD {}
        { prompts := [choice], result := .ok (selected.name, selected.region) }

end gke

namespace samples

open gke

/-- A machine on which every gcloud command succeeds with empty output, the
kubeconfig opens, and the user takes the default of every choice. -/
def quietGcloud : Env String :=
  { runCommand := fun _ _ => .ok { Code := 0, Stdout := "", Stderr := "" }
    kubeConfigPath := "/home/ubuntu/.kube/config"
    osOpen := fun path => .ok path
    Select := fun choice => .ok choice.Default }

/-- Cluster parameters with every field given. -/
def fullParams : clusterParams :=
  { name := "mycluster", region := "us-east1", project := "myproject",
    credential := "fred@example.com" }

end samples

/-! ## `state/spacesdiscovery.go`

The standard library packages `net` and `encoding/binary` are modelled as far
as `SaveSubnetsFromProvider` uses them: an address and a mask are the lists of
their bytes; `ParseCIDR` and `IPNet.String` are parameters. -/

namespace net

/-- The type `net.IPNet`: the bytes of the address and of the mask. -/
structure IPNet where
  IP : List Nat
  Mask : List Nat
  deriving DecidableEq, Repr

/-- Where the four bytes of `ip.To4()` start in `ip`: at 0 for a four-byte
address, at 12 for a sixteen-byte address with the IPv4-in-IPv6 lead; the
result of `To4` shares its bytes with `ip`. -/
def To4Offset (ip : List Nat) : Option Nat :=
  if ip.length = 4 then some 0
  else if ip.length = 16 ∧ (ip.take 10).all (fun b => decide (b = 0)) = true ∧
      ip.getD 10 0 = 255 ∧ ip.getD 11 0 = 255 then some 12
  else none

/-- Go `IP.To4`. -/
def To4 (ip : List Nat) : Option (List Nat) :=
  (To4Offset ip).map (fun off => (ip.drop off).take 4)

/-- The inner loop of `simpleMaskLength` on one byte: counts the leading one
bits, shifting them out; returns the count and what is left of the byte. -/
def leadingOnes : Nat → Nat → Nat → Nat × Nat
  | 0, v, n => (n, v)
  | fuel + 1, v, n =>
    if v &&& 0x80 ≠ 0 then leadingOnes fuel ((v <<< 1) % 256) (n + 1) else (n, v)

/-- Go `simpleMaskLength`: the number of leading ones of a mask of the form
ones-then-zeros, `none` (for -1) otherwise. -/
def simpleMaskLength : List Nat → Option Nat
  | [] => some 0
  | v :: rest =>
    if v = 0xff then (simpleMaskLength rest).map (fun n => n + 8)
    else
      let counted := leadingOnes 8 v 0
      if counted.2 ≠ 0 then none
      else if rest.all (fun b => decide (b = 0)) then some counted.1
      else none

/-- Go `IPMask.Size`: ones and bits, or 0 and 0 for a mask not in the form. -/
def Size (m : List Nat) : Nat × Nat :=
  match simpleMaskLength m with
  | none => (0, 0)
  | some ones => (ones, m.length * 8)

/-- The loop of `CIDRMask` over `l` bytes with `n` ones left. -/
def cidrMaskBytes : Nat → Nat → List Nat
  | 0, _ => []
  | l + 1, n =>
    if n ≥ 8 then 0xff :: cidrMaskBytes l (n - 8)
    else (0xff - (0xff >>> n)) :: cidrMaskBytes l 0

/-- Go `net.CIDRMask`; the nil mask is the empty list. -/
def CIDRMask (ones bits : Nat) : List Nat :=
  if bits ≠ 32 ∧ bits ≠ 128 then []
  else if ones > bits then []
  else cidrMaskBytes (bits / 8) ones

/-- Go `networkNumberAndMask`. -/
def networkNumberAndMask (n : IPNet) : Option (List Nat × List Nat) :=
  let ip := match To4 n.IP with
    | some x => some x
    | none => if n.IP.length ≠ 16 then none else some n.IP
  match ip with
  | none => none
  | some ip =>
    if n.Mask.length = 4 then
      if ip.length ≠ 4 then none else some (ip, n.Mask)
    else if n.Mask.length = 16 then
      if ip.length = 4 then some (ip, n.Mask.drop 12) else some (ip, n.Mask)
    else none

/-- Go `IPNet.Contains`. -/
def Contains (n : IPNet) (ip : List Nat) : Bool :=
  let nm := (networkNumberAndMask n).getD ([], [])
  let ip := (To4 ip).getD ip
  if ip.length ≠ nm.1.length then false
  else (List.range ip.length).all (fun i =>
    decide (nm.1.getD i 0 &&& nm.2.getD i 0 = ip.getD i 0 &&& nm.2.getD i 0))

end net

namespace binary

/-- Go `binary.BigEndian.Uint32`: the value of four bytes, first byte most
significant. -/
def Uint32 (b : List Nat) : Nat :=
  b.getD 0 0 * 2 ^ 24 + b.getD 1 0 * 2 ^ 16 + b.getD 2 0 * 2 ^ 8 + b.getD 3 0

/-- Go `binary.BigEndian.PutUint32`: the four bytes of a 32-bit value. -/
def PutUint32 (v : Nat) : List Nat :=
  [v / 2 ^ 24 % 256, v / 2 ^ 16 % 256, v / 2 ^ 8 % 256, v % 256]

end binary

namespace network

/-- The type `network.SubnetInfo`, by the fields `spacesdiscovery.go` reads. -/
structure SubnetInfo where
  ProviderId : String := ""
  ProviderNetworkId : String := ""
  CIDR : String := ""
  VLANTag : Int := 0
  AvailabilityZones : List String := []
  deriving DecidableEq, Repr

/-- The type `network.FanConfigEntry`. -/
structure FanConfigEntry where
  Underlay : net.IPNet
  Overlay : net.IPNet
  deriving DecidableEq, Repr

end network

namespace state

/-- The type `state.SubnetInfo`, by the fields `spacesdiscovery.go` sets. -/
structure SubnetInfo where
  ProviderId : String := ""
  ProviderNetworkId : String := ""
  CIDR : String := ""
  SpaceName : String := ""
  VLANTag : Int := 0
  AvailabilityZone : String := ""
  FanLocalUnderlay : String := ""
  FanOverlay : String := ""
  deriving DecidableEq, Repr

/-- What `spacesdiscovery.go` takes from outside: the methods `AllSubnets`
(by the provider ids of the subnets), `AddSubnet` and `ModelConfig` of the
state `σ`, `FanConfig` of the model configuration `κ`, and of the standard
library `net.ParseCIDR` and `IPNet.String`. -/
structure Services (σ κ : Type) where
  AllSubnets : σ → Except Error (List String)
  AddSubnet : σ → SubnetInfo → Except Error σ
  ModelConfig : σ → Except Error κ
  FanConfig : κ → Except Error (List network.FanConfigEntry)
  ParseCIDR : String → Except Error net.IPNet
  IPNetString : net.IPNet → String

/-- Method `State.getModelSubnets`: the set of the provider ids of the
subnets of the model. -/
def getModelSubnets {σ κ : Type} (sv : Services σ κ) (st : σ) : Except Error (List String) :=
  match sv.AllSubnets st with
  | .error err => .error err
  | .ok subnets => .ok subnets

/-- What a call leaves: the state, the `AddSubnet` calls it issued, in order,
and how it failed, if it did. -/
structure SaveResult (σ : Type) where
  state : σ
  adds : List SubnetInfo
  failure : Option Failure

/-- The first availability zone, or the empty string. -/
def firstZone (zones : List String) : String := zones.headD ""

/-- The first loop of `SaveSubnetsFromProvider`: the subnets of the provider
that are not in the model yet are added. -/
def addProviderSubnets {σ κ : Type} (sv : Services σ κ) (modelSubnetIds : List String)
    (spaceName : String) : List network.SubnetInfo → σ → SaveResult σ
  | [], st => { state := st, adds := [], failure := none }
  | subnet :: rest, st =>
    if subnet.ProviderId ∈ modelSubnetIds then
      addProviderSubnets sv modelSubnetIds spaceName rest st
    else
      let info : SubnetInfo :=
        { ProviderId := subnet.ProviderId
          ProviderNetworkId := subnet.ProviderNetworkId
          CIDR := subnet.CIDR
          SpaceName := spaceName
          VLANTag := subnet.VLANTag
          AvailabilityZone := firstZone subnet.AvailabilityZones }
      match sv.AddSubnet st info with
      | .error err => { state := st, adds := [info], failure := some (.err err) }
      | .ok st' =>
        let r := addProviderSubnets sv modelSubnetIds spaceName rest st'
        { state := r.state, adds := info :: r.adds, failure := r.failure }

/-- The id of a fan subnet, `fmt.Sprintf("%s-INFAN-%d-%d-%d-%d-%d", ...)` on
the provider id, the first four bytes of the address and the subnet size. -/
def inFanId (providerId : String) (ip : List Nat) (subnetSize : Nat) : String :=
  providerId ++ "-INFAN-" ++ toString (ip.getD 0 0) ++ "-" ++ toString (ip.getD 1 0) ++ "-" ++
    toString (ip.getD 2 0) ++ "-" ++ toString (ip.getD 3 0) ++ "-" ++ toString subnetSize

/-- The conversion `uint(underlaySize - overlaySize)`: a negative difference
wraps around (64-bit `uint`). -/
def fanSizeOf (underlaySize overlaySize : Nat) : Nat :=
  if overlaySize ≤ underlaySize then underlaySize - overlaySize
  else 2 ^ 64 - (overlaySize - underlaySize)

/-- The shift `numIp <<= fanSize` on a `uint32`: bits shifted past bit 31
are lost, and a count of 32 or more leaves zero. -/
def shl32 (v n : Nat) : Nat := if n ≥ 32 then 0 else (v <<< n) % 2 ^ 32

/-- The byte operation `a &^ m` (and-not). -/
def andNot8 (a m : Nat) : Nat := a &&& (0xff ^^^ m)

/-- The address arithmetic of `SaveSubnetsFromProvider` on the four bytes
`newFanIP`: the bits of the underlay mask are cleared, the value is shifted
left by `fanSize`, and the bytes of the overlay address are added, byte by
byte. -/
def fanOverlayIP (newFanIP : List Nat) (fan : network.FanConfigEntry) (fanSize : Nat) :
    List Nat :=
  let cleared := [0, 1, 2, 3].map
    (fun i => andNot8 (newFanIP.getD i 0) (fan.Underlay.Mask.getD i 0))
  let numIp := shl32 (binary.Uint32 cleared) fanSize
  let shifted := binary.PutUint32 numIp
  [0, 1, 2, 3].map (fun i => (shifted.getD i 0 + fan.Overlay.IP.getD i 0) % 256)

/-- What the body of the loop over the fans does for one fan, given the
current bytes `ip` of `subnetNet.IP`: nothing, a panic, or an `AddSubnet`
request that leaves `subnetNet.IP` with the bytes `ip'`. -/
inductive FanStep where
  | skip
  | crash (msg : String)
  | add (info : SubnetInfo) (ip' : List Nat)
  deriving DecidableEq, Repr

/-- The body of the loop over the fans.  `newFanIP := subnetNet.IP.To4()`
shares its bytes with `subnetNet.IP`, so the arithmetic on `newFanIP`
rewrites the address of the subnet: the new bytes are returned with the
request. -/
def fanStep (ipNetString : net.IPNet → String) (modelSubnetIds : List String)
    (spaceName : String) (subnet : network.SubnetInfo) (mask : List Nat) (ip : List Nat)
    (fan : network.FanConfigEntry) : FanStep :=
  let subnetSize := (net.Size mask).1
  let underlaySize := (net.Size fan.Underlay.Mask).1
  if underlaySize ≤ subnetSize ∧ net.Contains fan.Underlay ip = true then
    if ip.length < 4 then .crash "index out of range"
    else
      let id := inFanId subnet.ProviderId ip subnetSize
      if id ∈ modelSubnetIds then .skip
      else
        let overlaySize := (net.Size fan.Overlay.Mask).1
        let newOverlaySize := overlaySize + (subnetSize - underlaySize)
        let fanSize := fanSizeOf underlaySize overlaySize
        match net.To4Offset ip with
        | none => .crash "index out of range"
        | some off =>
          if fan.Overlay.IP.length < 4 then .crash "index out of range"
          else
            let newFanIP := fanOverlayIP ((ip.drop off).take 4) fan fanSize
            let newOverlay : net.IPNet :=
              { IP := newFanIP, Mask := net.CIDRMask newOverlaySize 32 }
            .add
              { ProviderId := id
                ProviderNetworkId := subnet.ProviderNetworkId
                CIDR := ipNetString newOverlay
                SpaceName := spaceName
                VLANTag := subnet.VLANTag
                AvailabilityZone := firstZone subnet.AvailabilityZones
                FanLocalUnderlay := subnet.CIDR
                FanOverlay := ipNetString fan.Overlay }
              (ip.take off ++ newFanIP ++ ip.drop (off + 4))
  else .skip

/-- The loop over the fans for one subnet; `ip` is the current content of
`subnetNet.IP`. -/
def addFanSubnets {σ κ : Type} (sv : Services σ κ) (modelSubnetIds : List String)
    (spaceName : String) (subnet : network.SubnetInfo) (mask : List Nat) :
    List network.FanConfigEntry → List Nat → σ → SaveResult σ
  | [], _, st => { state := st, adds := [], failure := none }
  | fan :: rest, ip, st =>
    match fanStep sv.IPNetString modelSubnetIds spaceName subnet mask ip fan with
    | .skip => addFanSubnets sv modelSubnetIds spaceName subnet mask rest ip st
    | .crash msg => { state := st, adds := [], failure := some (.crashed msg) }
    | .add info ip' =>
      match sv.AddSubnet st info with
      | .error err => { state := st, adds := [info], failure := some (.err err) }
      | .ok st' =>
        let r := addFanSubnets sv modelSubnetIds spaceName subnet mask rest ip' st'
        { state := r.state, adds := info :: r.adds, failure := r.failure }

/-- The second loop of `SaveSubnetsFromProvider`, over the subnets: each is
parsed and run through the fans. -/
def addAllFanSubnets {σ κ : Type} (sv : Services σ κ) (modelSubnetIds : List String)
    (spaceName : String) (fans : List network.FanConfigEntry) :
    List network.SubnetInfo → σ → SaveResult σ
  | [], st => { state := st, adds := [], failure := none }
  | subnet :: rest, st =>
    match sv.ParseCIDR subnet.CIDR with
    | .error err => { state := st, adds := [], failure := some (.err err) }
    | .ok subnetNet =>
      let r := addFanSubnets sv modelSubnetIds spaceName subnet subnetNet.Mask fans
        subnetNet.IP st
      match r.failure with
      | some f => { state := r.state, adds := r.adds, failure := some f }
      | none =>
        let r2 := addAllFanSubnets sv modelSubnetIds spaceName fans rest r.state
        { state := r2.state, adds := r.adds ++ r2.adds, failure := r2.failure }

/-- Method `State.SaveSubnetsFromProvider`. -/
def SaveSubnetsFromProvider {σ κ : Type} (sv : Services σ κ) (st : σ)
    (subnets : List network.SubnetInfo) (spaceName : String) : SaveResult σ :=
  match getModelSubnets sv st with
  | .error err => { state := st, adds := [], failure := some (.err err) }
  | .ok modelSubnetIds =>
    let r := addProviderSubnets sv modelSubnetIds spaceName subnets st
    match r.failure with
    | some f => { state := r.state, adds := r.adds, failure := some f }
    | none =>
      match sv.ModelConfig r.state with
      | .error err => { state := r.state, adds := r.adds, failure := some (.err err) }
      | .ok cfg =>
        match sv.FanConfig cfg with
        | .error err => { state := r.state, adds := r.adds, failure := some (.err err) }
        | .ok fans =>
          if fans.length = 0 then { state := r.state, adds := r.adds, failure := none }
          else
            let r2 := addAllFanSubnets sv modelSubnetIds spaceName fans subnets r.state
            { state := r2.state, adds := r.adds ++ r2.adds, failure := r2.failure }

/-- The state reached from `st` by the `AddSubnet` calls `adds`, a failing
call leaving the state as it is. -/
def applyAdds {σ κ : Type} (sv : Services σ κ) (st : σ) (adds : List SubnetInfo) : σ :=
  adds.foldl (fun s info =>
    match sv.AddSubnet s info with
    | .ok s' => s'
    | .error _ => s) st

end state

namespace samples

open state

/-- The text of an IPv4 network as `IPNet.String` gives it: dotted address,
slash, prefix length. -/
def ipv4NetString (n : net.IPNet) : String :=
  toString (n.IP.getD 0 0) ++ "." ++ toString (n.IP.getD 1 0) ++ "." ++
    toString (n.IP.getD 2 0) ++ "." ++ toString (n.IP.getD 3 0) ++ "/" ++
    toString (net.Size n.Mask).1

/-- A parser that knows the subnet `172.31.64.0/20`. -/
def parseKnownCIDR (s : String) : Except Error net.IPNet :=
  if s = "172.31.64.0/20" then .ok { IP := [172, 31, 64, 0], Mask := [255, 255, 240, 0] }
  else .error (errors.New ("invalid CIDR address: " ++ s))

/-- The fan `172.31.0.0/16 -> 243.0.0.0/8` of the comment in the source. -/
def fan243 : network.FanConfigEntry :=
  { Underlay := { IP := [172, 31, 0, 0], Mask := [255, 255, 0, 0] }
    Overlay := { IP := [243, 0, 0, 0], Mask := [255, 0, 0, 0] } }

/-- A second fan, `172.16.0.0/12 -> 250.0.0.0/8`, whose underlay contains the
subnet `172.31.64.0/20` as well. -/
def fan250 : network.FanConfigEntry :=
  { Underlay := { IP := [172, 16, 0, 0], Mask := [255, 240, 0, 0] }
    Overlay := { IP := [250, 0, 0, 0], Mask := [255, 0, 0, 0] } }

/-- A state that is the list of its subnets, with the model configuration
the list of the fans: `AddSubnet` appends. -/
def listState (fans : List network.FanConfigEntry) :
    Services (List SubnetInfo) (List network.FanConfigEntry) :=
  { AllSubnets := fun st => .ok (st.map (fun s => s.ProviderId))
    AddSubnet := fun st info => .ok (st ++ [info])
    ModelConfig := fun _ => .ok fans
    FanConfig := fun cfg => .ok cfg
    ParseCIDR := parseKnownCIDR
    IPNetString := ipv4NetString }

/-- The provider subnet `172.31.64.0/20`. -/
def subnet64 : network.SubnetInfo :=
  { ProviderId := "subnet-1", CIDR := "172.31.64.0/20", AvailabilityZones := ["eu-west-1a"] }

/-- The subnet document of `subnet64`. -/
def subnet64Info : SubnetInfo :=
  { ProviderId := "subnet-1", CIDR := "172.31.64.0/20", AvailabilityZone := "eu-west-1a" }

/-- The fan subnet of `subnet64` in `fan243`. -/
def fan243Info : SubnetInfo :=
  { ProviderId := "subnet-1-INFAN-172-31-64-0-20"
    CIDR := "243.64.0.0/12"
    AvailabilityZone := "eu-west-1a"
    FanLocalUnderlay := "172.31.64.0/20"
    FanOverlay := "243.0.0.0/8" }

/-- The fan subnet of `subnet64` in `fan250`. -/
def fan250Info : SubnetInfo :=
  { ProviderId := "subnet-1-INFAN-172-31-64-0-20"
    CIDR := "250.244.0.0/16"
    AvailabilityZone := "eu-west-1a"
    FanLocalUnderlay := "172.31.64.0/20"
    FanOverlay := "250.0.0.0/8" }

end samples

/-! ## Facts about Go maps -/

namespace GoMap

variable {κ ν : Type} [DecidableEq κ]

theorem get?_eq_none_iff (m : GoMap κ ν) (k : κ) : get? m k = none ↔ k ∉ keys m := by
  induction m with
  | nil => simp [get?, keys]
  | cons kv rest ih =>
    obtain ⟨k', v⟩ := kv
    by_cases h : k' = k
    · simp [get?, keys, h]
    · have hne : ¬ k = k' := fun e => h e.symm
      simpa [get?, keys, h, hne] using ih

theorem get?_isSome_iff (m : GoMap κ ν) (k : κ) : (get? m k).isSome ↔ k ∈ keys m := by
  rw [← not_iff_not, ← get?_eq_none_iff]
  cases get? m k <;> simp

end GoMap

/-! ## `KubernetesResources.Validate`: what it rejects -/

namespace specs

variable {R : Type}

theorem validateCRDs_of_mem (q : String → String)
    (m : GoMap String CustomResourceDefinitionSpec) (k : String)
    (crd : CustomResourceDefinitionSpec) (hmem : (k, crd) ∈ m)
    (hscope : crd.Scope ≠ NamespaceScoped) :
    ∃ err, validateCRDs q m = some err ∧ err.kind = ErrKind.notSupported := by
  induction m with
  | nil => simp at hmem
  | cons kv rest ih =>
    obtain ⟨k', crd'⟩ := kv
    by_cases h : crd'.Scope = NamespaceScoped
    · have hne : (k, crd) ≠ (k', crd') := by
        intro e
        injection e with _ e2
        exact hscope (e2 ▸ h)
      rcases List.mem_cons.mp hmem with e | hin
      · exact absurd e hne
      · simpa [validateCRDs, h] using ih hin
    · simp [validateCRDs, h, errors.NewNotSupported]

theorem validateCRs_of_undeclared (q : String → String)
    (crds : GoMap String CustomResourceDefinitionSpec)
    (m : GoMap String (List Unstructured)) (k : String) (crs : List Unstructured)
    (hmem : (k, crs) ∈ m) (hmiss : k ∉ GoMap.keys crds) :
    ∃ err, validateCRs q crds m = some err ∧ err.kind = ErrKind.notValid := by
  induction m with
  | nil => simp at hmem
  | cons kv rest ih =>
    obtain ⟨k', crs'⟩ := kv
    by_cases h1 : (GoMap.get? crds k').isNone
    · simp [validateCRs, h1, errors.NewNotValid]
    · by_cases h2 : crs'.length = 0
      · simp [validateCRs, h1, h2, errors.NotValidf]
      · rcases List.mem_cons.mp hmem with e | hin
        · injection e with e1 _
          subst e1
          have := (GoMap.get?_eq_none_iff crds k).mpr hmiss
          simp [this] at h1
        · simpa [validateCRs, h1, h2] using ih hin

theorem validateCRs_of_empty (q : String → String)
    (crds : GoMap String CustomResourceDefinitionSpec)
    (m : GoMap String (List Unstructured)) (k : String)
    (hmem : (k, []) ∈ m) :
    ∃ err, validateCRs q crds m = some err ∧ err.kind = ErrKind.notValid := by
  induction m with
  | nil => simp at hmem
  | cons kv rest ih =>
    obtain ⟨k', crs'⟩ := kv
    by_cases h1 : (GoMap.get? crds k').isNone
    · simp [validateCRs, h1, errors.NewNotValid]
    · by_cases h2 : crs'.length = 0
      · simp [validateCRs, h1, h2, errors.NotValidf]
      · rcases List.mem_cons.mp hmem with e | hin
        · injection e with _ e2
          subst e2
          simp at h2
        · simpa [validateCRs, h1, h2] using ih hin

theorem validateServiceAccounts_of_nameless (rbacValidate : R → Option Error)
    (sas : List (K8sServiceAccountSpec R)) (sa : K8sServiceAccountSpec R)
    (hmem : sa ∈ sas) (hname : sa.Name = "") :
    ∃ err, validateServiceAccounts rbacValidate sas = some err := by
  induction sas with
  | nil => simp at hmem
  | cons sa' rest ih =>
    cases hv : sa'.Validate rbacValidate with
    | some err => exact ⟨err, by simp [validateServiceAccounts, hv, errors.Trace]⟩
    | none =>
      rcases List.mem_cons.mp hmem with e | hin
      · subst e
        simp [K8sServiceAccountSpec.Validate, hname] at hv
      · simpa [validateServiceAccounts, hv] using ih hin

/-- The outcome of `Validate` once one of its loops is known to fail: an
earlier loop may fail first, but some error is returned. -/
theorem Validate_of_CRs_error (q : String → String) (rbacValidate : R → Option Error)
    (krs : KubernetesResources R)
    (h : ∃ err, validateCRs q krs.CustomResourceDefinitions krs.CustomResources = some err) :
    ∃ err, krs.Validate q rbacValidate = some err := by
  obtain ⟨e, he⟩ := h
  unfold KubernetesResources.Validate
  cases validateCRDs q krs.CustomResourceDefinitions with
  | some e1 => exact ⟨e1, rfl⟩
  | none => exact ⟨e, by simp [he]⟩

/-- C1.  A `KubernetesResources` value in which some declared custom resource
definition has a scope other than `Namespaced` is rejected by `Validate`,
whatever its custom resources and service accounts hold; the error is the
not-supported error of the first loop. -/
theorem Validate_rejects_non_namespaced_scope (q : String → String)
    (rbacValidate : R → Option Error) (krs : KubernetesResources R)
    (k : String) (crd : CustomResourceDefinitionSpec)
    (hmem : (k, crd) ∈ krs.CustomResourceDefinitions)
    (hscope : crd.Scope ≠ NamespaceScoped) :
    ∃ err, krs.Validate q rbacValidate = some err ∧ err.kind = ErrKind.notSupported := by
  obtain ⟨e, he, hk⟩ := validateCRDs_of_mem q _ k crd hmem hscope
  exact ⟨e, by simp [KubernetesResources.Validate, he], hk⟩

/-- C2.  A `KubernetesResources` value whose `customResources` map has a key
that is not a key of its `customResourceDefinitions` map is rejected by
`Validate`; this covers the empty (or absent) definitions map. -/
theorem Validate_rejects_undeclared_custom_resource (q : String → String)
    (rbacValidate : R → Option Error) (krs : KubernetesResources R)
    (k : String) (crs : List Unstructured)
    (hmem : (k, crs) ∈ krs.CustomResources)
    (hmiss : k ∉ GoMap.keys krs.CustomResourceDefinitions) :
    ∃ err, krs.Validate q rbacValidate = some err := by
  obtain ⟨e, he, _⟩ := validateCRs_of_undeclared q _ _ k crs hmem hmiss
  exact Validate_of_CRs_error q rbacValidate krs ⟨e, he⟩

/-- C3.  A `KubernetesResources` value whose `customResources` map sends a key
declared in `customResourceDefinitions` to an empty list of instances is
rejected by `Validate`. -/
theorem Validate_rejects_empty_custom_resources (q : String → String)
    (rbacValidate : R → Option Error) (krs : KubernetesResources R)
    (k : String)
    (_hdecl : k ∈ GoMap.keys krs.CustomResourceDefinitions)
    (hmem : (k, []) ∈ krs.CustomResources) :
    ∃ err, krs.Validate q rbacValidate = some err := by
  obtain ⟨e, he, _⟩ := validateCRs_of_empty q krs.CustomResourceDefinitions _ k hmem
  exact Validate_of_CRs_error q rbacValidate krs ⟨e, he⟩

/-- C4.  A `KubernetesResources` value holding a service account entry with
an empty name is rejected by `Validate`; and `K8sServiceAccountSpec.Validate`
on any entry with an empty name fails with "service account name is missing",
whatever its RBAC spec and whatever the RBAC validation answers. -/
theorem Validate_rejects_nameless_service_account (q : String → String)
    (rbacValidate : R → Option Error) (krs : KubernetesResources R)
    (sa : K8sServiceAccountSpec R)
    (hmem : sa ∈ krs.ServiceAccounts) (hname : sa.Name = "") :
    (∃ err, krs.Validate q rbacValidate = some err) ∧
      ∀ (rv : R → Option Error) (rbac : R),
        K8sServiceAccountSpec.Validate rv { Name := "", RBACSpec := rbac } =
          some { kind := ErrKind.plain, msg := "service account name is missing" } := by
  constructor
  · obtain ⟨e, he⟩ := validateServiceAccounts_of_nameless rbacValidate _ sa hmem hname
    unfold KubernetesResources.Validate
    cases validateCRDs q krs.CustomResourceDefinitions with
    | some e1 => exact ⟨e1, rfl⟩
    | none =>
      cases validateCRs q krs.CustomResourceDefinitions krs.CustomResources with
      | some e2 => exact ⟨e2, rfl⟩
      | none => exact ⟨e, he⟩
  · intro rv rbac
    simp [K8sServiceAccountSpec.Validate, errors.New]

/-- Witness for C1: the sample with one `Cluster`-scoped definition. -/
theorem Validate_rejects_non_namespaced_scope_witness :
    ∃ err, samples.krsClusterScoped.Validate samples.quoteVerb samples.rbacAccept = some err ∧
      err.kind = ErrKind.notSupported :=
  Validate_rejects_non_namespaced_scope samples.quoteVerb samples.rbacAccept
    samples.krsClusterScoped "tfjobs.kubeflow.org" samples.clusterCrd (by decide) (by decide)

/-- Witness for C2: the sample whose definitions map is absent. -/
theorem Validate_rejects_undeclared_custom_resource_witness :
    ∃ err, samples.krsDangling.Validate samples.quoteVerb samples.rbacAccept = some err :=
  Validate_rejects_undeclared_custom_resource samples.quoteVerb samples.rbacAccept
    samples.krsDangling "tfjobs.kubeflow.org" [{ Object := [("kind", .str "TFJob")] }]
    (by decide) (by decide)

/-- Witness for C3: the sample with an empty list under a declared key. -/
theorem Validate_rejects_empty_custom_resources_witness :
    ∃ err, samples.krsEmptyList.Validate samples.quoteVerb samples.rbacAccept = some err :=
  Validate_rejects_empty_custom_resources samples.quoteVerb samples.rbacAccept
    samples.krsEmptyList "tfjobs.kubeflow.org" (by decide) (by decide)

/-- Witness for C4: the sample with a nameless entry after a named one. -/
theorem Validate_rejects_nameless_service_account_witness :
    (∃ err, samples.krsNameless.Validate samples.quoteVerb samples.rbacAccept = some err) ∧
      ∀ (rv : Unit → Option Error) (rbac : Unit),
        K8sServiceAccountSpec.Validate rv { Name := "", RBACSpec := rbac } =
          some { kind := ErrKind.plain, msg := "service account name is missing" } :=
  Validate_rejects_nameless_service_account samples.quoteVerb samples.rbacAccept
    samples.krsNameless samples.namelessAccount (by simp [samples.krsNameless]) rfl

end specs

/-! ## The quoting pass of `parseK8sPodSpec` -/

theorem GoMap.keys_append {κ ν : Type} (a b : GoMap κ ν) :
    GoMap.keys (a ++ b) = GoMap.keys a ++ GoMap.keys b := by
  simp [GoMap.keys]

namespace GoMap

variable {κ ν : Type} [DecidableEq κ]

/-- Assigning to a key that first occurs after the block `pre` overwrites that
occurrence. -/
theorem set_after (pre : GoMap κ ν) (k : κ) (v w : ν) (tl : GoMap κ ν)
    (hk : k ∉ keys pre) : set (pre ++ (k, v) :: tl) k w = pre ++ (k, w) :: tl := by
  induction pre with
  | nil => simp [set]
  | cons kv rest ih =>
    obtain ⟨k', v'⟩ := kv
    have hne : ¬ k' = k := by
      intro e
      exact hk (by simp [keys, e])
    have hrest : k ∉ keys rest := by
      intro hin
      exact hk (by simp [keys] at hin ⊢; exact Or.inr hin)
    simp [set, hne, ih hrest]

theorem get?_map_snd (f : ν → ν) (m : GoMap κ ν) (k : κ) :
    get? (m.map (fun kv => (kv.1, f kv.2))) k = (get? m k).map f := by
  induction m with
  | nil => simp [get?]
  | cons kv rest ih =>
    obtain ⟨k', v⟩ := kv
    by_cases h : k' = k <;> simp [get?, h, ih]

end GoMap

namespace provider

theorem boolValues_eq :
    boolValues = ["y", "Y", "yes", "Yes", "YES", "n", "N", "no", "No", "NO", "true", "True",
      "TRUE", "false", "False", "FALSE", "on", "On", "ON", "off", "Off", "OFF"] := by
  decide

/-- No text that starts with a single quote is in `boolValues`. -/
theorem sprintfQuoted_not_mem (s : String) : sprintfQuoted s ∉ boolValues := by
  intro h
  rw [boolValues_eq] at h
  have hd : ∀ t : String, sprintfQuoted s = t → t.data.head? = some '\'' := by
    intro t e
    rw [← e]
    simp [sprintfQuoted]
  simp only [List.mem_cons, List.mem_singleton, List.not_mem_nil, or_false] at h
  rcases h with h | h | h | h | h | h | h | h | h | h | h | h | h | h | h | h | h | h | h | h |
    h | h <;> exact absurd (hd _ h) (by decide)

theorem quoteValue_quoteValue (v : Value) : quoteValue (quoteValue v) = quoteValue v := by
  cases v with
  | str s =>
    by_cases h : s ∈ boolValues
    · simp [quoteValue, h, sprintfQuoted_not_mem]
    · simp [quoteValue, h]
  | bool b => rfl
  | other r => rfl

theorem quoteStep_after (pre : GoMap String Value) (k : String) (v : Value)
    (tl : GoMap String Value) (hk : k ∉ GoMap.keys pre) :
    quoteStep (pre ++ (k, v) :: tl) (k, v) = pre ++ (k, quoteValue v) :: tl := by
  cases v with
  | str s =>
    by_cases h : s ∈ boolValues
    · simp [quoteStep, quoteValue, h, GoMap.set_after pre k _ _ tl hk]
    · simp [quoteStep, quoteValue, h]
  | bool b => simp [quoteStep, quoteValue]
  | other r => simp [quoteStep, quoteValue]

theorem foldl_quoteStep (rest pre : GoMap String Value)
    (hwf : (GoMap.keys (pre ++ rest)).Nodup) :
    List.foldl quoteStep (pre ++ rest) rest = pre ++ rest.map quoteEntry := by
  induction rest generalizing pre with
  | nil => simp
  | cons kv tl ih =>
    obtain ⟨k, v⟩ := kv
    have hk : k ∉ GoMap.keys pre := by
      rw [GoMap.keys_append] at hwf
      have := (List.nodup_append.mp hwf).2.2
      intro hin
      exact this hin (by simp [GoMap.keys])
    have hwf2 : (GoMap.keys ((pre ++ [(k, quoteValue v)]) ++ tl)).Nodup := by
      simpa [GoMap.keys] using hwf
    have := ih (pre ++ [(k, quoteValue v)]) hwf2
    simp only [List.foldl_cons, quoteStep_after pre k v tl hk]
    simpa [quoteEntry] using this

/-- On a map without repeated keys the quoting pass rewrites every entry
independently. -/
theorem quoteConfig_eq_map (cfg : GoMap String Value) (hwf : GoMap.WF cfg) :
    quoteConfig cfg = cfg.map quoteEntry := by
  have := foldl_quoteStep cfg [] (by simpa [GoMap.WF] using hwf)
  simpa [quoteConfig] using this

theorem keys_quoteConfig (cfg : GoMap String Value) (hwf : GoMap.WF cfg) :
    GoMap.keys (quoteConfig cfg) = GoMap.keys cfg := by
  rw [quoteConfig_eq_map cfg hwf]
  simp [GoMap.keys, quoteEntry, Function.comp_def]

theorem get?_quoteConfig (cfg : GoMap String Value) (hwf : GoMap.WF cfg) (k : String) :
    GoMap.get? (quoteConfig cfg) k = (GoMap.get? cfg k).map quoteValue := by
  rw [quoteConfig_eq_map cfg hwf]
  exact GoMap.get?_map_snd quoteValue cfg k

/-! ## The result of `parseK8sPodSpec` -/

/-- The composing loop never stops early: the validation of a container
always passes. -/
theorem composeContainers_eq (cs : List k8sContainer) :
    composeContainers cs = .ok (cs.map composeContainer) := by
  induction cs with
  | nil => rfl
  | cons c rest ih =>
    simp [composeContainers, k8sContainer.Validate, K8sContainerSpec.Validate, ih]

/-- Success of `parseK8sPodSpec` unfolded: the three passes succeeded, there
is a container, and the result is the merge. -/
theorem parseK8sPodSpec_ok (dec : Decoders) (input : String) (r : caas.PodSpec)
    (hok : parseK8sPodSpec dec input = .ok r) :
    ∃ spec0 pod cs, dec.unmarshalSpec input = .ok spec0 ∧ dec.decodePod input = .ok pod ∧
      dec.decodeContainers input = .ok cs ∧ cs.Containers ≠ [] ∧
      r.Containers = (cs.Containers.map quoteContainer).map composeContainer ∧
      r.CustomResourceDefinitions = spec0.CustomResourceDefinitions ∧
      r.ProviderPod = (match pod.K8sPodSpec with
        | some p => some p
        | none => spec0.ProviderPod) := by
  unfold parseK8sPodSpec at hok
  cases h1 : dec.unmarshalSpec input with
  | error e => simp [h1] at hok
  | ok spec0 =>
    cases h2 : dec.decodePod input with
    | error e => simp [h1, h2] at hok
    | ok pod =>
      cases h3 : dec.decodeContainers input with
      | error e => simp [h1, h2, h3] at hok
      | ok cs =>
        by_cases hlen : cs.Containers.length = 0
        · simp [h1, h2, h3, hlen] at hok
        · simp only [h1, h2, h3, hlen, composeContainers_eq, if_false] at hok
          injection hok with hr
          refine ⟨spec0, pod, cs, rfl, rfl, rfl, ?_, ?_, ?_, ?_⟩
          · intro e
            exact hlen (by simp [e])
          · rw [← hr]
          · rw [← hr]
            cases pod.K8sPodSpec <;> rfl
          · rw [← hr]
            cases pod.K8sPodSpec <;> rfl

/-- The passes succeeding on a non-empty container list is enough for
`parseK8sPodSpec` to return a specification. -/
theorem parseK8sPodSpec_returns (dec : Decoders) (input : String) (spec0 : caas.PodSpec)
    (pod : k8sPod) (cs : k8sContainers) (h1 : dec.unmarshalSpec input = .ok spec0)
    (h2 : dec.decodePod input = .ok pod) (h3 : dec.decodeContainers input = .ok cs)
    (hne : cs.Containers ≠ []) : ∃ r, parseK8sPodSpec dec input = .ok r := by
  have hlen : ¬ cs.Containers.length = 0 := by
    intro e
    exact hne (List.length_eq_zero.mp e)
  unfold parseK8sPodSpec
  simp only [h1, h2, h3, hlen, composeContainers_eq, if_false]
  exact ⟨_, rfl⟩

/-- Entry `i` of the result is the composition of quoted decoded entry `i`. -/
theorem parse_container_at (dec : Decoders) (input : String) (r : caas.PodSpec)
    (cs : k8sContainers) (hok : parseK8sPodSpec dec input = .ok r)
    (hcs : dec.decodeContainers input = .ok cs) (i : Nat) (c : k8sContainer)
    (hi : cs.Containers[i]? = some c) :
    r.Containers[i]? = some (composeContainer (quoteContainer c)) := by
  obtain ⟨_, _, cs', _, _, h3, _, hr, _, _⟩ := parseK8sPodSpec_ok dec input r hok
  rw [hcs] at h3
  injection h3 with h3
  subst h3
  simp [hr, hi]

theorem composeContainer_Config (c : k8sContainer) :
    (composeContainer c).Config = c.caasContainerSpec.Config := by
  unfold composeContainer
  cases c.K8sContainerSpec <;> rfl

/-- C5.  When the three passes decode the text without error and the decoded
container list is empty (or absent), `parseK8sPodSpec` returns the error
"require at least one container spec" and no specification; and every
specification it returns, on any text, has at least one container. -/
theorem parseK8sPodSpec_requires_container (dec : Decoders) (input : String)
    (spec0 : caas.PodSpec) (pod : k8sPod) (cs : k8sContainers)
    (h1 : dec.unmarshalSpec input = .ok spec0) (h2 : dec.decodePod input = .ok pod)
    (h3 : dec.decodeContainers input = .ok cs) (hempty : cs.Containers = []) :
    parseK8sPodSpec dec input =
        .error { kind := ErrKind.plain, msg := "require at least one container spec" } ∧
      ∀ (dec' : Decoders) (input' : String) (r : caas.PodSpec),
        parseK8sPodSpec dec' input' = .ok r → 1 ≤ r.Containers.length := by
  constructor
  · unfold parseK8sPodSpec
    simp [h1, h2, h3, hempty, errors.New]
  · intro dec' input' r hok
    obtain ⟨_, _, cs', _, _, _, hne, hr, _, _⟩ := parseK8sPodSpec_ok dec' input' r hok
    rw [hr]
    simp only [List.length_map]
    exact List.length_pos.mpr hne

/-- Witness for C5: the text with an empty `containers` list. -/
theorem parseK8sPodSpec_requires_container_witness :
    parseK8sPodSpec samples.noContainers samples.noContainersText =
        .error { kind := ErrKind.plain, msg := "require at least one container spec" } ∧
      ∀ (dec' : Decoders) (input' : String) (r : caas.PodSpec),
        parseK8sPodSpec dec' input' = .ok r → 1 ≤ r.Containers.length :=
  parseK8sPodSpec_requires_container samples.noContainers samples.noContainersText
    {} {} { Containers := [] } rfl rfl rfl rfl

/-- C6, as stated, fails: the value `yES` equals `yes` once letter case is
ignored, yet `parseK8sPodSpec` carries it forward as `yES`, without quotes. -/
theorem parseK8sPodSpec_mixed_case_not_quoted :
    boolLikeIgnoringCase "yES" = true ∧
      GoMap.get? samples.mixedCaseContainer.caasContainerSpec.Config "flag" =
        some (.str "yES") ∧
      ∃ r rc, parseK8sPodSpec (samples.constDecoders {} {} [samples.mixedCaseContainer])
          samples.mixedCaseText = .ok r ∧
        r.Containers[0]? = some rc ∧
        GoMap.get? rc.Config "flag" = some (.str "yES") ∧
        GoMap.get? rc.Config "flag" ≠ some (.str (sprintfQuoted "yES")) := by
  refine ⟨by decide, by decide, _, _, rfl, rfl, by decide, by decide⟩

/-- C6, amended.  A configuration entry whose value is a string that is one
of the spellings in `boolValues` (each word in lower case, capitalised or in
upper case) is carried forward by `parseK8sPodSpec` as that string in one pair
of single quotes; a string in any other spelling is carried forward as it is. -/
theorem parseK8sPodSpec_quotes_boolValues (dec : Decoders) (input : String)
    (r : caas.PodSpec) (cs : k8sContainers) (i : Nat) (c : k8sContainer) (k s : String)
    (hok : parseK8sPodSpec dec input = .ok r)
    (hcs : dec.decodeContainers input = .ok cs)
    (hi : cs.Containers[i]? = some c)
    (hwf : GoMap.WF c.caasContainerSpec.Config)
    (hget : GoMap.get? c.caasContainerSpec.Config k = some (.str s)) :
    ∃ rc : caas.ContainerSpec, r.Containers[i]? = some rc ∧
      (s ∈ boolValues → GoMap.get? rc.Config k = some (.str (sprintfQuoted s))) ∧
      (s ∉ boolValues → GoMap.get? rc.Config k = some (.str s)) := by
  refine ⟨_, parse_container_at dec input r cs hok hcs i c hi, ?_, ?_⟩
  · intro hs
    rw [composeContainer_Config]
    simp [quoteContainer, get?_quoteConfig _ hwf, hget, quoteValue, hs]
  · intro hs
    rw [composeContainer_Config]
    simp [quoteContainer, get?_quoteConfig _ hwf, hget, quoteValue, hs]

/-- Witness for C6 amended: the entry `switch: "on"` of the test text. -/
theorem parseK8sPodSpec_quotes_boolValues_witness :
    ∃ r rc, parseK8sPodSpec samples.testDecoders samples.testText = .ok r ∧
      r.Containers[0]? = some rc ∧
      ("on" ∈ boolValues → GoMap.get? rc.Config "switch" = some (.str (sprintfQuoted "on"))) ∧
      ("on" ∉ boolValues → GoMap.get? rc.Config "switch" = some (.str "on")) := by
  obtain ⟨rc, h⟩ := parseK8sPodSpec_quotes_boolValues samples.testDecoders samples.testText
    _ { Containers := [samples.testContainer, samples.testContainer2] } 0
    samples.testContainer "switch" "on" rfl rfl rfl (by decide) (by decide)
  exact ⟨_, rc, rfl, h⟩

/-- C7, as stated, fails: the value `'yes'`, a boolean-like word already in
single quotes, is carried forward as it is, without a further pair of quotes. -/
theorem parseK8sPodSpec_quoted_not_requoted :
    boolLikeIgnoringCase "yes" = true ∧
      GoMap.get? samples.quotedContainer.caasContainerSpec.Config "restricted" =
        some (.str (sprintfQuoted "yes")) ∧
      ∃ r rc, parseK8sPodSpec (samples.constDecoders {} {} [samples.quotedContainer])
          samples.quotedText = .ok r ∧
        r.Containers[0]? = some rc ∧
        GoMap.get? rc.Config "restricted" = some (.str "'yes'") ∧
        GoMap.get? rc.Config "restricted" ≠ some (.str (sprintfQuoted "'yes'")) := by
  refine ⟨by decide, by decide, _, _, rfl, rfl, by decide, by decide⟩

/-- C7, amended.  A configuration entry whose value is a boolean-like word
already wrapped in single quotes is carried forward by `parseK8sPodSpec` as it
is: the quoted form is not in `boolValues`, so no further quotes are added. -/
theorem parseK8sPodSpec_keeps_quoted (dec : Decoders) (input : String)
    (r : caas.PodSpec) (cs : k8sContainers) (i : Nat) (c : k8sContainer) (k t : String)
    (hok : parseK8sPodSpec dec input = .ok r)
    (hcs : dec.decodeContainers input = .ok cs)
    (hi : cs.Containers[i]? = some c)
    (hwf : GoMap.WF c.caasContainerSpec.Config)
    (_hbool : boolLikeIgnoringCase t = true)
    (hget : GoMap.get? c.caasContainerSpec.Config k = some (.str (sprintfQuoted t))) :
    ∃ rc : caas.ContainerSpec, r.Containers[i]? = some rc ∧
      GoMap.get? rc.Config k = some (.str (sprintfQuoted t)) := by
  refine ⟨_, parse_container_at dec input r cs hok hcs i c hi, ?_⟩
  rw [composeContainer_Config]
  simp [quoteContainer, get?_quoteConfig _ hwf, hget, quoteValue, sprintfQuoted_not_mem]

/-- Witness for C7 amended: the entry `restricted: "'yes'"`. -/
theorem parseK8sPodSpec_keeps_quoted_witness :
    ∃ r rc, parseK8sPodSpec (samples.constDecoders {} {} [samples.quotedContainer])
        samples.quotedText = .ok r ∧
      r.Containers[0]? = some rc ∧
      GoMap.get? rc.Config "restricted" = some (.str (sprintfQuoted "yes")) := by
  obtain ⟨rc, h⟩ := parseK8sPodSpec_keeps_quoted
    (samples.constDecoders {} {} [samples.quotedContainer]) samples.quotedText
    _ { Containers := [samples.quotedContainer] } 0 samples.quotedContainer "restricted" "yes"
    rfl rfl rfl (by decide) (by decide) (by decide)
  exact ⟨_, rc, rfl, h⟩

/-- C8.  The quoting pass keeps keys and types: on every configuration map
(a Go map, so without a repeated key) the keys after the pass are the keys
before; an entry with a string value still has a string value, the original
string or the original in single quotes; an entry whose value is not a string
is unchanged. -/
theorem quoteConfig_preserves (cfg : GoMap String Value) (hwf : GoMap.WF cfg) :
    GoMap.keys (quoteConfig cfg) = GoMap.keys cfg ∧
      (∀ k s, GoMap.get? cfg k = some (.str s) →
        GoMap.get? (quoteConfig cfg) k = some (.str s) ∨
          GoMap.get? (quoteConfig cfg) k = some (.str (sprintfQuoted s))) ∧
      (∀ k v, GoMap.get? cfg k = some v → (∀ s, v ≠ .str s) →
        GoMap.get? (quoteConfig cfg) k = some v) := by
  refine ⟨keys_quoteConfig cfg hwf, ?_, ?_⟩
  · intro k s hget
    rw [get?_quoteConfig cfg hwf, hget]
    by_cases hs : s ∈ boolValues
    · right
      simp [quoteValue, hs]
    · left
      simp [quoteValue, hs]
  · intro k v hget hv
    rw [get?_quoteConfig cfg hwf, hget]
    cases v with
    | str s => exact absurd rfl (hv s)
    | bool b => rfl
    | other x => rfl

/-- Witness for C8: the configuration of the first test container. -/
theorem quoteConfig_preserves_witness :
    GoMap.keys (quoteConfig samples.testContainer.caasContainerSpec.Config) =
        GoMap.keys samples.testContainer.caasContainerSpec.Config ∧
      (∀ k s, GoMap.get? samples.testContainer.caasContainerSpec.Config k = some (.str s) →
        GoMap.get? (quoteConfig samples.testContainer.caasContainerSpec.Config) k =
            some (.str s) ∨
          GoMap.get? (quoteConfig samples.testContainer.caasContainerSpec.Config) k =
            some (.str (sprintfQuoted s))) ∧
      (∀ k v, GoMap.get? samples.testContainer.caasContainerSpec.Config k = some v →
        (∀ s, v ≠ .str s) →
        GoMap.get? (quoteConfig samples.testContainer.caasContainerSpec.Config) k = some v) :=
  quoteConfig_preserves samples.testContainer.caasContainerSpec.Config (by decide)

theorem commonContainer_compose (c : k8sContainer) :
    commonContainer (composeContainer (quoteContainer c)) =
      composeContainer (quoteContainer { c with K8sContainerSpec := none }) := by
  obtain ⟨spec, ext⟩ := c
  cases ext <;> rfl

theorem composeContainer_ProviderContainer (c : k8sContainer) :
    (composeContainer c).ProviderContainer = c.K8sContainerSpec := by
  obtain ⟨spec, ext⟩ := c
  cases ext <;> rfl

/-- C9.  When `parseK8sPodSpec` succeeds, the container list of the result
has the length and order of the decoded container list, and container `i` of
the result has the name, image, image details, ports, command, args, working
directory and files of decoded container `i`, and its configuration after the
quoting pass. -/
theorem parseK8sPodSpec_containers (dec : Decoders) (input : String) (r : caas.PodSpec)
    (hok : parseK8sPodSpec dec input = .ok r) :
    ∃ cs, dec.decodeContainers input = .ok cs ∧
      r.Containers.length = cs.Containers.length ∧
      ∀ (i : Nat) (c : k8sContainer), cs.Containers[i]? = some c →
        ∃ rc : caas.ContainerSpec, r.Containers[i]? = some rc ∧
          rc.Name = c.caasContainerSpec.Name ∧
          rc.Image = c.caasContainerSpec.Image ∧
          rc.ImageDetails = c.caasContainerSpec.ImageDetails ∧
          rc.Ports = c.caasContainerSpec.Ports ∧
          rc.Command = c.caasContainerSpec.Command ∧
          rc.Args = c.caasContainerSpec.Args ∧
          rc.WorkingDir = c.caasContainerSpec.WorkingDir ∧
          rc.Config = quoteConfig c.caasContainerSpec.Config ∧
          rc.Files = c.caasContainerSpec.Files := by
  obtain ⟨_, _, cs, _, _, h3, _, hr, _, _⟩ := parseK8sPodSpec_ok dec input r hok
  refine ⟨cs, h3, by simp [hr], ?_⟩
  intro i c hi
  refine ⟨_, parse_container_at dec input r cs hok h3 i c hi, ?_⟩
  obtain ⟨spec, ext⟩ := c
  cases ext <;> simp [composeContainer, quoteContainer]

/-- Witness for C9: the test text with its two containers. -/
theorem parseK8sPodSpec_containers_witness :
    ∃ cs, samples.testDecoders.decodeContainers samples.testText = .ok cs ∧
      samples.testResult.Containers.length = cs.Containers.length ∧
      ∀ (i : Nat) (c : k8sContainer), cs.Containers[i]? = some c →
        ∃ rc : caas.ContainerSpec, samples.testResult.Containers[i]? = some rc ∧
          rc.Name = c.caasContainerSpec.Name ∧
          rc.Image = c.caasContainerSpec.Image ∧
          rc.ImageDetails = c.caasContainerSpec.ImageDetails ∧
          rc.Ports = c.caasContainerSpec.Ports ∧
          rc.Command = c.caasContainerSpec.Command ∧
          rc.Args = c.caasContainerSpec.Args ∧
          rc.WorkingDir = c.caasContainerSpec.WorkingDir ∧
          rc.Config = quoteConfig c.caasContainerSpec.Config ∧
          rc.Files = c.caasContainerSpec.Files :=
  parseK8sPodSpec_containers samples.testDecoders samples.testText samples.testResult rfl

/-- C10.  Provider extensions are attached additively and optionally.  With a
common pass that leaves the provider extension of the pod unset, a successful
`parseK8sPodSpec` returns a specification whose provider pod extension is what
the provider pass decoded (set when there is one, unset otherwise), whose
container `i` has the provider extension decoded container `i` carried (set
when there is one, unset otherwise), and whose common fields are those of the
result obtained when the text carries no extension at all. -/
theorem parseK8sPodSpec_extensions_additive (dec : Decoders) (input : String)
    (r : caas.PodSpec) (hok : parseK8sPodSpec dec input = .ok r)
    (hcommon : ∀ spec, dec.unmarshalSpec input = .ok spec → spec.ProviderPod = none) :
    ∃ pod cs, dec.decodePod input = .ok pod ∧ dec.decodeContainers input = .ok cs ∧
      r.ProviderPod = pod.K8sPodSpec ∧
      (∀ (i : Nat) (c : k8sContainer), cs.Containers[i]? = some c →
        ∃ rc : caas.ContainerSpec, r.Containers[i]? = some rc ∧ rc.ProviderContainer = c.K8sContainerSpec) ∧
      parseK8sPodSpec (withoutExtensions dec) input = .ok (commonFields r) := by
  obtain ⟨spec0, pod, cs, h1, h2, h3, hne, hr, hcrd, hpp⟩ := parseK8sPodSpec_ok dec input r hok
  have hzero : spec0.ProviderPod = none := hcommon spec0 h1
  have hlen : ¬ cs.Containers.length = 0 := by
    intro e
    exact hne (List.length_eq_zero.mp e)
  refine ⟨pod, cs, h2, h3, ?_, ?_, ?_⟩
  · rw [hpp, hzero]
    cases pod.K8sPodSpec <;> rfl
  · intro i c hi
    exact ⟨_, parse_container_at dec input r cs hok h3 i c hi,
      composeContainer_ProviderContainer _⟩
  · obtain ⟨rcs, rcrd, rpp⟩ := r
    obtain ⟨s0cs, s0crd, s0pp⟩ := spec0
    simp only at hr hcrd hzero
    subst hr hcrd hzero
    unfold parseK8sPodSpec
    simp only [withoutExtensions, h1, h2, h3, List.length_map, hlen, composeContainers_eq,
      if_false, commonFields, List.map_map]
    congr 2
    apply List.map_congr_left
    intro c _
    exact (commonContainer_compose c).symm

/-- Witness for C10: the test text, whose first container and pod carry an
extension and whose second container carries none. -/
theorem parseK8sPodSpec_extensions_additive_witness :
    ∃ r pod cs, parseK8sPodSpec samples.testDecoders samples.testText = .ok r ∧
      samples.testDecoders.decodePod samples.testText = .ok pod ∧
      samples.testDecoders.decodeContainers samples.testText = .ok cs ∧
      r.ProviderPod = pod.K8sPodSpec ∧
      (∀ (i : Nat) (c : k8sContainer), cs.Containers[i]? = some c →
        ∃ rc : caas.ContainerSpec, r.Containers[i]? = some rc ∧ rc.ProviderContainer = c.K8sContainerSpec) ∧
      parseK8sPodSpec (withoutExtensions samples.testDecoders) samples.testText =
        .ok (commonFields r) := by
  obtain ⟨pod, cs, h⟩ := parseK8sPodSpec_extensions_additive samples.testDecoders
    samples.testText _ rfl (by intro spec h; cases h; rfl)
  exact ⟨_, pod, cs, rfl, h⟩

end provider

/-! ## Cloud/region inference -/

namespace broker

theorem nodeCloudRegions_of_no_cloud (n : core.Node) (h : nodeClouds n = []) :
    nodeCloudRegions n = [] := by
  unfold nodeCloudRegions
  cases GoMap.get? n.Labels regionLabelName <;> simp [h]

theorem nodeClouds_eq_nil (n : core.Node) (hg : isGoogleNode n = false)
    (ha : isAzureNode n = false) (he : isAmazonNode n = false) : nodeClouds n = [] := by
  simp [nodeClouds, hg, ha, he]

theorem ListHostCloudRegions_single (n : core.Node) :
    ListHostCloudRegions (fun _ => .ok [n]) = .ok (nodeCloudRegions n).toFinset := by
  simp [ListHostCloudRegions]

/-- C11.  A node counts as Google-managed only when it carries both the
node-pool label and the OS-distribution label; for a node that carries only
one of the two and no Azure or Amazon marker, with or without a region label,
`ListHostCloudRegions` returns the empty set and no error. -/
theorem ListHostCloudRegions_one_google_marker (n : core.Node)
    (hone : hasLabel n labelGKENodePool ≠ hasLabel n labelGKEOSDistribution)
    (hazure : isAzureNode n = false) (hamazon : isAmazonNode n = false) :
    ListHostCloudRegions (fun _ => .ok [n]) = .ok ∅ ∧
      ("gce" ∈ nodeClouds n ↔
        hasLabel n labelGKENodePool = true ∧ hasLabel n labelGKEOSDistribution = true) := by
  have hg : isGoogleNode n = false := by
    unfold isGoogleNode
    cases h1 : hasLabel n labelGKENodePool <;> cases h2 : hasLabel n labelGKEOSDistribution <;>
      simp [h1, h2] at hone ⊢
  constructor
  · rw [ListHostCloudRegions_single,
      nodeCloudRegions_of_no_cloud n (nodeClouds_eq_nil n hg hazure hamazon)]
    rfl
  · have hno : "gce" ∉ nodeClouds n := by
      simp [nodeClouds_eq_nil n hg hazure hamazon]
    constructor
    · intro h
      exact absurd h hno
    · intro h
      simp [isGoogleNode, h.1, h.2] at hg

/-- Witness for C11: the test's node with the node-pool label and a region
label, but no OS-distribution label. -/
theorem ListHostCloudRegions_one_google_marker_witness :
    ListHostCloudRegions (samples.newNodeList
        [("failure-domain.beta.kubernetes.io/region", "a-fancy-region"),
          ("cloud.google.com/gke-nodepool", "")]) = .ok ∅ ∧
      ("gce" ∈ nodeClouds { Name := "node", Labels :=
          [("failure-domain.beta.kubernetes.io/region", "a-fancy-region"),
            ("cloud.google.com/gke-nodepool", "")] } ↔
        hasLabel { Name := "node", Labels :=
          [("failure-domain.beta.kubernetes.io/region", "a-fancy-region"),
            ("cloud.google.com/gke-nodepool", "")] } labelGKENodePool = true ∧
        hasLabel { Name := "node", Labels :=
          [("failure-domain.beta.kubernetes.io/region", "a-fancy-region"),
            ("cloud.google.com/gke-nodepool", "")] } labelGKEOSDistribution = true) :=
  ListHostCloudRegions_one_google_marker
    { Name := "node", Labels :=
        [("failure-domain.beta.kubernetes.io/region", "a-fancy-region"),
          ("cloud.google.com/gke-nodepool", "")] }
    (by decide) (by decide) (by decide)

end broker

namespace broker

theorem nodeCloudRegions_of_region (n : core.Node) (r : String)
    (hr : GoMap.get? n.Labels regionLabelName = some r) :
    nodeCloudRegions n = (nodeClouds n).map (fun cloud => cloud ++ "/" ++ r) := by
  simp [nodeCloudRegions, hr]

/-- C12.  For a one-node sample and a region value `r`: a node with both
Google markers (and no marker of another cloud) and region label `r` yields
exactly the set with `gce/r`; with the Azure cluster label, `azure/r`; with
manufacturer `amazon_ec2`, `ec2/r`; a node without the region label, or with
no cloud marker, yields the empty set; none of these is an error. -/
theorem ListHostCloudRegions_single_node (n : core.Node) (r : String) :
    (isGoogleNode n = true → isAzureNode n = false → isAmazonNode n = false →
        GoMap.get? n.Labels regionLabelName = some r →
        ListHostCloudRegions (fun _ => .ok [n]) = .ok {"gce/" ++ r}) ∧
      (isAzureNode n = true → isGoogleNode n = false → isAmazonNode n = false →
        GoMap.get? n.Labels regionLabelName = some r →
        ListHostCloudRegions (fun _ => .ok [n]) = .ok {"azure/" ++ r}) ∧
      (isAmazonNode n = true → isGoogleNode n = false → isAzureNode n = false →
        GoMap.get? n.Labels regionLabelName = some r →
        ListHostCloudRegions (fun _ => .ok [n]) = .ok {"ec2/" ++ r}) ∧
      (GoMap.get? n.Labels regionLabelName = none →
        ListHostCloudRegions (fun _ => .ok [n]) = .ok ∅) ∧
      (isGoogleNode n = false → isAzureNode n = false → isAmazonNode n = false →
        ListHostCloudRegions (fun _ => .ok [n]) = .ok ∅) := by
  refine ⟨?_, ?_, ?_, ?_, ?_⟩
  · intro hg ha he hr
    rw [ListHostCloudRegions_single, nodeCloudRegions_of_region n r hr]
    simp [nodeClouds, hg, ha, he]
  · intro ha hg he hr
    rw [ListHostCloudRegions_single, nodeCloudRegions_of_region n r hr]
    simp [nodeClouds, hg, ha, he]
  · intro he hg ha hr
    rw [ListHostCloudRegions_single, nodeCloudRegions_of_region n r hr]
    simp [nodeClouds, hg, ha, he]
  · intro hr
    rw [ListHostCloudRegions_single]
    simp [nodeCloudRegions, hr]
  · intro hg ha he
    rw [ListHostCloudRegions_single,
      nodeCloudRegions_of_no_cloud n (nodeClouds_eq_nil n hg ha he)]
    rfl

/-- Witness for C12: the five kinds of node of the tests' table. -/
theorem ListHostCloudRegions_single_node_witness :
    ListHostCloudRegions (samples.newNodeList
        [("failure-domain.beta.kubernetes.io/region", "a-fancy-region"),
          ("cloud.google.com/gke-nodepool", ""),
          ("cloud.google.com/gke-os-distribution", "")]) = .ok {"gce/" ++ "a-fancy-region"} ∧
      ListHostCloudRegions (samples.newNodeList
        [("failure-domain.beta.kubernetes.io/region", "a-fancy-region"),
          ("kubernetes.azure.com/cluster", "")]) = .ok {"azure/" ++ "a-fancy-region"} ∧
      ListHostCloudRegions (samples.newNodeList
        [("failure-domain.beta.kubernetes.io/region", "a-fancy-region"),
          ("manufacturer", "amazon_ec2")]) = .ok {"ec2/" ++ "a-fancy-region"} ∧
      ListHostCloudRegions (samples.newNodeList
        [("cloud.google.com/gke-nodepool", ""),
          ("cloud.google.com/gke-os-distribution", "")]) = .ok ∅ ∧
      ListHostCloudRegions (samples.newNodeList
        [("failure-domain.beta.kubernetes.io/region", "a-fancy-region")]) = .ok ∅ :=
  ⟨(ListHostCloudRegions_single_node _ "a-fancy-region").1
      (by decide) (by decide) (by decide) (by decide),
    (ListHostCloudRegions_single_node _ "a-fancy-region").2.1
      (by decide) (by decide) (by decide) (by decide),
    (ListHostCloudRegions_single_node _ "a-fancy-region").2.2.1
      (by decide) (by decide) (by decide) (by decide),
    (ListHostCloudRegions_single_node _ "a-fancy-region").2.2.2.1 (by decide),
    (ListHostCloudRegions_single_node _ "a-fancy-region").2.2.2.2
      (by decide) (by decide) (by decide)⟩

end broker

/-! ## The translator -/

namespace broker

/-- The model reproduces `TestMakeUnitSpecConfigPairs`. -/
theorem MakeUnitSpec_basicPodspec :
    (MakeUnitSpec samples.dockerConfigOK "app-name" "app-name" samples.basicPodspec).map PodSpec =
      .ok samples.basicUnitPod := by
  rfl

end broker

namespace broker

theorem envLE_iff (a b : core.EnvVar) : envLE a b ↔ a.Name ≤ b.Name := by
  unfold envLE
  exact String.le_iff_toList_le.symm

theorem envLE_total : IsTotal core.EnvVar envLE :=
  ⟨fun a b => by simpa [envLE_iff] using le_total a.Name b.Name⟩

theorem envLE_trans : IsTrans core.EnvVar envLE :=
  ⟨fun a b c h1 h2 => by
    rw [envLE_iff] at *
    exact le_trans h1 h2⟩

/-- A list sorted by name whose names are distinct is strictly ascending. -/
theorem sorted_lt_of_sorted_envLE (l : List core.EnvVar) (hs : l.Sorted envLE)
    (hn : (l.map (fun e => e.Name)).Nodup) : l.Sorted (fun a b => a.Name < b.Name) := by
  have hne : l.Pairwise (fun a b => a.Name ≠ b.Name) := by
    simpa [List.Nodup, List.pairwise_map] using hn
  refine (List.Pairwise.and hs hne).imp ?_
  intro a b h
  exact lt_of_le_of_ne ((envLE_iff a b).mp h.1) h.2

/-- Two lists sorted by name with the same entries and distinct names are
the same list. -/
theorem eq_of_perm_sorted_envLE (l₁ l₂ : List core.EnvVar) (hp : l₁.Perm l₂)
    (h1 : l₁.Sorted envLE) (h2 : l₂.Sorted envLE)
    (hn : (l₁.map (fun e => e.Name)).Nodup) : l₁ = l₂ := by
  have hn2 : (l₂.map (fun e => e.Name)).Nodup := (hp.map _).nodup_iff.mp hn
  haveI : IsAntisymm core.EnvVar (fun a b => a.Name < b.Name) :=
    ⟨fun a b hab hba => absurd hab (lt_asymm hba)⟩
  exact List.eq_of_perm_of_sorted hp (sorted_lt_of_sorted_envLE l₁ h1 hn)
    (sorted_lt_of_sorted_envLE l₂ h2 hn2)

theorem containerEnv_sorted (cfg : GoMap String Value) : (containerEnv cfg).Sorted envLE := by
  haveI := envLE_total
  haveI := envLE_trans
  exact List.sorted_insertionSort envLE _

theorem containerEnv_perm (cfg : GoMap String Value) :
    (containerEnv cfg).Perm
      (cfg.map (fun kv => ({ Name := kv.1, Value := renderValue kv.2 } : core.EnvVar))) :=
  List.perm_insertionSort envLE _

theorem containerEnv_names (cfg : GoMap String Value) :
    ((containerEnv cfg).map (fun e => e.Name)).Perm (GoMap.keys cfg) := by
  have h := (containerEnv_perm cfg).map (fun e => e.Name)
  simpa [GoMap.keys, Function.comp_def] using h

theorem containerEnv_congr (cfg cfg' : GoMap String Value) (hp : cfg'.Perm cfg)
    (hwf : GoMap.WF cfg) : containerEnv cfg' = containerEnv cfg := by
  apply eq_of_perm_sorted_envLE _ _ _ (containerEnv_sorted cfg') (containerEnv_sorted cfg)
  · have hk : (GoMap.keys cfg').Perm (GoMap.keys cfg) := hp.map _
    exact ((containerEnv_names cfg').trans hk).nodup_iff.mpr hwf
  · exact (containerEnv_perm cfg').trans
      ((hp.map _).trans (containerEnv_perm cfg).symm)

theorem makeContainer_Env (c : caas.ContainerSpec) :
    (makeContainer c).Env = containerEnv c.Config := by
  unfold makeContainer
  cases c.ProviderContainer <;> rfl

/-- Success of `MakeUnitSpec` unfolded. -/
theorem MakeUnitSpec_ok (create : caas.ImageDetails → Except Error String)
    (appName deploymentName : String) (podSpec : caas.PodSpec) (u : unitSpec)
    (hok : MakeUnitSpec create appName deploymentName podSpec = .ok u) :
    imageSecrets create appName podSpec.Containers = .ok u.Secrets ∧
      u.Pod.ImagePullSecrets = u.Secrets.map (fun s => { Name := s.Name }) ∧
      u.Pod.Containers = podSpec.Containers.map makeContainer := by
  unfold MakeUnitSpec at hok
  cases h : imageSecrets create appName podSpec.Containers with
  | error e => simp [h] at hok
  | ok secrets =>
    simp only [h] at hok
    injection hok with hu
    subst hu
    exact ⟨rfl, rfl, rfl⟩

/-- C13.  For every container of a translated pod specification the
environment has exactly one entry per configuration key (the names are the
keys, each once), the entries are in ascending order of name, the result does
not depend on the order in which the mapping lists its entries, and a
container with no configuration gets no environment entries. -/
theorem MakeUnitSpec_env_sorted (create : caas.ImageDetails → Except Error String)
    (appName deploymentName : String) (podSpec : caas.PodSpec) (u : unitSpec)
    (i : Nat) (c : caas.ContainerSpec)
    (hok : MakeUnitSpec create appName deploymentName podSpec = .ok u)
    (hi : podSpec.Containers[i]? = some c) (hwf : GoMap.WF c.Config) :
    ∃ nc : core.Container, u.Pod.Containers[i]? = some nc ∧
      (nc.Env.map (fun e => e.Name)).Perm (GoMap.keys c.Config) ∧
      (nc.Env.map (fun e => e.Name)).Nodup ∧
      (nc.Env.map (fun e => e.Name)).Sorted (fun a b => a < b) ∧
      (∀ cfg' : GoMap String Value, cfg'.Perm c.Config → containerEnv cfg' = nc.Env) ∧
      (c.Config = [] → nc.Env = []) := by
  obtain ⟨_, _, hcs⟩ := MakeUnitSpec_ok create appName deploymentName podSpec u hok
  refine ⟨makeContainer c, by simp [hcs, hi], ?_⟩
  rw [makeContainer_Env]
  have hnodup : ((containerEnv c.Config).map (fun e => e.Name)).Nodup :=
    (containerEnv_names c.Config).nodup_iff.mpr hwf
  refine ⟨containerEnv_names c.Config, hnodup, ?_, ?_, ?_⟩
  · have := sorted_lt_of_sorted_envLE _ (containerEnv_sorted c.Config) hnodup
    exact List.pairwise_map.mpr this
  · intro cfg' hp
    exact containerEnv_congr c.Config cfg' hp hwf
  · intro he
    rw [he]
    rfl

/-- Witness for C13: the first container of the tests' pod specification. -/
theorem MakeUnitSpec_env_sorted_witness :
    ∃ nc : core.Container, samples.basicUnitPod.Containers[0]? = some nc ∧
      (nc.Env.map (fun e => e.Name)).Perm ["foo", "restricted", "bar", "switch"] ∧
      (nc.Env.map (fun e => e.Name)).Nodup ∧
      (nc.Env.map (fun e => e.Name)).Sorted (fun a b => a < b) ∧
      (∀ cfg' : GoMap String Value,
        cfg'.Perm [("foo", .str "bar"), ("restricted", .str "'yes'"), ("bar", .bool true),
          ("switch", .str "on")] → containerEnv cfg' = nc.Env) ∧
      ((([("foo", .str "bar"), ("restricted", .str "'yes'"), ("bar", .bool true),
          ("switch", .str "on")] : GoMap String Value) = []) → nc.Env = []) :=
  MakeUnitSpec_env_sorted samples.dockerConfigOK "app-name" "app-name" samples.basicPodspec
    { Pod := samples.basicUnitPod
      Secrets := [{ Name := "app-name-test-secret", Data := "fred@juju/image" }] }
    0 _ rfl rfl (by decide)

end broker

namespace broker

theorem mem_boolValues_iff (s : String) :
    s ∈ provider.boolValues ↔ s ∈ trueWords ∨ s ∈ falseWords := by
  rw [provider.boolValues_eq]
  simp only [trueWords, falseWords, List.mem_cons, List.mem_singleton, List.not_mem_nil,
    or_false]
  tauto

theorem unquote_of_mem_boolValues (s : String) (h : s ∈ provider.boolValues) :
    unquote s = none := by
  rw [provider.boolValues_eq] at h
  simp only [List.mem_cons, List.mem_singleton, List.not_mem_nil, or_false] at h
  rcases h with h | h | h | h | h | h | h | h | h | h | h | h | h | h | h | h | h | h | h | h |
    h | h <;> subst h <;> decide

theorem unquote_sprintfQuoted (s : String) : unquote (provider.sprintfQuoted s) = some s := by
  obtain ⟨cs⟩ := s
  simp [unquote, provider.sprintfQuoted]

theorem mem_containerEnv (cfg : GoMap String Value) (k : String) (v : Value)
    (h : (k, v) ∈ cfg) : ({ Name := k, Value := renderValue v } : core.EnvVar) ∈ containerEnv cfg := by
  rw [(containerEnv_perm cfg).mem_iff]
  exact List.mem_map.mpr ⟨(k, v), h, rfl⟩

/-- C14.  How the translator renders configuration values: the boolean true
as "true" and false as "false"; a string that spells a true boolean, such as
"on", as "true"; a string that is neither boolean-like nor wrapped in single
quotes, such as "bar", unchanged; a string wrapped in single quotes, such as
"'yes'", with the quotes stripped ("yes", not "true").  The entry the
translator emits for a key carries the rendering of its value. -/
theorem renderValue_rules :
    renderValue (.bool true) = "true" ∧ renderValue (.bool false) = "false" ∧
      (∀ s, s ∈ trueWords → renderValue (.str s) = "true") ∧
      renderValue (.str "on") = "true" ∧
      (∀ s, s ∉ provider.boolValues → unquote s = none → renderValue (.str s) = s) ∧
      renderValue (.str "bar") = "bar" ∧
      (∀ s, renderValue (.str (provider.sprintfQuoted s)) = s) ∧
      renderValue (.str "'yes'") = "yes" ∧ renderValue (.str "'yes'") ≠ "true" ∧
      (∀ (cfg : GoMap String Value) (k : String) (v : Value), (k, v) ∈ cfg →
        ({ Name := k, Value := renderValue v } : core.EnvVar) ∈ containerEnv cfg) := by
  refine ⟨rfl, rfl, ?_, by decide, ?_, by decide, ?_, by decide, by decide, mem_containerEnv⟩
  · intro s hs
    have hq := unquote_of_mem_boolValues s ((mem_boolValues_iff s).mpr (Or.inl hs))
    simp [renderValue, hq, hs, formatBool]
  · intro s hs hq
    have h := (not_congr (mem_boolValues_iff s)).mp hs
    simp only [not_or] at h
    simp [renderValue, hq, h.1, h.2]
  · intro s
    simp [renderValue, unquote_sprintfQuoted]

end broker

namespace broker

theorem imageSecrets_names (create : caas.ImageDetails → Except Error String)
    (appName : String) (cs : List caas.ContainerSpec) (secrets : List ImageSecret)
    (h : imageSecrets create appName cs = .ok secrets) :
    secrets.map (fun s => s.Name) =
      (cs.filter isPrivateImage).map (fun c => appSecretName appName c.Name) := by
  induction cs generalizing secrets with
  | nil =>
    simp only [imageSecrets] at h
    injection h with h
    subst h
    rfl
  | cons c rest ih =>
    by_cases hp : isPrivateImage c = true
    · simp only [imageSecrets, hp, if_true] at h
      cases hc : create c.ImageDetails with
      | error e => simp [hc] at h
      | ok payload =>
        cases hr : imageSecrets create appName rest with
        | error e => simp [hc, hr] at h
        | ok out =>
          simp only [hc, hr] at h
          injection h with h
          subst h
          simp [List.filter_cons, hp, ih out hr]
    · have hp' : isPrivateImage c = false := by simpa using hp
      simp only [imageSecrets, hp', Bool.false_eq_true, if_false] at h
      simp [List.filter_cons, hp', ih secrets h]

/-- The translator returns a result whenever the payload of every
private-registry image can be built. -/
theorem imageSecrets_returns (create : caas.ImageDetails → Except Error String)
    (appName : String) (cs : List caas.ContainerSpec)
    (h : ∀ c ∈ cs, isPrivateImage c = true → ∃ p, create c.ImageDetails = .ok p) :
    ∃ secrets, imageSecrets create appName cs = .ok secrets := by
  induction cs with
  | nil => exact ⟨[], rfl⟩
  | cons c rest ih =>
    obtain ⟨out, hout⟩ := ih (fun c' hc' => h c' (List.mem_cons_of_mem _ hc'))
    by_cases hp : isPrivateImage c = true
    · obtain ⟨p, hpay⟩ := h c (List.mem_cons_self _ _) hp
      exact ⟨{ Name := appSecretName appName c.Name, Data := p } :: out,
        by simp [imageSecrets, hp, hpay, hout]⟩
    · have hp' : isPrivateImage c = false := by simpa using hp
      exact ⟨out, by simp [imageSecrets, hp', hout]⟩

/-- C15.  For every application name and pod specification the translator
translates, the image-pull secrets it registers, and the pod's pull-secret
list that references them, are those of the containers with a
private-registry image (non-empty username), in order, each named
`<app>-<container name>-secret`; a container given as a bare image string
gets none.  On the tests' input the list is `app-name-test-secret` alone. -/
theorem MakeUnitSpec_image_pull_secrets (create : caas.ImageDetails → Except Error String)
    (appName deploymentName : String) (podSpec : caas.PodSpec) (u : unitSpec)
    (hok : MakeUnitSpec create appName deploymentName podSpec = .ok u) :
    u.Secrets.map (fun s => s.Name) =
        (podSpec.Containers.filter (fun c => decide (c.ImageDetails.Username ≠ ""))).map
          (fun c => appName ++ "-" ++ c.Name ++ "-secret") ∧
      u.Pod.ImagePullSecrets.map (fun s => s.Name) = u.Secrets.map (fun s => s.Name) ∧
      ((∀ c ∈ podSpec.Containers, c.ImageDetails.Username = "") →
        u.Secrets = [] ∧ u.Pod.ImagePullSecrets = []) ∧
      (MakeUnitSpec samples.dockerConfigOK "app-name" "app-name" samples.basicPodspec).map
          (fun r => r.Pod.ImagePullSecrets.map (fun s => s.Name)) =
        .ok ["app-name-test-secret"] := by
  obtain ⟨hsec, hrefs, _⟩ := MakeUnitSpec_ok create appName deploymentName podSpec u hok
  have hnames := imageSecrets_names create appName podSpec.Containers u.Secrets hsec
  have hfilter : isPrivateImage = fun c => decide (c.ImageDetails.Username ≠ "") := rfl
  refine ⟨?_, ?_, ?_, rfl⟩
  · rw [hnames, hfilter]
    rfl
  · rw [hrefs]
    simp [Function.comp_def]
  · intro hbare
    have hnil : podSpec.Containers.filter isPrivateImage = [] := by
      rw [List.filter_eq_nil_iff]
      intro c hc
      simp [isPrivateImage, hbare c hc]
    have hs : u.Secrets = [] := by
      have := hnames
      rw [hnil] at this
      simpa using this
    exact ⟨hs, by rw [hrefs, hs]; rfl⟩

/-- Witness for C15: the tests' pod specification under application name
`app-name`. -/
theorem MakeUnitSpec_image_pull_secrets_witness :
    ∃ u, MakeUnitSpec samples.dockerConfigOK "app-name" "app-name" samples.basicPodspec =
        .ok u ∧
      u.Secrets.map (fun s => s.Name) = ["app-name-test-secret"] ∧
      u.Pod.ImagePullSecrets.map (fun s => s.Name) = ["app-name-test-secret"] := by
  have h := MakeUnitSpec_image_pull_secrets samples.dockerConfigOK "app-name" "app-name"
    samples.basicPodspec _ rfl
  exact ⟨_, rfl, h.1.trans (by decide), h.2.1.trans (h.1.trans (by decide))⟩

end broker

/-! ## The ensure and delete protocols -/

namespace broker

theorem map_replace_absent (l : List core.Namespace) (ns : core.Namespace)
    (h : l.any (fun o => decide (o.Name = ns.Name)) = false) :
    l.map (fun o => if o.Name = ns.Name then ns else o) = l := by
  induction l with
  | nil => rfl
  | cons o rest ih =>
    simp only [List.any_cons, Bool.or_eq_false_iff, decide_eq_false_iff_not] at h
    simp [h.1, ih h.2]

/-- C16.  Ensure is idempotent: on a cluster without the broker's namespace,
the first `EnsureNamespace` makes an update that answers not-found and then
one create, the second makes one update and no create, both return success,
and the cluster after the second call is the cluster after the first. -/
theorem EnsureNamespace_idempotent (k : kubernetesClient) (cl : Cluster)
    (habsent : cl.hasNamespace k.Namespace = false) :
    (EnsureNamespace k cl).err = none ∧
      (EnsureNamespace k (EnsureNamespace k cl).cluster).err = none ∧
      (EnsureNamespace k cl).calls =
        [(⟨.Namespaces, .Update, k.Namespace⟩, some .notFound),
          (⟨.Namespaces, .Create, k.Namespace⟩, none)] ∧
      (EnsureNamespace k (EnsureNamespace k cl).cluster).calls =
        [(⟨.Namespaces, .Update, k.Namespace⟩, none)] ∧
      (EnsureNamespace k (EnsureNamespace k cl).cluster).cluster =
        (EnsureNamespace k cl).cluster ∧
      (EnsureNamespace k cl).cluster.hasNamespace k.Namespace = true := by
  have h1 : EnsureNamespace k cl =
      { cluster := { Namespaces := cl.Namespaces ++ [{ Name := k.Namespace }] }
        calls := [(⟨.Namespaces, .Update, k.Namespace⟩, some .notFound),
          (⟨.Namespaces, .Create, k.Namespace⟩, none)]
        err := none } := by
    simp [EnsureNamespace, Cluster.UpdateNamespace, Cluster.CreateNamespace, habsent]
  have hpresent : Cluster.hasNamespace
      { Namespaces := cl.Namespaces ++ [{ Name := k.Namespace }] } k.Namespace = true := by
    simp [Cluster.hasNamespace]
  have hmap : (cl.Namespaces ++ [({ Name := k.Namespace } : core.Namespace)]).map
      (fun o => if o.Name = k.Namespace then ({ Name := k.Namespace } : core.Namespace) else o) =
      cl.Namespaces ++ [{ Name := k.Namespace }] := by
    have := map_replace_absent cl.Namespaces { Name := k.Namespace } habsent
    simp only [List.map_append, this]
    simp
  have h2 : EnsureNamespace k { Namespaces := cl.Namespaces ++ [{ Name := k.Namespace }] } =
      { cluster := { Namespaces := cl.Namespaces ++ [{ Name := k.Namespace }] }
        calls := [(⟨.Namespaces, .Update, k.Namespace⟩, none)]
        err := none } := by
    simp only [EnsureNamespace, Cluster.UpdateNamespace, hpresent, if_true, hmap]
  rw [h1]
  simp only [h2]
  exact ⟨trivial, trivial, trivial, trivial, trivial, hpresent⟩

/-- Witness for C16: the tests' broker, namespace `test`, on an empty
cluster. -/
theorem EnsureNamespace_idempotent_witness :
    (EnsureNamespace { Namespace := "test" } {}).err = none ∧
      (EnsureNamespace { Namespace := "test" }
        (EnsureNamespace { Namespace := "test" } {}).cluster).err = none ∧
      (EnsureNamespace { Namespace := "test" } {}).calls =
        [(⟨.Namespaces, .Update, "test"⟩, some .notFound),
          (⟨.Namespaces, .Create, "test"⟩, none)] ∧
      (EnsureNamespace { Namespace := "test" }
        (EnsureNamespace { Namespace := "test" } {}).cluster).calls =
        [(⟨.Namespaces, .Update, "test"⟩, none)] ∧
      (EnsureNamespace { Namespace := "test" }
        (EnsureNamespace { Namespace := "test" } {}).cluster).cluster =
        (EnsureNamespace { Namespace := "test" } {}).cluster ∧
      (EnsureNamespace { Namespace := "test" } {}).cluster.hasNamespace "test" = true :=
  EnsureNamespace_idempotent { Namespace := "test" } {} (by decide)

end broker

namespace broker

/-- With a cluster that answers every delete with success or not-found, the
walk attempts every deletion and returns success. -/
theorem deleteAll_of_gone (c : Client)
    (hdel : ∀ kind name, c.Delete kind name = none ∨ c.Delete kind name = some .notFound)
    (l : List (Kind × String)) :
    deleteAll c l = (l.map (fun kn => ⟨kn.1, .Delete, kn.2⟩), none) := by
  induction l with
  | nil => rfl
  | cons kn rest ih =>
    obtain ⟨kind, name⟩ := kn
    rcases hdel kind name with h | h <;> simp [deleteAll, h, ih]

/-- C17.  Delete is idempotent: when the cluster answers every delete call
with not-found (or success) and the pod and secret listings succeed,
`DeleteService` and `DeleteOperator` return success, and each has attempted
every deletion of its walk: a not-found neither becomes an error nor stops
the deletions after it. -/
theorem Delete_idempotent (c : Client) (appName : String)
    (pods operatorPods : List core.Pod) (secrets : List String)
    (hdel : ∀ kind name, c.Delete kind name = none ∨ c.Delete kind name = some .notFound)
    (hpods : c.ListPods (ownerSelector labelApplication appName) = .ok pods)
    (hsecrets : c.ListSecrets (ownerSelector labelApplication appName) = .ok secrets)
    (hoperatorPods : c.ListPods (ownerSelector labelOperator appName) = .ok operatorPods) :
    DeleteService c appName =
        ([⟨.Services, .Delete, appName⟩, ⟨.StatefulSets, .Delete, appName⟩,
            ⟨.Deployments, .Delete, appName⟩,
            ⟨.Pods, .List, ownerSelector labelApplication appName⟩] ++
          (pods.flatMap podVolumeDeletes).map (fun kn => ⟨kn.1, .Delete, kn.2⟩) ++
          [⟨.Secrets, .List, ownerSelector labelApplication appName⟩] ++
          secrets.map (fun s => ⟨.Secrets, .Delete, s⟩), none) ∧
      DeleteOperator c appName =
        ([⟨.ConfigMaps, .Delete, appName ++ "-operator-config"⟩,
            ⟨.ConfigMaps, .Delete, appName ++ "-configurations-config"⟩,
            ⟨.StatefulSets, .Delete, appName ++ "-operator"⟩,
            ⟨.Pods, .List, ownerSelector labelOperator appName⟩] ++
          (operatorPods.flatMap
            (fun p => podSecretDeletes appName p ++ podVolumeDeletes p)).map
              (fun kn => ⟨kn.1, .Delete, kn.2⟩) ++
          [⟨.Deployments, .Delete, appName ++ "-operator"⟩], none) := by
  constructor
  · simp [DeleteService, deleteAll_of_gone c hdel, hpods, hsecrets, Function.comp_def]
  · simp [DeleteOperator, deleteAll_of_gone c hdel, hoperatorPods]

/-- Witness for C17: the clusters of `TestDeleteService` and
`TestDeleteOperator`, with the calls those tests expect. -/
theorem Delete_idempotent_witness :
    DeleteService samples.deleteServiceClient "test" =
        ([⟨.Services, .Delete, "test"⟩, ⟨.StatefulSets, .Delete, "test"⟩,
          ⟨.Deployments, .Delete, "test"⟩, ⟨.Pods, .List, "juju-application==test"⟩,
          ⟨.Secrets, .List, "juju-application==test"⟩, ⟨.Secrets, .Delete, "secret"⟩], none) ∧
      DeleteOperator samples.deleteOperatorClient "test" =
        ([⟨.ConfigMaps, .Delete, "test-operator-config"⟩,
          ⟨.ConfigMaps, .Delete, "test-configurations-config"⟩,
          ⟨.StatefulSets, .Delete, "test-operator"⟩, ⟨.Pods, .List, "juju-operator==test"⟩,
          ⟨.Secrets, .Delete, "test-jujud-secret"⟩,
          ⟨.PersistentVolumeClaims, .Delete, "test-operator-volume"⟩,
          ⟨.PersistentVolumes, .Delete, "test-operator-volume"⟩,
          ⟨.Deployments, .Delete, "test-operator"⟩], none) :=
  ⟨(Delete_idempotent samples.deleteServiceClient "test" [] [] ["secret"]
      (fun _ _ => Or.inr rfl) rfl rfl rfl).1,
    (Delete_idempotent samples.deleteOperatorClient "test" _ _ []
      (fun _ _ => Or.inr rfl) rfl rfl rfl).2⟩

end broker

/-! ## Storage classes, custom resource definitions, workload objects -/

namespace broker

/-- C18.  Storage class resolution for storage name `s` in namespace `n`
probes `n-s` first and uses it when it exists; when that probe answers
not-found it probes `s` and uses it, without error, when it exists; when
neither exists it returns an error, and the storage step has submitted no
workload object. -/
theorem resolveStorageClass_order (c : Client) (ns storageName workloadName : String) :
    (resolveStorageClass c ns storageName).1.head? =
        some ⟨.StorageClasses, .Get, ns ++ "-" ++ storageName⟩ ∧
      (∀ found, c.GetStorageClass (ns ++ "-" ++ storageName) = .ok found →
        resolveStorageClass c ns storageName =
          ([⟨.StorageClasses, .Get, ns ++ "-" ++ storageName⟩],
            .ok (ns ++ "-" ++ storageName))) ∧
      (∀ found, c.GetStorageClass (ns ++ "-" ++ storageName) = .error .notFound →
        c.GetStorageClass storageName = .ok found →
        resolveStorageClass c ns storageName =
          ([⟨.StorageClasses, .Get, ns ++ "-" ++ storageName⟩,
            ⟨.StorageClasses, .Get, storageName⟩], .ok storageName)) ∧
      (c.GetStorageClass (ns ++ "-" ++ storageName) = .error .notFound →
        c.GetStorageClass storageName = .error .notFound →
        (∃ err, (resolveStorageClass c ns storageName).2 = .error err) ∧
          (∃ err, (ensureStatefulSetWithStorage c ns storageName workloadName).2 = .error err) ∧
          ∀ call ∈ (ensureStatefulSetWithStorage c ns storageName workloadName).1,
            submitsWorkload call = false) := by
  refine ⟨?_, ?_, ?_, ?_⟩
  · unfold resolveStorageClass
    simp only [qualifiedStorageClassName]
    cases c.GetStorageClass (ns ++ "-" ++ storageName) with
    | ok v => rfl
    | error e =>
      cases e with
      | notFound => cases c.GetStorageClass storageName <;> rfl
      | alreadyExists => rfl
      | failure m => rfl
  · intro found h
    simp [resolveStorageClass, qualifiedStorageClassName, h]
  · intro found h1 h2
    simp [resolveStorageClass, qualifiedStorageClassName, h1, h2]
  · intro h1 h2
    have hr : resolveStorageClass c ns storageName =
        ([⟨.StorageClasses, .Get, ns ++ "-" ++ storageName⟩,
          ⟨.StorageClasses, .Get, storageName⟩], .error .notFound) := by
      simp [resolveStorageClass, qualifiedStorageClassName, h1, h2]
    refine ⟨⟨.notFound, by rw [hr]⟩, ?_, ?_⟩
    · exact ⟨.notFound, by simp [ensureStatefulSetWithStorage, hr]⟩
    · intro call hcall
      simp only [ensureStatefulSetWithStorage, hr] at hcall
      simp only [List.mem_cons, List.mem_singleton, List.not_mem_nil, or_false] at hcall
      rcases hcall with h | h <;> subst h <;> rfl

/-- The model reproduces the storage calls of `TestEnsureOperator`,
`TestEnsureServiceWithStorage` and, without a class, submits nothing. -/
theorem ensureStatefulSetWithStorage_tests :
    ensureStatefulSetWithStorage samples.qualifiedClassClient "test" "juju-operator-storage"
        "test-operator" =
        ([⟨.StorageClasses, .Get, "test-juju-operator-storage"⟩,
          ⟨.StatefulSets, .Update, "test-operator"⟩,
          ⟨.StatefulSets, .Create, "test-operator"⟩], .ok "test-juju-operator-storage") ∧
      ensureStatefulSetWithStorage samples.bareClassClient "test" "juju-unit-storage"
        "app-name" =
        ([⟨.StorageClasses, .Get, "test-juju-unit-storage"⟩,
          ⟨.StorageClasses, .Get, "juju-unit-storage"⟩,
          ⟨.StatefulSets, .Update, "app-name"⟩,
          ⟨.StatefulSets, .Create, "app-name"⟩], .ok "juju-unit-storage") ∧
      ensureStatefulSetWithStorage samples.noClassClient "test" "juju-unit-storage"
        "app-name" =
        ([⟨.StorageClasses, .Get, "test-juju-unit-storage"⟩,
          ⟨.StorageClasses, .Get, "juju-unit-storage"⟩], .error .notFound) := by
  refine ⟨?_, ?_, ?_⟩ <;> rfl

/-- C19.  The custom resource definition object built for kind `K` and group
`G` is named `<plural>.<G>`, where the plural is the lower-cased kind with
`s` appended and the singular is the lower-cased kind; for kind `TFJob` and
group `kubeflow.org` the name is `tfjobs.kubeflow.org`, the plural `tfjobs`
and the singular `tfjob`. -/
theorem buildCustomResourceDefinition_names (ns : String)
    (crd : caas.CustomResourceDefinition) :
    (buildCustomResourceDefinition ns crd).Names.Singular = toLower crd.Kind ∧
      (buildCustomResourceDefinition ns crd).Names.Plural = toLower crd.Kind ++ "s" ∧
      (buildCustomResourceDefinition ns crd).Name =
        (buildCustomResourceDefinition ns crd).Names.Plural ++ "." ++ crd.Group ∧
      (buildCustomResourceDefinition ns crd).Names.Kind = crd.Kind ∧
      buildCustomResourceDefinition "test" samples.tfJob =
        { Name := "tfjobs.kubeflow.org"
          Namespace := "test"
          Group := "kubeflow.org"
          Version := "v1alpha2"
          Scope := "Namespaced"
          Names := { Plural := "tfjobs", Kind := "TFJob", Singular := "tfjob" } } := by
  refine ⟨rfl, rfl, rfl, rfl, by decide⟩

end broker

namespace GoMap

variable {κ ν : Type} [DecidableEq κ]

theorem get?_set_self (m : GoMap κ ν) (k : κ) (v : ν) : get? (set m k v) k = some v := by
  induction m with
  | nil => simp [set, get?]
  | cons kv rest ih =>
    obtain ⟨k', v'⟩ := kv
    by_cases h : k' = k
    · simp [set, get?, h]
    · simp [set, get?, h, ih]

theorem get?_set_ne (m : GoMap κ ν) (k k' : κ) (v : ν) (h : k' ≠ k) :
    get? (set m k v) k' = get? m k' := by
  induction m with
  | nil =>
    have hne : ¬ k = k' := fun e => h e.symm
    simp [set, get?, hne]
  | cons kv rest ih =>
    obtain ⟨k₀, v₀⟩ := kv
    by_cases h0 : k₀ = k
    · subst h0
      have hne : ¬ k₀ = k' := fun e => h e.symm
      simp [set, get?, hne]
    · by_cases h1 : k₀ = k'
      · subst h1
        simp [set, get?, h0]
      · simp [set, get?, h0, h1, ih]

end GoMap

namespace broker

/-- Witness for C18: a cluster with the qualified class, one with the bare
class only, and one with neither. -/
theorem resolveStorageClass_order_witness :
    resolveStorageClass samples.qualifiedClassClient "test" "juju-operator-storage" =
        ([⟨.StorageClasses, .Get, "test" ++ "-" ++ "juju-operator-storage"⟩],
          .ok ("test" ++ "-" ++ "juju-operator-storage")) ∧
      resolveStorageClass samples.bareClassClient "test" "juju-unit-storage" =
        ([⟨.StorageClasses, .Get, "test" ++ "-" ++ "juju-unit-storage"⟩,
          ⟨.StorageClasses, .Get, "juju-unit-storage"⟩], .ok "juju-unit-storage") ∧
      ((∃ err, (resolveStorageClass samples.noClassClient "test" "juju-unit-storage").2 =
          .error err) ∧
        (∃ err, (ensureStatefulSetWithStorage samples.noClassClient "test" "juju-unit-storage"
          "app-name").2 = .error err) ∧
        ∀ call ∈ (ensureStatefulSetWithStorage samples.noClassClient "test"
            "juju-unit-storage" "app-name").1, submitsWorkload call = false) :=
  ⟨(resolveStorageClass_order samples.qualifiedClassClient "test" "juju-operator-storage"
      "test-operator").2.1 "test-juju-operator-storage" rfl,
    (resolveStorageClass_order samples.bareClassClient "test" "juju-unit-storage"
      "app-name").2.2.1 "juju-unit-storage" rfl rfl,
    (resolveStorageClass_order samples.noClassClient "test" "juju-unit-storage"
      "app-name").2.2.2 rfl rfl⟩

/-- C20.  Every workload object built for an application (deployment or
stateful set) or for its operator, whatever the resource tags, has a selector
whose match labels are exactly the ownership pair, has template labels and
object labels that carry that pair, also when a tag uses the ownership key,
keeps every other tag among its labels, and has no tag in its selector. -/
theorem workload_selector_ownership (kind : WorkloadKind) (appName version : String)
    (tags : GoMap String String) :
    ((applicationWorkload kind appName tags).MatchLabels = [("juju-application", appName)] ∧
        GoMap.get? (applicationWorkload kind appName tags).TemplateLabels "juju-application" =
          some appName ∧
        GoMap.get? (applicationWorkload kind appName tags).Labels "juju-application" =
          some appName ∧
        (∀ k, k ≠ "juju-application" →
          GoMap.get? (applicationWorkload kind appName tags).Labels k = GoMap.get? tags k) ∧
        (∀ tag ∈ tags, tag ∈ (applicationWorkload kind appName tags).MatchLabels →
          tag = ("juju-application", appName))) ∧
      ((operatorWorkload appName version tags).MatchLabels = [("juju-operator", appName)] ∧
        GoMap.get? (operatorWorkload appName version tags).TemplateLabels "juju-operator" =
          some appName ∧
        GoMap.get? (operatorWorkload appName version tags).Labels "juju-operator" =
          some appName ∧
        (∀ k, k ≠ "juju-operator" → k ≠ "juju-version" →
          GoMap.get? (operatorWorkload appName version tags).Labels k = GoMap.get? tags k) ∧
        (∀ tag ∈ tags, tag ∈ (operatorWorkload appName version tags).MatchLabels →
          tag = ("juju-operator", appName))) := by
  refine ⟨⟨rfl, ?_, ?_, ?_, ?_⟩, ⟨rfl, ?_, ?_, ?_, ?_⟩⟩
  · exact GoMap.get?_set_self tags _ _
  · exact GoMap.get?_set_self tags _ _
  · intro k hk
    exact GoMap.get?_set_ne tags _ k _ hk
  · intro tag _ hsel
    simpa [applicationWorkload, labelApplication] using hsel
  · exact GoMap.get?_set_self _ _ _
  · exact GoMap.get?_set_self _ _ _
  · intro k hk hv
    show GoMap.get? (GoMap.set (GoMap.set tags labelVersion version) labelOperator appName) k = _
    rw [GoMap.get?_set_ne _ labelOperator k _ hk, GoMap.get?_set_ne _ labelVersion k _ hv]
  · intro tag _ hsel
    simpa [operatorWorkload, labelOperator] using hsel

/-- The model reproduces the labels of the workload objects the tests
expect, and keeps the ownership pair against a tag that uses its key. -/
theorem workload_labels_tests :
    applicationWorkload .Deployment "app-name" [("fred", "mary")] =
        { kind := .Deployment
          Name := "app-name"
          Labels := [("fred", "mary"), ("juju-application", "app-name")]
          MatchLabels := [("juju-application", "app-name")]
          TemplateLabels := [("fred", "mary"), ("juju-application", "app-name")] } ∧
      operatorWorkload "test" "2.99.0" [("fred", "mary")] =
        { kind := .StatefulSet
          Name := "test-operator"
          Labels := [("fred", "mary"), ("juju-version", "2.99.0"), ("juju-operator", "test")]
          MatchLabels := [("juju-operator", "test")]
          TemplateLabels :=
            [("fred", "mary"), ("juju-version", "2.99.0"), ("juju-operator", "test")] } ∧
      (applicationWorkload .StatefulSet "app-name" [("juju-application", "other")]).Labels =
        [("juju-application", "app-name")] := by
  refine ⟨?_, ?_, ?_⟩ <;> decide

end broker

namespace broker

/-- The model reproduces the table of `TestListHostCloudRegions`. -/
theorem ListHostCloudRegions_test_table :
    ListHostCloudRegions (samples.newNodeList []) = .ok ∅ ∧
      ListHostCloudRegions (samples.newNodeList
        [("cloud.google.com/gke-nodepool", "")]) = .ok ∅ ∧
      ListHostCloudRegions (samples.newNodeList
        [("cloud.google.com/gke-os-distribution", "")]) = .ok ∅ ∧
      ListHostCloudRegions (samples.newNodeList
        [("cloud.google.com/gke-nodepool", ""),
          ("cloud.google.com/gke-os-distribution", "")]) = .ok ∅ ∧
      ListHostCloudRegions (samples.newNodeList
        [("kubernetes.azure.com/cluster", "")]) = .ok ∅ ∧
      ListHostCloudRegions (samples.newNodeList [("manufacturer", "amazon_ec2")]) = .ok ∅ ∧
      ListHostCloudRegions (samples.newNodeList
        [("failure-domain.beta.kubernetes.io/region", "a-fancy-region")]) = .ok ∅ ∧
      ListHostCloudRegions (samples.newNodeList
        [("failure-domain.beta.kubernetes.io/region", "a-fancy-region"),
          ("cloud.google.com/gke-nodepool", "")]) = .ok ∅ ∧
      ListHostCloudRegions (samples.newNodeList
        [("failure-domain.beta.kubernetes.io/region", "a-fancy-region"),
          ("cloud.google.com/gke-os-distribution", "")]) = .ok ∅ ∧
      ListHostCloudRegions (samples.newNodeList
        [("failure-domain.beta.kubernetes.io/region", "a-fancy-region"),
          ("cloud.google.com/gke-nodepool", ""),
          ("cloud.google.com/gke-os-distribution", "")]) = .ok {"gce/a-fancy-region"} ∧
      ListHostCloudRegions (samples.newNodeList
        [("failure-domain.beta.kubernetes.io/region", "a-fancy-region"),
          ("kubernetes.azure.com/cluster", "")]) = .ok {"azure/a-fancy-region"} ∧
      ListHostCloudRegions (samples.newNodeList
        [("failure-domain.beta.kubernetes.io/region", "a-fancy-region"),
          ("manufacturer", "amazon_ec2")]) = .ok {"ec2/a-fancy-region"} := by
  refine ⟨?_, ?_, ?_, ?_, ?_, ?_, ?_, ?_, ?_, ?_, ?_, ?_⟩ <;> rfl

end broker

/-! ## `isExecutable` -/

namespace tools

/-- A masked comparison against one of two disjoint masks splits in two. -/
theorem and_or_eq_iff (m a t : Nat) (h : a &&& t = 0) :
    m &&& (a ||| t) = a ↔ (m &&& a = a ∧ m &&& t = 0) := by
  have hd : ∀ i, (a.testBit i && t.testBit i) = false := by
    intro i
    have := congrArg (fun x => Nat.testBit x i) h
    simpa using this
  constructor
  · intro e
    have key : ∀ i, (m.testBit i && (a.testBit i || t.testBit i)) = a.testBit i := by
      intro i
      have := congrArg (fun x => Nat.testBit x i) e
      simpa using this
    constructor
    · apply Nat.eq_of_testBit_eq
      intro i
      have k := key i
      have d := hd i
      simp only [Nat.testBit_and]
      revert k d
      cases m.testBit i <;> cases a.testBit i <;> cases t.testBit i <;> simp
    · apply Nat.eq_of_testBit_eq
      intro i
      have k := key i
      have d := hd i
      simp only [Nat.testBit_and, Nat.zero_testBit]
      revert k d
      cases m.testBit i <;> cases a.testBit i <;> cases t.testBit i <;> simp
  · rintro ⟨e1, e2⟩
    apply Nat.eq_of_testBit_eq
    intro i
    have k1 := congrArg (fun x => Nat.testBit x i) e1
    have k2 := congrArg (fun x => Nat.testBit x i) e2
    simp only [Nat.testBit_and, Nat.zero_testBit] at k1 k2
    simp only [Nat.testBit_and, Nat.testBit_or]
    revert k1 k2
    cases m.testBit i <;> cases a.testBit i <;> cases t.testBit i <;> simp

/-- C21.  With a file-type mask that does not contain the bit 0100,
`isExecutable` is true exactly for the modes with no file-type bit set (a
regular file) and the owner-execute bit 0100 set; it is false for every entry
with a file-type bit (directory, symbolic link, ...), also when the execute
bit is set, and false for every regular file without the owner-execute bit. -/
theorem isExecutable_iff (modeType mode : Nat) (hmask : ownerExec &&& modeType = 0) :
    (isExecutable modeType mode = true ↔
        mode &&& modeType = 0 ∧ mode &&& ownerExec = ownerExec) ∧
      (mode &&& modeType ≠ 0 → isExecutable modeType mode = false) ∧
      (mode &&& modeType = 0 → mode &&& ownerExec ≠ ownerExec →
        isExecutable modeType mode = false) := by
  have hiff : isExecutable modeType mode = true ↔
      mode &&& modeType = 0 ∧ mode &&& ownerExec = ownerExec := by
    unfold isExecutable
    rw [decide_eq_true_iff]
    have := and_or_eq_iff mode ownerExec modeType hmask
    unfold ownerExec at this ⊢
    rw [this]
    exact And.comm
  refine ⟨hiff, ?_, ?_⟩
  · intro h
    cases hx : isExecutable modeType mode with
    | false => rfl
    | true => exact absurd (hiff.mp hx).1 h
  · intro _ h
    cases hx : isExecutable modeType mode with
    | false => rfl
    | true => exact absurd (hiff.mp hx).2 h

/-- Witness for C21: the standard library's `os.ModeType` and an executable
regular file, a directory with the execute bit, and a plain regular file. -/
theorem isExecutable_iff_witness :
    isExecutable ModeType samples.regularExecutable = true ∧
      isExecutable ModeType samples.directoryMode = false ∧
      isExecutable ModeType samples.regularPlain = false :=
  ⟨(isExecutable_iff ModeType samples.regularExecutable (by decide)).1.mpr
      ⟨by decide, by decide⟩,
    (isExecutable_iff ModeType samples.directoryMode (by decide)).2.1 (by decide),
    (isExecutable_iff ModeType samples.regularPlain (by decide)).2.2 (by decide) (by decide)⟩

end tools

/-! ## `KubernetesResources.Validate`: what it accepts -/

namespace specs

variable {R : Type}

theorem validateCRDs_eq_none_iff (q : String → String)
    (m : GoMap String CustomResourceDefinitionSpec) :
    validateCRDs q m = none ↔ ∀ kv ∈ m, kv.2.Scope = NamespaceScoped := by
  induction m with
  | nil => simp [validateCRDs]
  | cons kv rest ih =>
    obtain ⟨k, crd⟩ := kv
    by_cases h : crd.Scope = NamespaceScoped
    · simp [validateCRDs, h, ih]
    · simp [validateCRDs, h]

theorem validateCRs_eq_none_iff (q : String → String)
    (crds : GoMap String CustomResourceDefinitionSpec)
    (m : GoMap String (List Unstructured)) :
    validateCRs q crds m = none ↔ ∀ kv ∈ m, kv.1 ∈ GoMap.keys crds ∧ kv.2 ≠ [] := by
  induction m with
  | nil => simp [validateCRs]
  | cons kv rest ih =>
    obtain ⟨k, crs⟩ := kv
    by_cases h1 : (GoMap.get? crds k).isNone
    · have hk : k ∉ GoMap.keys crds := by
        rw [← GoMap.get?_eq_none_iff]
        simpa using h1
      simp [validateCRs, h1, hk]
    · have hk : k ∈ GoMap.keys crds := by
        by_contra hnot
        exact h1 (by simp [(GoMap.get?_eq_none_iff crds k).mpr hnot])
      by_cases h2 : crs.length = 0
      · have h3 : crs = [] := List.length_eq_zero.mp h2
        simp [validateCRs, h1, h3]
      · have h3 : crs ≠ [] := fun e => h2 (by simp [e])
        simp [validateCRs, h1, h2, h3, hk, ih]

theorem validateServiceAccounts_eq_none_iff (rbacValidate : R → Option Error)
    (sas : List (K8sServiceAccountSpec R)) :
    validateServiceAccounts rbacValidate sas = none ↔
      ∀ sa ∈ sas, sa.Name ≠ "" ∧ rbacValidate sa.RBACSpec = none := by
  induction sas with
  | nil => simp [validateServiceAccounts]
  | cons sa rest ih =>
    by_cases hn : sa.Name = ""
    · simp [validateServiceAccounts, K8sServiceAccountSpec.Validate, hn, errors.Trace]
    · cases hr : rbacValidate sa.RBACSpec with
      | none =>
        simp [validateServiceAccounts, K8sServiceAccountSpec.Validate, hn, hr, errors.Trace, ih]
      | some e =>
        simp [validateServiceAccounts, K8sServiceAccountSpec.Validate, hn, hr, errors.Trace]

theorem Validate_eq_none_iff (q : String → String) (rbacValidate : R → Option Error)
    (krs : KubernetesResources R) :
    krs.Validate q rbacValidate = none ↔
      (∀ kv ∈ krs.CustomResourceDefinitions, kv.2.Scope = NamespaceScoped) ∧
      (∀ kv ∈ krs.CustomResources,
        kv.1 ∈ GoMap.keys krs.CustomResourceDefinitions ∧ kv.2 ≠ []) ∧
      (∀ sa ∈ krs.ServiceAccounts, sa.Name ≠ "" ∧ rbacValidate sa.RBACSpec = none) := by
  rw [← validateCRDs_eq_none_iff q, ← validateCRs_eq_none_iff q,
    ← validateServiceAccounts_eq_none_iff rbacValidate]
  unfold KubernetesResources.Validate
  cases validateCRDs q krs.CustomResourceDefinitions with
  | some e => simp
  | none =>
    cases validateCRs q krs.CustomResourceDefinitions krs.CustomResources with
    | some e => simp
    | none => simp

/-- C24.  `KubernetesResources.Validate` returns success exactly when every
declared custom resource definition has scope `Namespaced`, every key of
`customResources` is a key of `customResourceDefinitions` and maps to a
non-empty list, and every service account has a non-empty name and an RBAC
spec that validates; and whether it accepts does not depend on the order in
which the maps (or the accounts) are listed. -/
theorem Validate_accepts_iff (q : String → String) (rbacValidate : R → Option Error)
    (krs : KubernetesResources R) :
    (krs.Validate q rbacValidate = none ↔
        (∀ kv ∈ krs.CustomResourceDefinitions, kv.2.Scope = NamespaceScoped) ∧
        (∀ kv ∈ krs.CustomResources,
          kv.1 ∈ GoMap.keys krs.CustomResourceDefinitions ∧ kv.2 ≠ []) ∧
        (∀ sa ∈ krs.ServiceAccounts, sa.Name ≠ "" ∧ rbacValidate sa.RBACSpec = none)) ∧
      ∀ krs' : KubernetesResources R,
        krs'.CustomResourceDefinitions.Perm krs.CustomResourceDefinitions →
        krs'.CustomResources.Perm krs.CustomResources →
        krs'.ServiceAccounts.Perm krs.ServiceAccounts →
        (krs'.Validate q rbacValidate = none ↔ krs.Validate q rbacValidate = none) := by
  refine ⟨Validate_eq_none_iff q rbacValidate krs, ?_⟩
  intro krs' h1 h2 h3
  rw [Validate_eq_none_iff, Validate_eq_none_iff]
  have hk : ∀ k, k ∈ GoMap.keys krs'.CustomResourceDefinitions ↔
      k ∈ GoMap.keys krs.CustomResourceDefinitions := by
    intro k
    exact (h1.map Prod.fst).mem_iff
  constructor
  · rintro ⟨a, b, c⟩
    refine ⟨fun kv hkv => a kv (h1.mem_iff.mpr hkv), fun kv hkv => ?_,
      fun sa hsa => c sa (h3.mem_iff.mpr hsa)⟩
    have := b kv (h2.mem_iff.mpr hkv)
    exact ⟨(hk kv.1).mp this.1, this.2⟩
  · rintro ⟨a, b, c⟩
    refine ⟨fun kv hkv => a kv (h1.mem_iff.mp hkv), fun kv hkv => ?_,
      fun sa hsa => c sa (h3.mem_iff.mp hsa)⟩
    have := b kv (h2.mem_iff.mp hkv)
    exact ⟨(hk kv.1).mpr this.1, this.2⟩

end specs

/-! ## The v2 pod specification -/

namespace specs

/-- C25.  For every v2 pod specification `p`, `ToLatest` returns a
specification with the current version, `OmitServiceFrontend` false, the
containers (same order), service, config maps and service account of the
common spec of `p`, and the Kubernetes spec of `p` as provider pod extension,
so that validating that extension gives what `K8sPodSpecV2.Validate` gives on
the Kubernetes spec of `p`. -/
theorem ToLatest_fields {C S M A R : Type} (currentVersion : Nat) (q : String → String)
    (rbacValidate : R → Option Error) (p : podSpecV2 C S M A R) :
    (p.ToLatest currentVersion).Version = currentVersion ∧
      (p.ToLatest currentVersion).OmitServiceFrontend = false ∧
      (p.ToLatest currentVersion).Containers = p.caaSSpec.Containers ∧
      (p.ToLatest currentVersion).Service = p.caaSSpec.Service ∧
      (p.ToLatest currentVersion).ConfigMaps = p.caaSSpec.ConfigMaps ∧
      (p.ToLatest currentVersion).ServiceAccount = p.caaSSpec.ServiceAccount ∧
      (p.ToLatest currentVersion).ProviderPod = some p.k8sSpec ∧
      (p.ToLatest currentVersion).ProviderPod.bind (K8sPodSpecV2.Validate q rbacValidate) =
        p.k8sSpec.Validate q rbacValidate :=
  ⟨rfl, rfl, rfl, rfl, rfl, rfl, rfl, rfl⟩

/-- The extension of the converted sample is rejected as the Kubernetes spec
of the sample is. -/
theorem ToLatest_sample :
    ((samples.v2Spec.ToLatest 3).ProviderPod.bind
        (K8sPodSpecV2.Validate samples.quoteVerb samples.rbacAccept)).isSome = true ∧
      (samples.v2Spec.ToLatest 3).Containers = ["web", "db"] := by
  constructor
  · rfl
  · rfl

theorem composeV2_ok {C K : Type} (validate : K → Option Error) (toContainerSpec : K → C)
    (cs : List K) (done old : List C) (hlen : old.length = cs.length)
    (hvalid : ∀ c ∈ cs, validate c = none) :
    composeV2 validate toContainerSpec cs done.length (done ++ old) =
      .ok (done ++ cs.map toContainerSpec) := by
  induction cs generalizing done old with
  | nil =>
    have : old = [] := List.length_eq_zero.mp hlen
    simp [composeV2, this]
  | cons c rest ih =>
    cases old with
    | nil => simp at hlen
    | cons x xs =>
      have hv := hvalid c (List.mem_cons_self _ _)
      have hlt : done.length < (done ++ x :: xs).length := by simp
      have hset : (done ++ x :: xs).set done.length (toContainerSpec c) =
          (done ++ [toContainerSpec c]) ++ xs := by
        simp [List.set_append_right]
      have hi : done.length + 1 = (done ++ [toContainerSpec c]).length := by simp
      simp only [composeV2, hv, hlt, if_true, hset]
      rw [hi, ih (done ++ [toContainerSpec c]) xs (by simpa using hlen)
        (fun c' hc' => hvalid c' (List.mem_cons_of_mem _ hc'))]
      simp

theorem composeV2_error {C K : Type} (validate : K → Option Error) (toContainerSpec : K → C)
    (pre : List K) (c : K) (post : List K) (e : Error) (done old : List C)
    (hlen : pre.length ≤ old.length) (hvalid : ∀ x ∈ pre, validate x = none)
    (hbad : validate c = some e) :
    composeV2 validate toContainerSpec (pre ++ c :: post) done.length (done ++ old) =
      .error (.err e) := by
  induction pre generalizing done old with
  | nil => simp [composeV2, hbad]
  | cons p rest ih =>
    cases old with
    | nil => simp at hlen
    | cons x xs =>
      have hv := hvalid p (List.mem_cons_self _ _)
      have hlt : done.length < (done ++ x :: xs).length := by simp
      have hset : (done ++ x :: xs).set done.length (toContainerSpec p) =
          (done ++ [toContainerSpec p]) ++ xs := by
        simp [List.set_append_right]
      have hi : done.length + 1 = (done ++ [toContainerSpec p]).length := by simp
      simp only [List.cons_append, composeV2, hv, hlt, if_true, hset]
      rw [hi]
      exact ih (done ++ [toContainerSpec p]) xs (by simpa using hlen)
        (fun x' hx' => hvalid x' (List.mem_cons_of_mem _ hx'))

/-- C26.  In `parsePodSpecV2`, when the two decodes yield container lists of
the same length: if every decoded container validates, no write is out of
range and the result has that many containers, container `i` being the
conversion of decoded container `i`; and if a decoded container fails its
validation (those before it passing), parsing fails with that container's
error. -/
theorem parsePodSpecV2_containers {C S M A R K : Type} (lib : V2Parsing C S M A R K)
    (input : String) (caaSSpec : caasspecs.PodSpecV2 C S M A) (k8sSpec : K8sPodSpecV2 R)
    (cs : List K) (h1 : lib.decodeCaaS input = .ok caaSSpec)
    (h2 : lib.decodeK8s input = .ok k8sSpec) (h3 : lib.parseContainers input = .ok cs)
    (hlen : caaSSpec.Containers.length = cs.length) :
    ((∀ c ∈ cs, lib.Validate c = none) →
        ∃ p, parsePodSpecV2 lib input = .ok p ∧
          p.caaSSpec.Containers.length = cs.length ∧
          (∀ (i : Nat) (c : K), cs[i]? = some c →
            p.caaSSpec.Containers[i]? = some (lib.ToContainerSpec c)) ∧
          p.k8sSpec = k8sSpec) ∧
      (∀ (pre : List K) (c : K) (post : List K) (e : Error), cs = pre ++ c :: post →
        (∀ x ∈ pre, lib.Validate x = none) → lib.Validate c = some e →
        parsePodSpecV2 lib input = .error (.err e)) ∧
      (∀ msg, parsePodSpecV2 lib input ≠ .error (.crashed msg)) := by
  have hok : (∀ c ∈ cs, lib.Validate c = none) →
      parsePodSpecV2 lib input =
        .ok { caaSSpec := { caaSSpec with Containers := cs.map lib.ToContainerSpec },
              k8sSpec := k8sSpec } := by
    intro hvalid
    have := composeV2_ok lib.Validate lib.ToContainerSpec cs [] caaSSpec.Containers hlen hvalid
    simp only [List.length_nil, List.nil_append] at this
    simp [parsePodSpecV2, h1, h2, h3, this]
  have herr : ∀ (pre : List K) (c : K) (post : List K) (e : Error), cs = pre ++ c :: post →
      (∀ x ∈ pre, lib.Validate x = none) → lib.Validate c = some e →
      parsePodSpecV2 lib input = .error (.err e) := by
    intro pre c post e hcs hvalid hbad
    have hle : pre.length ≤ caaSSpec.Containers.length := by
      rw [hlen, hcs]
      simp
    have := composeV2_error lib.Validate lib.ToContainerSpec pre c post e [] caaSSpec.Containers
      hle hvalid hbad
    simp only [List.length_nil, List.nil_append] at this
    simp [parsePodSpecV2, h1, h2, h3, hcs, this]
  refine ⟨?_, herr, ?_⟩
  · intro hvalid
    refine ⟨_, hok hvalid, by simp, ?_, rfl⟩
    intro i c hi
    simp [hi]
  · intro msg hcrash
    by_cases hall : ∀ c ∈ cs, lib.Validate c = none
    · rw [hok hall] at hcrash
      cases hcrash
    · have hex : ∃ c ∈ cs, lib.Validate c ≠ none := by
        by_contra hno
        apply hall
        intro c hc
        by_contra hne
        exact hno ⟨c, hc, hne⟩
      have hfind : ∃ pre c post e, cs = pre ++ c :: post ∧
          (∀ x ∈ pre, lib.Validate x = none) ∧ lib.Validate c = some e := by
        clear hok herr hcrash hall hlen h3
        induction cs with
        | nil =>
          obtain ⟨c, hc, _⟩ := hex
          simp at hc
        | cons x xs ih =>
          cases hx : lib.Validate x with
          | some e => exact ⟨[], x, xs, e, rfl, by simp, hx⟩
          | none =>
            obtain ⟨c, hc, hne⟩ := hex
            have hcx : c ∈ xs := by
              rcases List.mem_cons.mp hc with e | h
              · subst e
                exact absurd hx hne
              · exact h
            obtain ⟨pre, c', post, e, hsplit, hpre, hbad⟩ := ih ⟨c, hcx, hne⟩
            refine ⟨x :: pre, c', post, e, by simp [hsplit], ?_, hbad⟩
            intro y hy
            rcases List.mem_cons.mp hy with e' | h
            · subst e'
              exact hx
            · exact hpre y h
      obtain ⟨pre, c, post, e, hsplit, hpre, hbad⟩ := hfind
      rw [herr pre c post e hsplit hpre hbad] at hcrash
      cases hcrash

/-- Witness for C26: two containers in both decodes, all valid. -/
theorem parsePodSpecV2_containers_witness :
    ((∀ c ∈ [("web", true), ("db", true)], samples.v2Parsing.Validate c = none) →
        ∃ p, parsePodSpecV2 samples.v2Parsing "" = .ok p ∧
          p.caaSSpec.Containers.length = [("web", true), ("db", true)].length ∧
          (∀ (i : Nat) (c : String × Bool), [("web", true), ("db", true)][i]? = some c →
            p.caaSSpec.Containers[i]? = some (samples.v2Parsing.ToContainerSpec c)) ∧
          p.k8sSpec = {}) ∧
      (∀ (pre : List (String × Bool)) (c : String × Bool) (post : List (String × Bool))
          (e : Error), [("web", true), ("db", true)] = pre ++ c :: post →
        (∀ x ∈ pre, samples.v2Parsing.Validate x = none) →
        samples.v2Parsing.Validate c = some e →
        parsePodSpecV2 samples.v2Parsing "" = .error (.err e)) ∧
      (∀ msg, parsePodSpecV2 samples.v2Parsing "" ≠ .error (.crashed msg)) :=
  parsePodSpecV2_containers samples.v2Parsing "" _ _ _ rfl rfl rfl rfl

end specs

/-! ## `gke.go` -/

namespace gke

/-- C27.  Whenever the gcloud command succeeds, `getKubeConfig` returns the
qualified cluster name `gke_`, then the project and `_` when the project is
not empty, then the region and `_` when the region is not empty, then the
cluster name; the name is built from project, region and name alone, so the
credential has no part in it. -/
theorem getKubeConfig_name {ρ : Type} (env : Env ρ) (p : clusterParams)
    (result : ExecResponse)
    (hrun : env.runCommand (getKubeConfigCommand p) env.kubeConfigPath = .ok result)
    (hcode : result.Code = 0) :
    (getKubeConfig env p).qualifiedClusterName =
        "gke_" ++ (if p.project = "" then "" else p.project ++ "_") ++
          (if p.region = "" then "" else p.region ++ "_") ++ p.name ∧
      (p.project = "" → p.region = "" →
        (getKubeConfig env p).qualifiedClusterName = "gke_" ++ p.name) ∧
      ∀ credential : String,
        qualifiedClusterName { p with credential := credential } = qualifiedClusterName p := by
  have hname : (getKubeConfig env p).qualifiedClusterName = qualifiedClusterName p := by
    unfold getKubeConfig
    simp only [hrun, hcode]
    cases env.osOpen env.kubeConfigPath <;> rfl
  have hq : qualifiedClusterName p =
      "gke_" ++ (if p.project = "" then "" else p.project ++ "_") ++
        (if p.region = "" then "" else p.region ++ "_") ++ p.name := by
    unfold qualifiedClusterName
    by_cases h1 : p.project = "" <;> by_cases h2 : p.region = "" <;> simp [h1, h2]
  refine ⟨hname.trans hq, ?_, fun _ => rfl⟩
  intro h1 h2
  rw [hname, hq]
  simp [h1, h2]

/-- Witness for C27: full parameters on a machine where gcloud succeeds. -/
theorem getKubeConfig_name_witness :
    (getKubeConfig samples.quietGcloud samples.fullParams).qualifiedClusterName =
        "gke_" ++ (if samples.fullParams.project = "" then ""
          else samples.fullParams.project ++ "_") ++
          (if samples.fullParams.region = "" then "" else samples.fullParams.region ++ "_") ++
          samples.fullParams.name ∧
      (samples.fullParams.project = "" → samples.fullParams.region = "" →
        (getKubeConfig samples.quietGcloud samples.fullParams).qualifiedClusterName =
          "gke_" ++ samples.fullParams.name) ∧
      ∀ credential : String,
        qualifiedClusterName { samples.fullParams with credential := credential } =
          qualifiedClusterName samples.fullParams :=
  getKubeConfig_name samples.quietGcloud samples.fullParams _ rfl rfl

/-- The names `getKubeConfig` returns on sample parameters. -/
theorem getKubeConfig_samples :
    (getKubeConfig samples.quietGcloud samples.fullParams).qualifiedClusterName =
        "gke_myproject_us-east1_mycluster" ∧
      (getKubeConfig samples.quietGcloud
        { name := "mycluster", credential := "fred@example.com" }).qualifiedClusterName =
        "gke_mycluster" ∧
      (getKubeConfig samples.quietGcloud
        { name := "mycluster", region := "us-east1" }).qualifiedClusterName =
        "gke_us-east1_mycluster" := by
  refine ⟨?_, ?_, ?_⟩ <;> decide

/-- The text `strings.Split` makes of an empty output: one empty string. -/
theorem stringsSplit_empty : provider.stringsSplit "" '\n' = [""] := by
  decide

/-- C28, on the code: when the project listing succeeds with empty output,
`queryProject` does not fail: the list it gets is the single empty string, so
it puts to the user a choice whose only option, and default, is the empty
project id. -/
theorem queryProject_empty_output :
    listProjects samples.quietGcloud "fred@example.com" = .ok [""] ∧
      queryProject samples.quietGcloud "fred@example.com" =
        { prompts := [{ Singular := "project", Plural := "Available projects",
                        Options := [""], Default := "" }]
          result := .ok "" } := by
  constructor <;> rfl

/-- The list of projects is never empty when the listing succeeds, so the
branch "no projects have been set up" of `queryProject` is never taken. -/
theorem listProjects_never_empty {ρ : Type} (env : Env ρ) (account : String)
    (projects : List String) (h : listProjects env account = .ok projects) :
    projects.length ≠ 0 := by
  unfold listProjects at h
  cases hr : env.runCommand (listProjectsCommand account) "" with
  | error e => simp [hr] at h
  | ok result =>
    by_cases hc : result.Code = 0
    · simp only [hr, hc] at h
      injection h with h
      subst h
      unfold provider.stringsSplit
      have : ∀ cs : List Char, provider.splitChars '\n' cs ≠ [] := by
        intro cs
        cases cs with
        | nil => simp [provider.splitChars]
        | cons c rest =>
          unfold provider.splitChars
          cases provider.splitChars '\n' rest with
          | nil => simp
          | cons w ws => by_cases hcn : c = '\n' <;> simp [hcn]
      simpa using this result.Stdout.data
    · simp [hr, hc] at h

/-- C29, on the code: when the cluster listing is empty, the error text of
`queryCluster` is the same whatever the region: it keeps the placeholder
`%s` and names no region. -/
theorem queryCluster_empty_listing :
    listClusters samples.quietGcloud "fred@example.com" "myproject" "us-east1" = .ok [] ∧
      queryCluster samples.quietGcloud "fred@example.com" "myproject" "us-east1" =
        { prompts := []
          result := .error (errors.New
            "no clusters have been set up%s.\nYou can create a k8s cluster using 'gcloud container cluster create'") } ∧
      queryCluster samples.quietGcloud "fred@example.com" "myproject" "" =
        queryCluster samples.quietGcloud "fred@example.com" "myproject" "us-east1" ∧
      regionMsg "us-east1" = " in region " := by
  refine ⟨?_, ?_, ?_, ?_⟩ <;> rfl

end gke

/-! ## `SaveSubnetsFromProvider` -/

namespace state

/-- The call of the comment in the source: fan `172.31.0.0/16 -> 243.0.0.0/8`
and subnet `172.31.64.0/20` give the fan subnet `243.64.0.0/12`. -/
theorem SaveSubnetsFromProvider_example :
    (SaveSubnetsFromProvider (samples.listState [samples.fan243]) [] [samples.subnet64] "").adds =
        [samples.subnet64Info, samples.fan243Info] ∧
      (SaveSubnetsFromProvider (samples.listState [samples.fan243]) []
        [samples.subnet64] "").failure = none ∧
      (SaveSubnetsFromProvider (samples.listState [samples.fan250]) [] [samples.subnet64] "").adds =
        [samples.subnet64Info, samples.fan250Info] := by
  refine ⟨?_, ?_, ?_⟩ <;> decide

/-! ### The loops add, and only what the model lacks -/

variable {σ κ : Type}

theorem applyAdds_append (sv : Services σ κ) (st : σ) (a b : List SubnetInfo) :
    applyAdds sv st (a ++ b) = applyAdds sv (applyAdds sv st a) b := by
  simp [applyAdds, List.foldl_append]

theorem applyAdds_cons_ok (sv : Services σ κ) (st st' : σ) (info : SubnetInfo)
    (rest : List SubnetInfo) (h : sv.AddSubnet st info = .ok st') :
    applyAdds sv st (info :: rest) = applyAdds sv st' rest := by
  simp [applyAdds, h]

theorem applyAdds_single_error (sv : Services σ κ) (st : σ) (info : SubnetInfo) (e : Error)
    (h : sv.AddSubnet st info = .error e) : applyAdds sv st [info] = st := by
  simp [applyAdds, h]

/-- The first loop: the state is the one its `AddSubnet` calls produce, and
no call is for an id of the model. -/
theorem addProviderSubnets_spec (sv : Services σ κ) (ids : List String) (spaceName : String)
    (subnets : List network.SubnetInfo) (st : σ) :
    (addProviderSubnets sv ids spaceName subnets st).state =
        applyAdds sv st (addProviderSubnets sv ids spaceName subnets st).adds ∧
      ∀ info ∈ (addProviderSubnets sv ids spaceName subnets st).adds,
        info.ProviderId ∉ ids := by
  induction subnets generalizing st with
  | nil => exact ⟨rfl, by simp [addProviderSubnets]⟩
  | cons subnet rest ih =>
    by_cases hin : subnet.ProviderId ∈ ids
    · simp only [addProviderSubnets, hin, if_true]
      exact ih st
    · simp only [addProviderSubnets, hin, if_false]
      cases hadd : sv.AddSubnet st
          { ProviderId := subnet.ProviderId
            ProviderNetworkId := subnet.ProviderNetworkId
            CIDR := subnet.CIDR
            SpaceName := spaceName
            VLANTag := subnet.VLANTag
            AvailabilityZone := firstZone subnet.AvailabilityZones } with
      | error e =>
        refine ⟨(applyAdds_single_error sv st _ e hadd).symm, ?_⟩
        intro info hinfo
        simp only [List.mem_singleton] at hinfo
        subst hinfo
        exact hin
      | ok st' =>
        obtain ⟨h1, h2⟩ := ih st'
        refine ⟨?_, ?_⟩
        · simp only []
          rw [applyAdds_cons_ok sv st st' _ _ hadd]
          exact h1
        · intro info hinfo
          simp only [List.mem_cons] at hinfo
          rcases hinfo with e | hmem
          · subst e
            exact hin
          · exact h2 info hmem

theorem addProviderSubnets_known (sv : Services σ κ) (ids : List String) (spaceName : String)
    (subnets : List network.SubnetInfo) (st : σ)
    (hknown : ∀ s ∈ subnets, s.ProviderId ∈ ids) :
    addProviderSubnets sv ids spaceName subnets st =
      { state := st, adds := [], failure := none } := by
  induction subnets with
  | nil => rfl
  | cons subnet rest ih =>
    have hin := hknown subnet (List.mem_cons_self _ _)
    simp only [addProviderSubnets, hin, if_true]
    exact ih (fun s hs => hknown s (List.mem_cons_of_mem _ hs))

/-- A request of the loop over the fans is never for an id of the model. -/
theorem fanStep_add_fresh (ipNetString : net.IPNet → String) (ids : List String)
    (spaceName : String) (subnet : network.SubnetInfo) (mask ip : List Nat)
    (fan : network.FanConfigEntry) (info : SubnetInfo) (ip' : List Nat)
    (h : fanStep ipNetString ids spaceName subnet mask ip fan = .add info ip') :
    info.ProviderId ∉ ids := by
  unfold fanStep at h
  simp only [] at h
  split at h
  · split at h
    · cases h
    · split at h
      · cases h
      · rename_i hid
        split at h
        · cases h
        · split at h
          · cases h
          · injection h with h1 _
            rw [← h1]
            exact hid
  · cases h

theorem addFanSubnets_spec (sv : Services σ κ) (ids : List String) (spaceName : String)
    (subnet : network.SubnetInfo) (mask : List Nat) (fans : List network.FanConfigEntry)
    (ip : List Nat) (st : σ) :
    (addFanSubnets sv ids spaceName subnet mask fans ip st).state =
        applyAdds sv st (addFanSubnets sv ids spaceName subnet mask fans ip st).adds ∧
      ∀ info ∈ (addFanSubnets sv ids spaceName subnet mask fans ip st).adds,
        info.ProviderId ∉ ids := by
  induction fans generalizing ip st with
  | nil => exact ⟨rfl, by simp [addFanSubnets]⟩
  | cons fan rest ih =>
    cases hstep : fanStep sv.IPNetString ids spaceName subnet mask ip fan with
    | skip =>
      simp only [addFanSubnets, hstep]
      exact ih ip st
    | crash msg =>
      simp only [addFanSubnets, hstep]
      exact ⟨rfl, by simp⟩
    | add info ip' =>
      have hfresh := fanStep_add_fresh _ _ _ _ _ _ _ _ _ hstep
      simp only [addFanSubnets, hstep]
      cases hadd : sv.AddSubnet st info with
      | error e =>
        refine ⟨(applyAdds_single_error sv st _ e hadd).symm, ?_⟩
        intro info' hinfo
        simp only [List.mem_singleton] at hinfo
        subst hinfo
        exact hfresh
      | ok st' =>
        obtain ⟨h1, h2⟩ := ih ip' st'
        refine ⟨?_, ?_⟩
        · simp only []
          rw [applyAdds_cons_ok sv st st' _ _ hadd]
          exact h1
        · intro info' hinfo
          simp only [List.mem_cons] at hinfo
          rcases hinfo with e | hmem
          · subst e
            exact hfresh
          · exact h2 info' hmem

theorem addFanSubnets_known (sv : Services σ κ) (ids : List String) (spaceName : String)
    (subnet : network.SubnetInfo) (mask : List Nat) (fans : List network.FanConfigEntry)
    (ip : List Nat) (st : σ)
    (hskip : ∀ fan ∈ fans, fanStep sv.IPNetString ids spaceName subnet mask ip fan = .skip) :
    addFanSubnets sv ids spaceName subnet mask fans ip st =
      { state := st, adds := [], failure := none } := by
  induction fans with
  | nil => rfl
  | cons fan rest ih =>
    simp only [addFanSubnets, hskip fan (List.mem_cons_self _ _)]
    exact ih (fun f hf => hskip f (List.mem_cons_of_mem _ hf))

theorem addAllFanSubnets_spec (sv : Services σ κ) (ids : List String) (spaceName : String)
    (fans : List network.FanConfigEntry) (subnets : List network.SubnetInfo) (st : σ) :
    (addAllFanSubnets sv ids spaceName fans subnets st).state =
        applyAdds sv st (addAllFanSubnets sv ids spaceName fans subnets st).adds ∧
      ∀ info ∈ (addAllFanSubnets sv ids spaceName fans subnets st).adds,
        info.ProviderId ∉ ids := by
  induction subnets generalizing st with
  | nil => exact ⟨rfl, by simp [addAllFanSubnets]⟩
  | cons subnet rest ih =>
    cases hparse : sv.ParseCIDR subnet.CIDR with
    | error e =>
      simp only [addAllFanSubnets, hparse]
      exact ⟨rfl, by simp⟩
    | ok subnetNet =>
      obtain ⟨h1, h2⟩ := addFanSubnets_spec sv ids spaceName subnet subnetNet.Mask fans
        subnetNet.IP st
      simp only [addAllFanSubnets, hparse]
      cases hf : (addFanSubnets sv ids spaceName subnet subnetNet.Mask fans
          subnetNet.IP st).failure with
      | some f => exact ⟨h1, h2⟩
      | none =>
        obtain ⟨h3, h4⟩ := ih (addFanSubnets sv ids spaceName subnet subnetNet.Mask fans
          subnetNet.IP st).state
        refine ⟨?_, ?_⟩
        · simp only []
          rw [applyAdds_append, ← h1]
          exact h3
        · intro info hinfo
          simp only [List.mem_append] at hinfo
          rcases hinfo with h | h
          · exact h2 info h
          · exact h4 info h

theorem addAllFanSubnets_known (sv : Services σ κ) (ids : List String) (spaceName : String)
    (fans : List network.FanConfigEntry) (subnets : List network.SubnetInfo) (st : σ)
    (hskip : ∀ s ∈ subnets, ∃ subnetNet, sv.ParseCIDR s.CIDR = .ok subnetNet ∧
      ∀ fan ∈ fans,
        fanStep sv.IPNetString ids spaceName s subnetNet.Mask subnetNet.IP fan = .skip) :
    addAllFanSubnets sv ids spaceName fans subnets st =
      { state := st, adds := [], failure := none } := by
  induction subnets with
  | nil => rfl
  | cons subnet rest ih =>
    obtain ⟨subnetNet, hparse, hfans⟩ := hskip subnet (List.mem_cons_self _ _)
    simp only [addAllFanSubnets, hparse,
      addFanSubnets_known sv ids spaceName subnet subnetNet.Mask fans subnetNet.IP st hfans]
    rw [ih (fun s hs => hskip s (List.mem_cons_of_mem _ hs))]
    rfl

/-- The loop body skips a fan whose fan subnet is in the model. -/
theorem fanStep_skip_of_known (ipNetString : net.IPNet → String) (ids : List String)
    (spaceName : String) (subnet : network.SubnetInfo) (mask ip : List Nat)
    (fan : network.FanConfigEntry) (hlen : 4 ≤ ip.length)
    (hknown : (net.Size fan.Underlay.Mask).1 ≤ (net.Size mask).1 →
      net.Contains fan.Underlay ip = true →
      inFanId subnet.ProviderId ip (net.Size mask).1 ∈ ids) :
    fanStep ipNetString ids spaceName subnet mask ip fan = .skip := by
  unfold fanStep
  simp only []
  split
  · rename_i hguard
    have hnot : ¬ ip.length < 4 := by omega
    simp only [hnot, if_false, hknown hguard.1 hguard.2, if_true]
  · rfl

/-! ### The method is append-only -/

/-- Claim C23.  `SaveSubnetsFromProvider` is append-only: on every input the
state it leaves is the one reached by its `AddSubnet` calls and by nothing
else; none of these calls is for a provider id recorded in the model when the
call started, be it the id of a provider subnet or the derived id
`<providerId>-INFAN-<a>-<b>-<c>-<d>-<prefix>` of a fan subnet; and when the
model, its configuration and the fans can be read, the CIDR of every given
subnet parses to an address of four bytes or more, every given subnet is in
the model and so is every fan subnet the guard of the loop lets through, the
call issues no `AddSubnet`, succeeds and leaves the state as it was. -/
theorem SaveSubnetsFromProvider_append_only (sv : Services σ κ) (st : σ)
    (subnets : List network.SubnetInfo) (spaceName : String) :
    (SaveSubnetsFromProvider sv st subnets spaceName).state =
        applyAdds sv st (SaveSubnetsFromProvider sv st subnets spaceName).adds ∧
      (∀ ids : List String, getModelSubnets sv st = .ok ids →
        ∀ info ∈ (SaveSubnetsFromProvider sv st subnets spaceName).adds,
          info.ProviderId ∉ ids) ∧
      (∀ (ids : List String) (cfg : κ) (fans : List network.FanConfigEntry),
        getModelSubnets sv st = .ok ids → sv.ModelConfig st = .ok cfg →
        sv.FanConfig cfg = .ok fans →
        (∀ s ∈ subnets, s.ProviderId ∈ ids) →
        (∀ s ∈ subnets, ∃ subnetNet : net.IPNet,
          sv.ParseCIDR s.CIDR = .ok subnetNet ∧ 4 ≤ subnetNet.IP.length ∧
          ∀ fan ∈ fans,
            (net.Size fan.Underlay.Mask).1 ≤ (net.Size subnetNet.Mask).1 →
            net.Contains fan.Underlay subnetNet.IP = true →
            inFanId s.ProviderId subnetNet.IP (net.Size subnetNet.Mask).1 ∈ ids) →
        (SaveSubnetsFromProvider sv st subnets spaceName).adds = [] ∧
          (SaveSubnetsFromProvider sv st subnets spaceName).failure = none ∧
          (SaveSubnetsFromProvider sv st subnets spaceName).state = st) := by
  refine ⟨?_, ?_, ?_⟩
  · unfold SaveSubnetsFromProvider
    cases hids : getModelSubnets sv st with
    | error e => rfl
    | ok ids =>
      obtain ⟨h1, -⟩ := addProviderSubnets_spec sv ids spaceName subnets st
      simp only []
      cases hf : (addProviderSubnets sv ids spaceName subnets st).failure with
      | some f => exact h1
      | none =>
        simp only []
        cases hcfg : sv.ModelConfig (addProviderSubnets sv ids spaceName subnets st).state with
        | error e => exact h1
        | ok cfg =>
          simp only []
          cases hfans : sv.FanConfig cfg with
          | error e => exact h1
          | ok fans =>
            simp only []
            split
            · exact h1
            · obtain ⟨h3, -⟩ := addAllFanSubnets_spec sv ids spaceName fans subnets
                (addProviderSubnets sv ids spaceName subnets st).state
              simp only []
              rw [applyAdds_append, ← h1]
              exact h3
  · intro ids hids
    unfold SaveSubnetsFromProvider
    obtain ⟨-, h2⟩ := addProviderSubnets_spec sv ids spaceName subnets st
    simp only [hids]
    cases hf : (addProviderSubnets sv ids spaceName subnets st).failure with
    | some f => exact h2
    | none =>
      simp only []
      cases hcfg : sv.ModelConfig (addProviderSubnets sv ids spaceName subnets st).state with
      | error e => exact h2
      | ok cfg =>
        simp only []
        cases hfans : sv.FanConfig cfg with
        | error e => exact h2
        | ok fans =>
          simp only []
          split
          · exact h2
          · obtain ⟨-, h4⟩ := addAllFanSubnets_spec sv ids spaceName fans subnets
              (addProviderSubnets sv ids spaceName subnets st).state
            intro info hinfo
            simp only [List.mem_append] at hinfo
            rcases hinfo with h | h
            · exact h2 info h
            · exact h4 info h
  · intro ids cfg fans hids hcfg hfans hknown hfan
    have hskip : ∀ s ∈ subnets, ∃ subnetNet, sv.ParseCIDR s.CIDR = .ok subnetNet ∧
        ∀ fan ∈ fans,
          fanStep sv.IPNetString ids spaceName s subnetNet.Mask subnetNet.IP fan = .skip := by
      intro s hs
      obtain ⟨subnetNet, hparse, hlen, hall⟩ := hfan s hs
      exact ⟨subnetNet, hparse, fun fan hfanmem =>
        fanStep_skip_of_known _ _ _ _ _ _ _ hlen (hall fan hfanmem)⟩
    unfold SaveSubnetsFromProvider
    simp only [hids, addProviderSubnets_known sv ids spaceName subnets st hknown, hcfg, hfans,
      addAllFanSubnets_known sv ids spaceName fans subnets st hskip]
    split <;> exact ⟨rfl, rfl, rfl⟩

/-- A run of C23 on the model that holds the subnet `172.31.64.0/20` and its
fan subnet already, with two fans configured: nothing is added, the call
succeeds and the model is as before. -/
theorem SaveSubnetsFromProvider_append_only_witness :
    (SaveSubnetsFromProvider (samples.listState [samples.fan243, samples.fan250])
        [samples.subnet64Info, samples.fan243Info] [samples.subnet64] "").adds = [] ∧
      (SaveSubnetsFromProvider (samples.listState [samples.fan243, samples.fan250])
        [samples.subnet64Info, samples.fan243Info] [samples.subnet64] "").failure = none ∧
      (SaveSubnetsFromProvider (samples.listState [samples.fan243, samples.fan250])
        [samples.subnet64Info, samples.fan243Info] [samples.subnet64] "").state =
        [samples.subnet64Info, samples.fan243Info] :=
  (SaveSubnetsFromProvider_append_only (samples.listState [samples.fan243, samples.fan250])
    [samples.subnet64Info, samples.fan243Info] [samples.subnet64] "").2.2
    ["subnet-1", "subnet-1-INFAN-172-31-64-0-20"] [samples.fan243, samples.fan250]
    [samples.fan243, samples.fan250] rfl rfl rfl (by decide)
    (by
      intro s hs
      simp only [List.mem_singleton] at hs
      subst hs
      exact ⟨{ IP := [172, 31, 64, 0], Mask := [255, 255, 240, 0] }, rfl, by decide,
        fun _ _ _ _ => by decide⟩)

/-! ### The address of a fan subnet -/

theorem Size_CIDRMask (n : Nat) (h : n ≤ 32) : net.Size (net.CIDRMask n 32) = (n, 32) := by
  interval_cases n <;> rfl

/-- Clearing the bits of a mask byte whose complement is `2 ^ k - 1` keeps
the low `k` bits. -/
theorem andNot8_eq_mod (x m k : Nat) (hm : 0xff ^^^ m = 2 ^ k - 1) :
    andNot8 x m = x % 2 ^ k := by
  simp only [andNot8, hm]
  exact Nat.and_pow_two_sub_one_eq_mod x k

theorem andNot8_255 (x : Nat) : andNot8 x 255 = x % 1 := andNot8_eq_mod x 255 0 (by decide)
theorem andNot8_254 (x : Nat) : andNot8 x 254 = x % 2 := andNot8_eq_mod x 254 1 (by decide)
theorem andNot8_252 (x : Nat) : andNot8 x 252 = x % 4 := andNot8_eq_mod x 252 2 (by decide)
theorem andNot8_248 (x : Nat) : andNot8 x 248 = x % 8 := andNot8_eq_mod x 248 3 (by decide)
theorem andNot8_240 (x : Nat) : andNot8 x 240 = x % 16 := andNot8_eq_mod x 240 4 (by decide)
theorem andNot8_224 (x : Nat) : andNot8 x 224 = x % 32 := andNot8_eq_mod x 224 5 (by decide)
theorem andNot8_192 (x : Nat) : andNot8 x 192 = x % 64 := andNot8_eq_mod x 192 6 (by decide)
theorem andNot8_128 (x : Nat) : andNot8 x 128 = x % 128 := andNot8_eq_mod x 128 7 (by decide)
theorem andNot8_0 (x : Nat) : andNot8 x 0 = x % 256 := andNot8_eq_mod x 0 8 (by decide)

/-- The bytes of a `/u` mask of 32 bits. -/
theorem CIDRMask_bytes (u : Nat) (h : u ≤ 32) :
    ∃ m0 m1 m2 m3, net.CIDRMask u 32 = [m0, m1, m2, m3] := by
  interval_cases u <;> exact ⟨_, _, _, _, rfl⟩

/-- Clearing the bits of a `/u` mask in the four bytes of an address leaves
the low `32 - u` bits of its value. -/
theorem cleared_value (a b c d u : Nat) (hb : b < 256) (hc : c < 256) (hd : d < 256)
    (hu : u ≤ 32) :
    binary.Uint32 ([0, 1, 2, 3].map
        (fun i => andNot8 ([a, b, c, d].getD i 0) ((net.CIDRMask u 32).getD i 0))) =
      binary.Uint32 [a, b, c, d] % 2 ^ (32 - u) := by
  interval_cases u <;>
    simp [net.CIDRMask, net.cidrMaskBytes, binary.Uint32, andNot8_255, andNot8_254,
      andNot8_252, andNot8_248, andNot8_240, andNot8_224, andNot8_192, andNot8_128,
      andNot8_0] <;>
    omega


/-- Shifting a value below `2 ^ (32 - u)` left by `u - o` bits loses no bit
of a 32-bit word. -/
theorem shl32_no_loss (h u o : Nat) (hou : o ≤ u) (hu : u ≤ 32) (hh : h < 2 ^ (32 - u)) :
    shl32 h (u - o) = h * 2 ^ (u - o) ∧ h * 2 ^ (u - o) < 2 ^ (32 - o) := by
  have hlt : h * 2 ^ (u - o) < 2 ^ (32 - o) := by
    have e : 2 ^ (32 - o) = 2 ^ (32 - u) * 2 ^ (u - o) := by
      rw [← pow_add]
      congr 1
      omega
    rw [e]
    exact Nat.mul_lt_mul_of_pos_right hh (by positivity)
  refine ⟨?_, hlt⟩
  unfold shl32
  split
  · rename_i hge
    have hu32 : u = 32 := by omega
    subst hu32
    have h0 : h = 0 := by simpa using hh
    simp [h0]
  · rw [Nat.shiftLeft_eq]
    apply Nat.mod_eq_of_lt
    calc h * 2 ^ (u - o) < 2 ^ (32 - o) := hlt
      _ ≤ 2 ^ 32 := Nat.pow_le_pow_right (by decide) (by omega)

/-- A 32-bit value is the value of its four bytes. -/
theorem Uint32_PutUint32 (w : Nat) (hw : w < 2 ^ 32) :
    w = (w / 2 ^ 24 % 256) * 2 ^ 24 + (w / 2 ^ 16 % 256) * 2 ^ 16 +
      (w / 2 ^ 8 % 256) * 2 ^ 8 + w % 256 := by
  omega

/-- Byte-wise addition of a value below `2 ^ (32 - o)` and a value that is a
multiple of `2 ^ (32 - o)` overflows no byte. -/
theorem add_bytes (w0 w1 w2 w3 p q r t o : Nat) (h0 : w0 < 256) (h1 : w1 < 256)
    (h2 : w2 < 256) (h3 : w3 < 256) (hp : p < 256) (hq : q < 256) (hr : r < 256)
    (ht : t < 256) (ho : o ≤ 32)
    (hw : w0 * 2 ^ 24 + w1 * 2 ^ 16 + w2 * 2 ^ 8 + w3 < 2 ^ (32 - o))
    (hnet : (p * 2 ^ 24 + q * 2 ^ 16 + r * 2 ^ 8 + t) % 2 ^ (32 - o) = 0) :
    ((w0 + p) % 256) * 2 ^ 24 + ((w1 + q) % 256) * 2 ^ 16 + ((w2 + r) % 256) * 2 ^ 8 +
      (w3 + t) % 256 = p * 2 ^ 24 + q * 2 ^ 16 + r * 2 ^ 8 + t +
        (w0 * 2 ^ 24 + w1 * 2 ^ 16 + w2 * 2 ^ 8 + w3) := by
  interval_cases o <;> omega

/-- Adding the bytes of a network address of prefix length `o` to the bytes
of a value below `2 ^ (32 - o)`, byte by byte, adds the values: no byte
overflows. -/
theorem byte_add_value (w p q r t o : Nat) (hp : p < 256) (hq : q < 256) (hr : r < 256)
    (ht : t < 256) (ho : o ≤ 32) (hw : w < 2 ^ (32 - o))
    (hnet : binary.Uint32 [p, q, r, t] % 2 ^ (32 - o) = 0) :
    binary.Uint32 ([0, 1, 2, 3].map
        (fun i => ((binary.PutUint32 w).getD i 0 + [p, q, r, t].getD i 0) % 256)) =
      binary.Uint32 [p, q, r, t] + w := by
  have hw32 : w < 2 ^ 32 :=
    lt_of_lt_of_le hw (Nat.pow_le_pow_right (by decide) (by omega))
  have hdec := Uint32_PutUint32 w hw32
  have key := add_bytes (w / 2 ^ 24 % 256) (w / 2 ^ 16 % 256) (w / 2 ^ 8 % 256) (w % 256)
    p q r t o (Nat.mod_lt _ (by decide)) (Nat.mod_lt _ (by decide))
    (Nat.mod_lt _ (by decide)) (Nat.mod_lt _ (by decide)) hp hq hr ht ho
    (by rw [← hdec]; exact hw) hnet
  rw [← hdec] at key
  exact key


/-- The address arithmetic of the loop, on a four-byte address, for a fan
whose masks are prefix masks with `o ≤ u` and whose overlay address is a
network address. -/
theorem fanOverlayIP_value (a b c d p q r t u o : Nat) (fan : network.FanConfigEntry)
    (hb : b < 256) (hc : c < 256) (hd : d < 256)
    (hp : p < 256) (hq : q < 256) (hr : r < 256) (ht : t < 256)
    (hU : fan.Underlay.Mask = net.CIDRMask u 32) (hO : fan.Overlay.IP = [p, q, r, t])
    (hou : o ≤ u) (hu : u ≤ 32)
    (hnet : binary.Uint32 [p, q, r, t] % 2 ^ (32 - o) = 0) :
    binary.Uint32 (fanOverlayIP [a, b, c, d] fan (u - o)) =
      binary.Uint32 [p, q, r, t] + binary.Uint32 [a, b, c, d] % 2 ^ (32 - u) * 2 ^ (u - o) := by
  have hlt : binary.Uint32 [a, b, c, d] % 2 ^ (32 - u) < 2 ^ (32 - u) :=
    Nat.mod_lt _ (by positivity)
  obtain ⟨hshl, hw⟩ := shl32_no_loss _ u o hou hu hlt
  unfold fanOverlayIP
  simp only [hU, hO]
  rw [cleared_value a b c d u hb hc hd hu, hshl]
  exact byte_add_value _ p q r t o hp hq hr ht (by omega) hw hnet

theorem fanOverlayIP_bytes (newFanIP : List Nat) (fan : network.FanConfigEntry)
    (fanSize : Nat) :
    (fanOverlayIP newFanIP fan fanSize).length = 4 ∧
      ∀ x ∈ fanOverlayIP newFanIP fan fanSize, x < 256 := by
  refine ⟨rfl, ?_⟩
  intro x hx
  simp only [fanOverlayIP, List.mem_map] at hx
  obtain ⟨i, -, rfl⟩ := hx
  exact Nat.mod_lt _ (by decide)

/-- The loop body on a four-byte subnet address whose fan subnet is not in
the model: the request it issues. -/
theorem fanStep_add (ipNetString : net.IPNet → String) (ids : List String)
    (spaceName : String) (subnet : network.SubnetInfo) (mask : List Nat)
    (a b c d s u o : Nat) (fan : network.FanConfigEntry)
    (hmask : mask = net.CIDRMask s 32)
    (hU : fan.Underlay.Mask = net.CIDRMask u 32) (hO : fan.Overlay.Mask = net.CIDRMask o 32)
    (hOlen : 4 ≤ fan.Overlay.IP.length)
    (hou : o ≤ u) (hus : u ≤ s) (hs : s ≤ 32)
    (hcont : net.Contains fan.Underlay [a, b, c, d] = true)
    (hnew : inFanId subnet.ProviderId [a, b, c, d] s ∉ ids) :
    fanStep ipNetString ids spaceName subnet mask [a, b, c, d] fan =
      .add
        { ProviderId := inFanId subnet.ProviderId [a, b, c, d] s
          ProviderNetworkId := subnet.ProviderNetworkId
          CIDR := ipNetString
            { IP := fanOverlayIP [a, b, c, d] fan (u - o)
              Mask := net.CIDRMask (o + (s - u)) 32 }
          SpaceName := spaceName
          VLANTag := subnet.VLANTag
          AvailabilityZone := firstZone subnet.AvailabilityZones
          FanLocalUnderlay := subnet.CIDR
          FanOverlay := ipNetString fan.Overlay }
        (fanOverlayIP [a, b, c, d] fan (u - o)) := by
  have hs1 := Size_CIDRMask s hs
  have hu1 := Size_CIDRMask u (by omega)
  have ho1 := Size_CIDRMask o (by omega)
  have hlen : ¬ fan.Overlay.IP.length < 4 := by omega
  have hoff : net.To4Offset [a, b, c, d] = some 0 := rfl
  have hfs : fanSizeOf u o = u - o := by simp [fanSizeOf, hou]
  subst hmask
  unfold fanStep
  simp only [hs1, hu1, ho1, hU, hO, hus, hcont, and_self, if_true, hnew, if_false, hoff, hlen,
    hfs]
  simp


/-- The arithmetic of the loop body for a fan that finds the address of the
subnet untouched in `subnetNet.IP` (no fan before it in the list has issued a
request for this subnet).  On an IPv4 subnet `S` of address `a.b.c.d` and
prefix length `s` and on a fan whose underlay has prefix length `u` and
contains the address, whose overlay has prefix length `o` and the network
address `p.q.r.t`, with `o ≤ u ≤ s ≤ 32`, when the id of the fan subnet is not
in the model: the body requests a fan subnet whose mask is the prefix mask of
length `o + (s - u)` and whose address is four bytes of value the overlay
address plus the part of the address of `S` under the zeros of the underlay
mask shifted left by `u - o` bits; and it leaves that address in
`subnetNet.IP`. -/
theorem fanStep_fan_subnet (ipNetString : net.IPNet → String)
    (ids : List String) (spaceName : String) (subnet : network.SubnetInfo) (mask : List Nat)
    (a b c d p q r t s u o : Nat) (fan : network.FanConfigEntry)
    (hb : b < 256) (hc : c < 256) (hd : d < 256)
    (hp : p < 256) (hq : q < 256) (hr : r < 256) (ht : t < 256)
    (hmask : mask = net.CIDRMask s 32)
    (hU : fan.Underlay.Mask = net.CIDRMask u 32) (hO : fan.Overlay.Mask = net.CIDRMask o 32)
    (hOip : fan.Overlay.IP = [p, q, r, t])
    (hou : o ≤ u) (hus : u ≤ s) (hs : s ≤ 32)
    (hnet : binary.Uint32 [p, q, r, t] % 2 ^ (32 - o) = 0)
    (hcont : net.Contains fan.Underlay [a, b, c, d] = true)
    (hnew : inFanId subnet.ProviderId [a, b, c, d] s ∉ ids) :
    fanStep ipNetString ids spaceName subnet mask [a, b, c, d] fan =
        .add
          { ProviderId := inFanId subnet.ProviderId [a, b, c, d] s
            ProviderNetworkId := subnet.ProviderNetworkId
            CIDR := ipNetString
              { IP := fanOverlayIP [a, b, c, d] fan (u - o)
                Mask := net.CIDRMask (o + (s - u)) 32 }
            SpaceName := spaceName
            VLANTag := subnet.VLANTag
            AvailabilityZone := firstZone subnet.AvailabilityZones
            FanLocalUnderlay := subnet.CIDR
            FanOverlay := ipNetString fan.Overlay }
          (fanOverlayIP [a, b, c, d] fan (u - o)) ∧
      net.Size (net.CIDRMask (o + (s - u)) 32) = (o + (s - u), 32) ∧
      (fanOverlayIP [a, b, c, d] fan (u - o)).length = 4 ∧
      (∀ x ∈ fanOverlayIP [a, b, c, d] fan (u - o), x < 256) ∧
      binary.Uint32 (fanOverlayIP [a, b, c, d] fan (u - o)) =
        binary.Uint32 [p, q, r, t] +
          binary.Uint32 [a, b, c, d] % 2 ^ (32 - u) * 2 ^ (u - o) :=
  ⟨fanStep_add ipNetString ids spaceName subnet mask a b c d s u o fan hmask hU hO
      (by simp [hOip]) hou hus hs hcont hnew,
    Size_CIDRMask _ (by omega),
    (fanOverlayIP_bytes _ _ _).1,
    (fanOverlayIP_bytes _ _ _).2,
    fanOverlayIP_value a b c d p q r t u o fan hb hc hd hp hq hr ht hU hOip hou (by omega) hnet⟩

/-- The fan `172.31.0.0/16 -> 243.0.0.0/8` on the untouched address of the
subnet `172.31.64.0/20`: the loop body requests the fan subnet
`243.64.0.0/12`, whose address is `243.0.0.0` plus the low sixteen bits of
`172.31.64.0` shifted left by eight bits. -/
theorem fanStep_fan_subnet_example :
    fanStep samples.ipv4NetString [] "" samples.subnet64 [255, 255, 240, 0] [172, 31, 64, 0]
        samples.fan243 = .add samples.fan243Info [243, 64, 0, 0] ∧
      net.Size (net.CIDRMask (8 + (20 - 16)) 32) = (12, 32) ∧
      binary.Uint32 [243, 64, 0, 0] =
        binary.Uint32 [243, 0, 0, 0] + binary.Uint32 [172, 31, 64, 0] % 2 ^ 16 * 2 ^ 8 :=
  have h := fanStep_fan_subnet samples.ipv4NetString [] "" samples.subnet64
    [255, 255, 240, 0] 172 31 64 0 243 0 0 0 20 16 8 samples.fan243
    (by decide) (by decide) (by decide) (by decide) (by decide) (by decide) (by decide)
    (by decide) (by decide) (by decide) (by decide) (by decide) (by decide) (by decide)
    (by decide) (by decide) (by decide)
  ⟨h.1, h.2.1, h.2.2.2.2⟩

/-- Claim C22, on the code, for the claim's own example: the fan
`172.31.0.0/16 -> 243.0.0.0/8` and the subnet `172.31.64.0/20`, with the fan
`172.16.0.0/12 -> 250.0.0.0/8` configured before it.  The fan meets the
conditions of the claim (its underlay contains the address of the subnet and
its prefix length 16 is at most 20), and the fan subnet of the claim is
`243.64.0.0/12`: prefix length `8 + (20 - 16)`, address `243.0.0.0` plus the
low sixteen bits of `172.31.64.0` shifted left by eight bits; configured
alone, the fan gets it.  With the other fan before it the method succeeds and
derives no fan subnet for it: no request has the overlay `243.0.0.0/8`.  The
request for the first fan has left `250.244.0.0` in `subnetNet.IP`, which the
underlay `172.31.0.0/16` does not contain, so the loop body skips the fan. -/
theorem SaveSubnetsFromProvider_fan_subnet_lost :
    net.Contains samples.fan243.Underlay [172, 31, 64, 0] = true ∧
      (net.Size samples.fan243.Underlay.Mask).1 ≤ (net.Size [255, 255, 240, 0]).1 ∧
      (net.Size samples.fan243.Overlay.Mask).1 +
        ((net.Size [255, 255, 240, 0]).1 - (net.Size samples.fan243.Underlay.Mask).1) = 12 ∧
      binary.Uint32 samples.fan243.Overlay.IP +
        binary.Uint32 [172, 31, 64, 0] % 2 ^ (32 - 16) * 2 ^ (16 - 8) =
          binary.Uint32 [243, 64, 0, 0] ∧
      samples.fan243Info ∈
        (SaveSubnetsFromProvider (samples.listState [samples.fan243]) [] [samples.subnet64]
          "").adds ∧
      (SaveSubnetsFromProvider (samples.listState [samples.fan250, samples.fan243]) []
        [samples.subnet64] "").failure = none ∧
      (SaveSubnetsFromProvider (samples.listState [samples.fan250, samples.fan243]) []
        [samples.subnet64] "").adds = [samples.subnet64Info, samples.fan250Info] ∧
      (∀ info ∈ (SaveSubnetsFromProvider (samples.listState [samples.fan250, samples.fan243])
          [] [samples.subnet64] "").adds,
        info.FanOverlay ≠ "243.0.0.0/8" ∧ info.CIDR ≠ "243.64.0.0/12") ∧
      net.Contains samples.fan243.Underlay [250, 244, 0, 0] = false ∧
      fanStep samples.ipv4NetString [] "" samples.subnet64 [255, 255, 240, 0] [250, 244, 0, 0]
        samples.fan243 = .skip := by
  decide

/-- Claim C30, on the subnet `172.31.64.0/20` and the fans
`172.31.0.0/16 -> 243.0.0.0/8` and `172.16.0.0/12 -> 250.0.0.0/8`, both of
which contain the subnet.  Each fan alone adds its fan subnet, `243.64.0.0/12`
and `250.244.0.0/16`.  With both configured only the fan subnet of the first
in the list is added: the arithmetic for the first fan has rewritten the
address of the subnet (to `243.64.0.0`, to `250.244.0.0`), and the second fan
does not contain that address. -/
theorem SaveSubnetsFromProvider_fans_interfere :
    (SaveSubnetsFromProvider (samples.listState [samples.fan243]) [] [samples.subnet64]
        "").adds = [samples.subnet64Info, samples.fan243Info] ∧
      (SaveSubnetsFromProvider (samples.listState [samples.fan250]) [] [samples.subnet64]
        "").adds = [samples.subnet64Info, samples.fan250Info] ∧
      (SaveSubnetsFromProvider (samples.listState [samples.fan243, samples.fan250]) []
        [samples.subnet64] "").adds = [samples.subnet64Info, samples.fan243Info] ∧
      (SaveSubnetsFromProvider (samples.listState [samples.fan250, samples.fan243]) []
        [samples.subnet64] "").adds = [samples.subnet64Info, samples.fan250Info] ∧
      (SaveSubnetsFromProvider (samples.listState [samples.fan243, samples.fan250]) []
        [samples.subnet64] "").failure = none ∧
      fanStep samples.ipv4NetString [] "" samples.subnet64 [255, 255, 240, 0] [172, 31, 64, 0]
        samples.fan243 = .add samples.fan243Info [243, 64, 0, 0] ∧
      fanStep samples.ipv4NetString [] "" samples.subnet64 [255, 255, 240, 0] [243, 64, 0, 0]
        samples.fan250 = .skip ∧
      fanStep samples.ipv4NetString [] "" samples.subnet64 [255, 255, 240, 0] [172, 31, 64, 0]
        samples.fan250 = .add samples.fan250Info [250, 244, 0, 0] := by
  decide

end state

end Juju
